import Mathlib

/-! DCP connection map: backfill admission and the connection registry.

A shallow embedding of `engines/ep/src/dcp/dcpconnmap.cc`.

* `Backfills` is the `backfills` member of `DcpConnMap`: the two counters
  guarded by `backfills.mutex`.  Both are `uint16_t` in the C++ (see
  `uint16_t newMaxActive = backfills.maxActiveSnoozing` and the `PRIu16` format
  in `updateMaxActiveSnoozingBackfills`), so they are natural numbers here and
  the one increment is taken modulo `2 ^ 16`.
* `DcpConnMap` is the registry: a store of channel objects addressed by
  reference (the `connection_t` smart pointers), the cookie map `map_`, the
  list `deadConnections`, the per-vbucket lists `vbConns` and a log of the
  calls made into collaborators that live outside this file.

Each method is embedded as a sequential state transformer: what one call does
when no other thread runs in between.
-/

namespace DcpConnMap

/-! ## Backfill admission -/

/-- The range of a `uint16_t`. -/
def uint16Size : Nat := 65536

/-- The `backfills` member: `numActiveSnoozing` and `maxActiveSnoozing`. -/
structure Backfills where
  numActiveSnoozing : Nat
  maxActiveSnoozing : Nat
deriving DecidableEq, Repr

/-- Both counters are representable as `uint16_t`. -/
def Backfills.InRange (b : Backfills) : Prop :=
  b.numActiveSnoozing < uint16Size ∧ b.maxActiveSnoozing < uint16Size

instance (b : Backfills) : Decidable b.InRange := by
  unfold Backfills.InRange; infer_instance

/-- Embeds `DcpConnMap::canAddBackfillToActiveQ`: the new state and the returned flag. -/
def canAddBackfillToActiveQ (b : Backfills) : Backfills × Bool :=
  if b.numActiveSnoozing < b.maxActiveSnoozing then
    ({ b with numActiveSnoozing := (b.numActiveSnoozing + 1) % uint16Size }, true)
  else
    (b, false)

/-- Embeds `DcpConnMap::decrNumActiveSnoozingBackfills`: decrement when positive,
otherwise only a warning is logged. -/
def decrNumActiveSnoozingBackfills (b : Backfills) : Backfills :=
  if b.numActiveSnoozing > 0 then
    { b with numActiveSnoozing := b.numActiveSnoozing - 1 }
  else
    b

/-- One call on the admission state. -/
inductive BackfillCall where
  | tryAcquire
  | release
deriving DecidableEq, Repr

/-- The admission state after one call (the flag of `tryAcquire` is dropped). -/
def BackfillCall.apply (b : Backfills) : BackfillCall → Backfills
  | .tryAcquire => (canAddBackfillToActiveQ b).1
  | .release => decrNumActiveSnoozingBackfills b

/-- The admission state after a finite sequence of calls, first call first. -/
def runBackfillCalls (b : Backfills) (calls : List BackfillCall) : Backfills :=
  calls.foldl BackfillCall.apply b

/-! ## Channels and the registry state -/

/-- The dynamic type of a channel object, as told apart by the
`dynamic_cast<DcpProducer*>` tests of the registry. -/
inductive ConnKind where
  | producer
  | consumer
deriving DecidableEq, Repr

/-- A channel object (`ConnHandler`, with its `DcpProducer` / `DcpConsumer`
subclass): the members the registry reads or writes.  `streams` holds the
vbuckets for which the channel has a stream: `getVBVector()` of a producer,
the vbuckets with `isStreamPresent` of a consumer. -/
structure ConnHandler where
  kind : ConnKind
  cookie : Nat
  name : String
  connected : Bool
  disconnect : Bool
  paused : Bool
  reserved : Bool
  streams : List Nat
deriving DecidableEq, Repr

/-- Modelled from the spec: `ConnHandler::setDisconnect()` is declared outside
this file; the spec says it marks the channel "want-disconnect"
(`disconnect = true`), as `TapConnection::setDisconnect(true)` does. -/
def ConnHandler.setDisconnect (h : ConnHandler) : ConnHandler :=
  { h with disconnect := true }

/-- The flag read by `doDisconnect()`. -/
def ConnHandler.doDisconnect (h : ConnHandler) : Bool := h.disconnect

/-- The members of a new channel that only the `DcpProducer` / `DcpConsumer`
constructors decide.  These constructors are outside this file, so their choice
is a parameter of the embedding. -/
structure InitFlags where
  paused : Bool
  reserved : Bool
deriving DecidableEq, Repr

/-- Modelled from the spec: the state of a freshly constructed channel.  The
`DcpProducer` / `DcpConsumer` constructors are outside this file; the base
constructor (`TapConnection`) stores the cookie and the name and starts with
`connected = true` and `disconnect = false`; a new channel has no stream yet;
`paused` and `reserved` are whatever the subclass constructor sets. -/
def ConnHandler.create (init : ConnKind → InitFlags) (kind : ConnKind) (cookie : Nat)
    (name : String) : ConnHandler :=
  { kind := kind, cookie := cookie, name := name, connected := true,
    disconnect := false, paused := (init kind).paused,
    reserved := (init kind).reserved, streams := [] }

/-- A call made by the registry into a collaborator whose code is outside this
file.  Channels are named by their reference, the front-end by the cookie. -/
inductive ExtCall where
  | closeAllStreams (conn : Nat)
  | clearCheckpointProcessorTaskQueues (conn : Nat)
  | cancelTask (conn : Nat)
  | releaseReference (conn : Nat)
  | notifyIOComplete (cookie : Nat)
  | notifyPaused (conn : Nat) (schedule : Bool)
  | notifySeqnoAvailable (conn : Nat) (vbid : Nat) (bySeqno : Nat)
  | notifierStop
deriving DecidableEq, Repr

/-- The registry.  `conns` is the store of channel objects; a `connection_t` is
an index into it, and an index without an object stands for a null
`connection_t`.  `map_` lists the entries of the `std::map` in iteration order
(ascending cookie), `vbConns` is indexed by vbucket id and `calls` logs the
calls into collaborators, oldest first. -/
structure State where
  conns : List ConnHandler
  map_ : List (Nat × Nat)
  deadConnections : List Nat
  vbConns : List (List Nat)
  calls : List ExtCall
deriving DecidableEq, Repr

/-- The registry right after construction: no channel at all. -/
def State.empty : State :=
  { conns := [], map_ := [], deadConnections := [], vbConns := [], calls := [] }

/-- Embeds `map_.find(cookie)`: the connection stored under `cookie`, if any. -/
def mapFind : List (Nat × Nat) → Nat → Option Nat
  | [], _ => none
  | e :: m, cookie => if e.1 = cookie then some e.2 else mapFind m cookie

/-- Embeds `map_.erase(itr)` for the iterator returned by `map_.find(cookie)`. -/
def mapErase : List (Nat × Nat) → Nat → List (Nat × Nat)
  | [], _ => []
  | e :: m, cookie => if e.1 = cookie then m else e :: mapErase m cookie

/-- Embeds `map_[cookie] = conn` on the ordered map. -/
def mapInsert : List (Nat × Nat) → Nat → Nat → List (Nat × Nat)
  | [], cookie, conn => [(cookie, conn)]
  | e :: m, cookie, conn =>
    if cookie < e.1 then (cookie, conn) :: e :: m
    else if e.1 = cookie then (cookie, conn) :: m
    else e :: mapInsert m cookie conn

/-- The type invariant of `std::map`: keys strictly ascending, hence unique. -/
def MapSorted (m : List (Nat × Nat)) : Prop :=
  m.Pairwise (fun a b => a.1 < b.1)

instance (m : List (Nat × Nat)) : Decidable (MapSorted m) := by
  unfold MapSorted; infer_instance

/-- Embeds `conn->setDisconnect()` through a reference. -/
def setDisconnectAt (conns : List ConnHandler) (conn : Nat) : List ConnHandler :=
  conns.modify ConnHandler.setDisconnect conn

/-- The body of the name-collision loop of `newProducer` / `newConsumer` for
one map entry: `if (conn->getName() == conn_name) conn->setDisconnect()`. -/
def disconnectIfNamed (conn_name : String) (conns : List ConnHandler)
    (e : Nat × Nat) : List ConnHandler :=
  match conns[e.2]? with
  | some h => if h.name = conn_name then setDisconnectAt conns e.2 else conns
  | none => conns

/-- The name-collision loop of `newProducer` / `newConsumer`: every channel of
`map_` whose name is `conn_name` is marked disconnect. -/
def disconnectSameName (conns : List ConnHandler) (m : List (Nat × Nat))
    (conn_name : String) : List ConnHandler :=
  m.foldl (disconnectIfNamed conn_name) conns

/-- The common body of `newProducer` and `newConsumer`, which differ only in
the class of the object they construct. -/
def newConn (init : ConnKind → InitFlags) (kind : ConnKind) (s : State)
    (cookie : Nat) (name : String) : State × Option Nat :=
  let conn_name := "eq_dcpq:" ++ name
  match mapFind s.map_ cookie with
  | some conn => ({ s with conns := setDisconnectAt s.conns conn }, none)
  | none =>
    let conns := disconnectSameName s.conns s.map_ conn_name
    let dcp := conns.length
    ({ s with conns := conns ++ [ConnHandler.create init kind cookie conn_name],
              map_ := mapInsert s.map_ cookie dcp },
     some dcp)

/-- Embeds `DcpConnMap::newProducer`: the new registry and the returned producer
(`none` for `nullptr`).  `flags` and `jsonExtra` only configure parts of the
producer that the registry never reads. -/
def newProducer (init : ConnKind → InitFlags) (s : State) (cookie : Nat)
    (name : String) (_flags : Nat) (_jsonExtra : List Nat) : State × Option Nat :=
  newConn init ConnKind.producer s cookie name

/-- Embeds `DcpConnMap::newConsumer`. -/
def newConsumer (init : ConnKind → InitFlags) (s : State) (cookie : Nat)
    (name : String) : State × Option Nat :=
  newConn init ConnKind.consumer s cookie name

/-- The stream shutdown of `disconnect`, done outside `connsLock`: the calls
made on a producer, respectively on a consumer. -/
def closeCalls (kind : ConnKind) (conn : Nat) : List ExtCall :=
  match kind with
  | .producer => [.closeAllStreams conn, .clearCheckpointProcessorTaskQueues conn]
  | .consumer => [.cancelTask conn, .closeAllStreams conn]

/-- Embeds `DcpConnMap::disconnect`. -/
def disconnect (s : State) (cookie : Nat) : State :=
  match mapFind s.map_ cookie with
  | none => s
  | some conn =>
    match s.conns[conn]? with
    | none => s
    | some h =>
      { s with conns := setDisconnectAt s.conns conn,
               map_ := mapErase s.map_ cookie,
               calls := s.calls ++ closeCalls h.kind conn,
               deadConnections := s.deadConnections ++ [conn] }

/-- The first loop of `manageConnections`: while `deadConnections` is not
empty, its front is appended to `release` and popped.  Returns the two lists
`(deadConnections, release)` at loop exit. -/
def drainDeadConnections : List Nat → List Nat → List Nat × List Nat
  | [], release => ([], release)
  | conn :: dead, release => drainDeadConnections dead (release ++ [conn])

/-- The test of the collection loop of `manageConnections`:
`conn.get() && (conn->isPaused() || conn->doDisconnect()) && conn->isReserved()`. -/
def needsNotify (conns : List ConnHandler) (conn : Nat) : Bool :=
  match conns[conn]? with
  | some h => (h.paused || h.doDisconnect) && h.reserved
  | none => false

/-- The notification loop of `manageConnections` under `releaseLock`: one
`notifyIOComplete(cookie, ENGINE_SUCCESS)` per collected channel that is
(still) reserved. -/
def notifyCalls (conns : List ConnHandler) (toNotify : List Nat) : List ExtCall :=
  toNotify.filterMap fun conn =>
    match conns[conn]? with
    | some h => if h.reserved then some (.notifyIOComplete h.cookie) else none
    | none => none

/-- Modelled from the spec: `ConnHandler::releaseReference()` is outside this
file; by the spec it releases the reference the front-end holds on a reserved
channel, after which the channel is no longer reserved.  The call is logged. -/
def releaseReference (s : State) (conn : Nat) : State :=
  { s with conns := s.conns.modify (fun h => { h with reserved := false }) conn,
           calls := s.calls ++ [.releaseReference conn] }

/-- The cookie of the channel behind a reference (`conn->getCookie()`); `none`
when there is no object behind it. -/
def cookieAt (conns : List ConnHandler) (conn : Nat) : Option Nat :=
  (conns[conn]?).map ConnHandler.cookie

/-- The inner loop of `removeVBConnections` over one list `vbConns[vbid]`:
erase the first entry whose cookie is `cookie`, then stop. -/
def eraseFirstWithCookie (conns : List ConnHandler) (cookie : Nat) :
    List Nat → List Nat
  | [] => []
  | e :: vb_conns =>
    if cookieAt conns e = some cookie then vb_conns
    else e :: eraseFirstWithCookie conns cookie vb_conns

/-- The outer loop of `removeVBConnections`: for each `vbid` of the producer's
`getVBVector()`, in order, the inner loop runs on `vbConns[vbid]`. -/
def removeFromVBConns (conns : List ConnHandler) (cookie : Nat)
    (vbConns : List (List Nat)) (vbids : List Nat) : List (List Nat) :=
  vbids.foldl
    (fun vbs vbid => vbs.modify (eraseFirstWithCookie conns cookie) vbid)
    vbConns

/-- Embeds `DcpConnMap::removeVBConnections`: nothing for a channel that is not a
producer; otherwise one pass over `getVBVector()`. -/
def removeVBConnections (s : State) (conn : Nat) : State :=
  match s.conns[conn]? with
  | none => s
  | some h =>
    match h.kind with
    | .consumer => s
    | .producer =>
      { s with vbConns := removeFromVBConns s.conns h.cookie s.vbConns h.streams }

/-- The last loop of `manageConnections`: for each channel of `release`, front
first, `releaseReference()` and then `removeVBConnections`. -/
def releaseAll (s : State) (release : List Nat) : State :=
  release.foldl (fun st conn => removeVBConnections (releaseReference st conn) conn) s

/-- Embeds `DcpConnMap::manageConnections`. -/
def manageConnections (s : State) : State :=
  let drained := drainDeadConnections s.deadConnections []
  let toNotify := (s.map_.filter fun e => needsNotify s.conns e.2).map Prod.snd
  let s1 : State :=
    { s with deadConnections := drained.1,
             calls := s.calls ++ notifyCalls s.conns toNotify }
  releaseAll s1 drained.2

/-- The channels on which `releaseReference()` is called in a call log, in call
order. -/
def releasedConns (calls : List ExtCall) : List Nat :=
  calls.filterMap fun c =>
    match c with
    | .releaseReference conn => some conn
    | _ => none

/-- At most one entry of the list `vb_conns` has the cookie `cookie`. -/
def AtMostOneWithCookie (conns : List ConnHandler) (cookie : Nat)
    (vb_conns : List Nat) : Prop :=
  vb_conns.Pairwise
    (fun a b => ¬ (cookieAt conns a = some cookie ∧ cookieAt conns b = some cookie))

/-- The index entries under the cookie of the channel behind `conn` are backed
by that channel: each list `vbConns[vbid]` holds at most one entry with its
cookie, and holds one only when the channel is a producer and `vbid` is in its
`getVBVector()`. -/
def VBConnsBacked (s : State) (conn : Nat) : Prop :=
  ∀ k, s.conns[conn]? = some k →
    ∀ vbid vb_conns, s.vbConns[vbid]? = some vb_conns →
      AtMostOneWithCookie s.conns k.cookie vb_conns ∧
      ((∃ e ∈ vb_conns, cookieAt s.conns e = some k.cookie) →
        k.kind = ConnKind.producer ∧ vbid ∈ k.streams)

/-- No list `vbConns[v]` holds an entry whose cookie is `cookie`. -/
def NoVBConnWithCookie (s : State) (cookie : Nat) : Prop :=
  ∀ vb_conns ∈ s.vbConns, ∀ e ∈ vb_conns, cookieAt s.conns e ≠ some cookie

/-- A dead channel `P0` (cookie 7, stream on vbucket 0) whose cookie the
front-end has reused for a new producer `P1` with a stream on the same
vbucket; both are indexed under vbucket 0, `P1` is bound in `map_`. -/
def cookieReuseState : State :=
  { conns :=
      [{ kind := ConnKind.producer, cookie := 7, name := "eq_dcpq:old",
         connected := true, disconnect := true, paused := false, reserved := false,
         streams := [0] },
       { kind := ConnKind.producer, cookie := 7, name := "eq_dcpq:new",
         connected := true, disconnect := false, paused := false, reserved := false,
         streams := [0] }],
    map_ := [(7, 1)],
    deadConnections := [0],
    vbConns := [[0, 1]],
    calls := [ExtCall.closeAllStreams 0, ExtCall.clearCheckpointProcessorTaskQueues 0] }

/-- One registry operation that opens or closes a channel. -/
inductive RegistryOp where
  | newProducer (cookie : Nat) (name : String) (flags : Nat) (jsonExtra : List Nat)
  | newConsumer (cookie : Nat) (name : String)
  | disconnect (cookie : Nat)
deriving DecidableEq, Repr

/-- The registry after one operation (a returned channel is dropped). -/
def RegistryOp.apply (init : ConnKind → InitFlags) (s : State) : RegistryOp → State
  | .newProducer cookie name flags jsonExtra =>
    (DcpConnMap.newProducer init s cookie name flags jsonExtra).1
  | .newConsumer cookie name => (DcpConnMap.newConsumer init s cookie name).1
  | .disconnect cookie => DcpConnMap.disconnect s cookie

/-- The registry after a finite sequence of operations, first one first. -/
def runRegistryOps (init : ConnKind → InitFlags) (s : State)
    (ops : List RegistryOp) : State :=
  ops.foldl (RegistryOp.apply init) s

/-- Every entry `cookie ↦ conn` of `map_` leads to a channel object whose
`getCookie()` is `cookie`. -/
def CookieInv (s : State) : Prop :=
  ∀ e ∈ s.map_, ∃ h, s.conns[e.2]? = some h ∧ h.cookie = e.1

/-- What one round of the name-collision loop does to a channel object: it is
marked when its name is `conn_name` and the round `hit` it. -/
def markIf (conn_name : String) (hit : Prop) [Decidable hit] (h : ConnHandler) :
    ConnHandler :=
  if h.name = conn_name ∧ hit then h.setDisconnect else h

/-- The part of a channel object that never changes after construction, as far
as the registry is concerned: class, cookie and `getVBVector()`. -/
def identAt (conns : List ConnHandler) (conn : Nat) :
    Option (ConnKind × Nat × List Nat) :=
  (conns[conn]?).map fun h => (h.kind, h.cookie, h.streams)

/-- The state `s2` has the same channels as `s1` (up to their flags) and each of
its `vbConns` lists is a sublist of the one of `s1`. -/
structure Shrinks (s1 s2 : State) : Prop where
  ident : ∀ i, identAt s2.conns i = identAt s1.conns i
  sublist : ∀ (v : Nat) (l2 : List Nat), s2.vbConns[v]? = some l2 →
    ∃ l1, s1.vbConns[v]? = some l1 ∧ l2.Sublist l1

/-- Some choice of the constructors for the witnesses below. -/
def exampleInit : ConnKind → InitFlags :=
  fun _ => { paused := true, reserved := true }

/-- The channel of `oneProducerState`. -/
def exampleProducer : ConnHandler :=
  { kind := ConnKind.producer, cookie := 10, name := "eq_dcpq:n1", connected := true,
    disconnect := false, paused := true, reserved := true, streams := [] }

/-- A registry with one producer, bound to cookie 10. -/
def oneProducerState : State :=
  { conns := [exampleProducer], map_ := [(10, 0)], deadConnections := [],
    vbConns := [], calls := [] }

/-- A registry whose only channel is a disconnected producer (cookie 7, stream
on vbucket 0) waiting in `deadConnections` and indexed under vbucket 0. -/
def reapState : State :=
  { conns :=
      [{ kind := ConnKind.producer, cookie := 7, name := "eq_dcpq:old",
         connected := true, disconnect := true, paused := false, reserved := true,
         streams := [0] }],
    map_ := [],
    deadConnections := [0],
    vbConns := [[0]],
    calls := [ExtCall.closeAllStreams 0, ExtCall.clearCheckpointProcessorTaskQueues 0] }

/-! ## Passive streams -/

/-- Modelled from the spec: `ENGINE_ERROR_CODE` is declared outside this
repository's sources.  The error kinds the spec names have a constructor each,
any other code is kept by its number. -/
inductive ENGINE_ERROR_CODE where
  | ENGINE_SUCCESS
  | ENGINE_KEY_EEXISTS
  | ENGINE_DISCONNECT
  | ENGINE_TMPFAIL
  | other (code : Nat)
deriving DecidableEq, Repr

/-- Modelled from the spec: `DcpConsumer::isStreamPresent(vbucket)` is outside
this file; it tells whether the consumer has a passive stream for `vbucket`. -/
def ConnHandler.isStreamPresent (h : ConnHandler) (vbucket : Nat) : Bool :=
  decide (vbucket ∈ h.streams)

/-- The test of the loop of `isPassiveStreamConnected_UNLOCKED` for one
connection: `dcpConsumer && dcpConsumer->isStreamPresent(vbucket)`, where
`dcpConsumer` is the `dynamic_cast<DcpConsumer*>` of the connection. -/
def hasPassiveStream (conns : List ConnHandler) (conn vbucket : Nat) : Bool :=
  match conns[conn]? with
  | some h => decide (h.kind = ConnKind.consumer) && h.isStreamPresent vbucket
  | none => false

/-- Embeds `DcpConnMap::isPassiveStreamConnected_UNLOCKED`: true as soon as one
connection of `map_` passes the test. -/
def isPassiveStreamConnected_UNLOCKED (s : State) (vbucket : Nat) : Bool :=
  s.map_.any fun e => hasPassiveStream s.conns e.2 vbucket

/-- The virtual `ConnHandler::addStream(opaque, vbucket, flags)` called through
`conn`: its code is outside this file, so it is a parameter.  It gets the
registry, the connection and the three arguments, and yields the registry after
the call and the returned code. -/
abbrev AddStream := State → Nat → Nat → Nat → Nat → State × ENGINE_ERROR_CODE

/-- Embeds `DcpConnMap::addPassiveStream`. -/
def addPassiveStream (addStream : AddStream) (s : State) (conn opq vbucket flags : Nat) :
    State × ENGINE_ERROR_CODE :=
  if isPassiveStreamConnected_UNLOCKED s vbucket then
    (s, ENGINE_ERROR_CODE.ENGINE_KEY_EEXISTS)
  else
    addStream s conn opq vbucket flags

/-- Modelled from the spec: `DcpConsumer::addStream`.  Whether the call succeeds
is decided by code outside this file (`outcome`); a successful call adds
`vbucket` to the passive-stream set of the consumer, a failed one changes
nothing. -/
def consumerAddStream (outcome : State → Nat → Nat → Nat → Nat → ENGINE_ERROR_CODE) :
    AddStream :=
  fun s conn opq vbucket flags =>
    if outcome s conn opq vbucket flags = ENGINE_ERROR_CODE.ENGINE_SUCCESS then
      ({ s with conns :=
          s.conns.modify (fun h => { h with streams := h.streams ++ [vbucket] }) conn },
        ENGINE_ERROR_CODE.ENGINE_SUCCESS)
    else
      (s, outcome s conn opq vbucket flags)

/-- For every vbucket at most one consumer bound in `map_` has a passive stream
for it. -/
def UniquePassiveStream (s : State) : Prop :=
  ∀ vbucket, ∀ e1 ∈ s.map_, ∀ e2 ∈ s.map_,
    hasPassiveStream s.conns e1.2 vbucket = true →
    hasPassiveStream s.conns e2.2 vbucket = true → e1.2 = e2.2

/-- A consumer, as `newConsumer` leaves it for cookie 20 and name `c1`. -/
def exampleConsumer : ConnHandler :=
  { kind := ConnKind.consumer, cookie := 20, name := "eq_dcpq:c1", connected := true,
    disconnect := false, paused := true, reserved := true, streams := [] }

/-- A registry with two consumers, bound to the cookies 20 and 21. -/
def twoConsumersState : State :=
  { conns := [exampleConsumer, { exampleConsumer with cookie := 21, name := "eq_dcpq:c2" }],
    map_ := [(20, 0), (21, 1)], deadConnections := [], vbConns := [], calls := [] }

/-- An `outcome` under which every `addStream` succeeds. -/
def alwaysSuccess : State → Nat → Nat → Nat → Nat → ENGINE_ERROR_CODE :=
  fun _ _ _ _ _ => ENGINE_ERROR_CODE.ENGINE_SUCCESS

/-! ## Recomputing the backfill limit -/

/-- Embeds `DcpConnMap::dbFileMem`. -/
def dbFileMem : Nat := 10 * 1024

/-- Embeds `DcpConnMap::numBackfillsThreshold`. -/
def numBackfillsThreshold : Nat := 4096

/-- Embeds `DcpConnMap::numBackfillsMemThreshold`. -/
def numBackfillsMemThreshold : Nat := 1

/-- Embeds `DcpConnMap::updateMaxActiveSnoozingBackfills`.  The local `max` is the
`size_t` obtained from the `double` expression
`maxDataSize * numBackfillsMemThresholdPercent / dbFileMem`; that floating-point
computation is the parameter `scaled`.  The clamp is computed on `size_t` and
stored into the `uint16_t` member. -/
def updateMaxActiveSnoozingBackfills (scaled : Nat → Nat) (b : Backfills)
    (maxDataSize : Nat) : Backfills :=
  let max := scaled maxDataSize
  { b with maxActiveSnoozing := (Nat.max 1 (Nat.min max numBackfillsThreshold)) % uint16Size }

/-- The test of the loop of `findByName` on one channel:
`!conn->doDisconnect() && conn->getName() == name`.  The entries of `map_` are
never null (only new objects are stored); a reference without an object does
not pass the test here. -/
def matchesName (conns : List ConnHandler) (name : String) (conn : Nat) : Bool :=
  match conns[conn]? with
  | some h => !h.doDisconnect && decide (h.name = name)
  | none => false

/-- The loop of `findByName` over the entries of `map_` in iteration order. -/
def findByNameLoop (conns : List ConnHandler) (name : String) :
    List (Nat × Nat) → Option Nat
  | [] => none
  | e :: rest =>
    if matchesName conns name e.2 then some e.2 else findByNameLoop conns name rest

/-- Embeds `DcpConnMap::findByName`: the registry after the call and the
returned `connection_t` (`none` for the null one). -/
def findByName (s : State) (name : String) : State × Option Nat :=
  (s, findByNameLoop s.conns name s.map_)

/-- Embeds `DcpConnMap::notifyVBConnections`: the loop over `vbConns[vbid]`. -/
def notifyVBConnections (s : State) (vbid : Nat) (bySeqno : Nat) : State :=
  (s.vbConns.getD vbid []).foldl
    (fun st conn => { st with calls := st.calls ++ [.notifySeqnoAvailable conn vbid bySeqno] }) s

/-- The channel behind `conn` exists, is not marked for disconnect and is named
`name`. -/
def LiveNamed (conns : List ConnHandler) (name : String) (conn : Nat) : Prop :=
  ∃ h, conns[conn]? = some h ∧ h.disconnect = false ∧ h.name = name

/-- No two channels bound in `map_` that both have `disconnect = false` share a
name: two entries of `map_` whose channels are live under the same name lead to
the same channel. -/
def UniqueLiveName (s : State) : Prop :=
  ∀ e1 ∈ s.map_, ∀ e2 ∈ s.map_, ∀ name : String,
    LiveNamed s.conns name e1.2 → LiveNamed s.conns name e2.2 → e1.2 = e2.2


end DcpConnMap

/-! The send queue of a TAP producer.

A shallow embedding of the members of `TapProducer` in `tapconnection.hh` (the
queue, the ack log, the backfill counters, the two vbucket event queues) and of
the methods that change them.  The vbucket filter (`VBucketFilter`, whose code
is outside this file) is the parameter `vbucketFilter`, the predicate of its
call operator; `QueuedItem::size()` is the parameter `size`.

The counters are `size_t`.  Their increments count list elements or fetched
records one at a time and are plain additions here; the one unguarded decrement
(`--queueSize`) wraps around at zero as in C++.
-/

namespace TapConnection

/-- Modelled from the spec: `enum queue_operation` is declared outside this
file.  The spec's data model lists mutation, deletion, expiration, flush and
set_vbucket; the source adds `queue_op_empty` for the item returned by `next()`
when there is nothing to return. -/
inductive queue_operation where
  | mutation
  | deletion
  | expiration
  | flush
  | set_vbucket
  | queue_op_empty
deriving DecidableEq, Repr

/-- The item `QueuedItem(key, vbucket, op)`; the vbucket id is a `uint16_t`. -/
structure QueuedItem where
  key : String
  vbucket : Nat
  op : queue_operation
deriving DecidableEq, Repr

/-- Modelled from the spec: the ordering of `QueuedItem` used by
`std::set<QueuedItem>` is declared outside this file; by the spec two items are
the same entry of the dedup index when they have the same key and vbucket. -/
def QueuedItem.sameKey (a b : QueuedItem) : Bool :=
  decide (a.key = b.key) && decide (a.vbucket = b.vbucket)

/-- The item `next()` returns when no item is available:
`QueuedItem("", 0xffff, queue_op_empty)`. -/
def emptyItem : QueuedItem :=
  { key := "", vbucket := 0xffff, op := queue_operation.queue_op_empty }

/-- Modelled from the spec: `enum tap_event_t` is declared outside this file (in
the headers of the front-end).  This file names `TAP_MUTATION`, `TAP_OPAQUE`
and `TAP_PAUSE`; the other kinds are the remaining members of the enum. -/
inductive tap_event_t where
  | TAP_MUTATION
  | TAP_DELETION
  | TAP_FLUSH
  | TAP_OPAQUE
  | TAP_VBUCKET_SET
  | TAP_ACK
  | TAP_DISCONNECT
  | TAP_NOOP
  | TAP_PAUSE
  | TAP_CHECKPOINT_START
  | TAP_CHECKPOINT_END
deriving DecidableEq, Repr

/-- Modelled from the spec: `vbucket_state_t` is an enum declared outside this
file; a `state` member is its numeric value here (opaque events store arbitrary
32-bit codes in it), and `vbucket_state_active` is the value 1. -/
def vbucket_state_active : Nat := 1

/-- Embeds `class TapVBucketEvent`. -/
structure TapVBucketEvent where
  event : tap_event_t
  vbucket : Nat
  state : Nat
deriving DecidableEq, Repr

/-- Embeds `class TapLogElement`. -/
structure TapLogElement where
  seqno : Nat
  event : tap_event_t
  vbucket : Nat
  state : Nat
  key : String
deriving DecidableEq, Repr

/-- Embeds the constructor `TapLogElement(uint32_t s, const TapVBucketEvent &e)`. -/
def TapLogElement.ofEvent (s : Nat) (e : TapVBucketEvent) : TapLogElement :=
  { seqno := s, event := e.event, vbucket := e.vbucket, state := e.state, key := "" }

/-- Embeds the constructor `TapLogElement(uint32_t s, const QueuedItem &i)`. -/
def TapLogElement.ofItem (s : Nat) (i : QueuedItem) : TapLogElement :=
  { seqno := s, event := tap_event_t.TAP_MUTATION, vbucket := i.vbucket,
    state := vbucket_state_active, key := i.key }

/-- The members of `TapProducer` (and of its base `TapConnection`) read or
written by the embedded methods.  `queue_set` lists the elements of the
`std::set`; the order inside the set is not observable through the operations
used here, new elements are kept at the end.  The two `std::queue`s and the
`std::list` `tapLog` are lists, front first. -/
structure TapProducer where
  queue : List QueuedItem
  queueSize : Nat
  queue_set : List QueuedItem
  queueMemSize : Nat
  recordsFetched : Nat
  recordsSkipped : Nat
  pendingFlush : Bool
  supportAck : Bool
  disconnect : Bool
  dumpQueue : Bool
  pendingBackfill : Bool
  diskBackfillCounter : Nat
  vBucketHighPriority : List TapVBucketEvent
  vBucketLowPriority : List TapVBucketEvent
  bgQueueSize : Nat
  bgResultSize : Nat
  bgJobIssued : Nat
  bgJobCompleted : Nat
  seqno : Nat
  tapLog : List TapLogElement
  opaqueCommandCode : Nat
deriving DecidableEq, Repr

/-- Embeds `queue_set->insert(it)`: the set after the call and whether the insertion
took place (`ret.second`); nothing is inserted when an equivalent element is
already in the set. -/
def setInsert (set : List QueuedItem) (it : QueuedItem) : List QueuedItem × Bool :=
  if set.any (fun x => x.sameKey it) then (set, false) else (set ++ [it], true)

/-- Embeds `queue_set->erase(qi)`: the elements equivalent to `qi` are removed. -/
def setErase (set : List QueuedItem) (qi : QueuedItem) : List QueuedItem :=
  set.filter (fun x => !x.sameKey qi)

/-- The value of a `size_t` after `--`: wraps around at zero. -/
def decrSizeT (x : Nat) : Nat :=
  if x = 0 then 2 ^ 64 - 1 else x - 1

/-- Embeds `TapProducer::addEvent_UNLOCKED(const QueuedItem &it)`: the producer after
the call and the returned flag. -/
def TapProducer.addEvent_UNLOCKED (vbucketFilter : Nat → Bool) (p : TapProducer)
    (it : QueuedItem) : TapProducer × Bool :=
  if vbucketFilter it.vbucket then
    let wasEmpty := p.queue.isEmpty
    let ret := setInsert p.queue_set it
    if ret.2 then
      ({ p with queue_set := ret.1, queue := p.queue ++ [it], queueSize := p.queueSize + 1 },
        wasEmpty)
    else
      ({ p with queue_set := ret.1 }, wasEmpty)
  else
    (p, p.queue.isEmpty)

/-- Embeds `TapProducer::addEvent(const QueuedItem &it)`: `addEvent_UNLOCKED` under
`queueLock`. -/
def TapProducer.addEvent (vbucketFilter : Nat → Bool) (p : TapProducer)
    (it : QueuedItem) : TapProducer × Bool :=
  p.addEvent_UNLOCKED vbucketFilter it

/-- The first statements of the loop body of `TapProducer::next`: `qi`, the
front of the list, is popped (leaving `rest`) and erased from the set,
`queueSize` is decremented, and `queueMemSize` is lowered by `qi.size()`, or
set to zero when it is not larger than that. -/
def popFront (size : QueuedItem → Nat) (p : TapProducer) (qi : QueuedItem)
    (rest : List QueuedItem) : TapProducer :=
  { p with queue := rest,
           queue_set := setErase p.queue_set qi,
           queueSize := decrSizeT p.queueSize,
           queueMemSize := if p.queueMemSize > size qi then p.queueMemSize - size qi else 0 }

/-- The `while` loop of `TapProducer::next`, by recursion on the list `queue`
the loop consumes: `p` holds the other members as they are when the loop test
is evaluated. -/
def nextLoop (vbucketFilter : Nat → Bool) (size : QueuedItem → Nat) :
    List QueuedItem → TapProducer → TapProducer × QueuedItem
  | [], p => ({ p with queue := [] }, emptyItem)
  | qi :: rest, p =>
    if vbucketFilter qi.vbucket then
      ({ popFront size p qi rest with
          recordsFetched := (popFront size p qi rest).recordsFetched + 1 }, qi)
    else
      nextLoop vbucketFilter size rest
        { popFront size p qi rest with
            recordsSkipped := (popFront size p qi rest).recordsSkipped + 1 }

/-- Embeds `TapProducer::next`: the producer after the call and the returned item. -/
def TapProducer.next (vbucketFilter : Nat → Bool) (size : QueuedItem → Nat)
    (p : TapProducer) : TapProducer × QueuedItem :=
  nextLoop vbucketFilter size p.queue p

/-- Embeds `TapProducer::flush`. -/
def TapProducer.flush (p : TapProducer) : TapProducer :=
  { p with pendingFlush := true, queue := [], queueSize := 0, queue_set := [],
           queueMemSize := 0 }

/-- Embeds `queue->splice(queue->end(), *q)`: every element of `q` moves to the end of
`queue`, in order, and `q` is left empty.  Returns the two lists
`(queue, q)` after the call. -/
def splice (queue q : List QueuedItem) : List QueuedItem × List QueuedItem :=
  (queue ++ q, [])

/-- Embeds `TapProducer::appendQueue(std::list<QueuedItem> *q)`: the producer after the
call and the caller's list `*q` after it.  The accounting loop runs over `*q`
as the splice has left it. -/
def TapProducer.appendQueue (size : QueuedItem → Nat) (p : TapProducer)
    (q : List QueuedItem) : TapProducer × List QueuedItem :=
  let spliced := splice p.queue q
  let p1 : TapProducer := { p with queue := spliced.1, queueSize := spliced.1.length }
  ({ p1 with queueMemSize := spliced.2.foldl (fun mem i => mem + size i) p1.queueMemSize },
    spliced.2)

/-- The dedup set holds exactly the items of the list. -/
def SetMatchesList (p : TapProducer) : Prop :=
  p.queue_set.Perm p.queue

/-- The list length, the set size and `queueSize` are the same number. -/
def SizesAgree (p : TapProducer) : Prop :=
  p.queue.length = p.queue_set.length ∧ p.queue_set.length = p.queueSize

/-- The dedup set holds exactly the items of the list, no two items of the list
have the same key and vbucket, and `queueSize` is the length of the list. -/
def DedupInv (p : TapProducer) : Prop :=
  SetMatchesList p ∧ p.queue.Pairwise (fun a b => a.sameKey b = false) ∧
    p.queueSize = p.queue.length

/-- The member `queueMemSize` is the sum of `size()` over the items of the list. -/
def MemSizeInv (size : QueuedItem → Nat) (p : TapProducer) : Prop :=
  p.queueMemSize = (p.queue.map size).sum

/-- The producer after `addEvent` was called for each item of `items`, first
item first. -/
def addAll (vbucketFilter : Nat → Bool) (p : TapProducer) (items : List QueuedItem) :
    TapProducer :=
  items.foldl (fun st it => (st.addEvent vbucketFilter it).1) p

/-- The items returned by calling `next()` again and again until it returns the
empty item, at most `fuel` calls. -/
def drain (vbucketFilter : Nat → Bool) (size : QueuedItem → Nat) :
    Nat → TapProducer → List QueuedItem
  | 0, _ => []
  | fuel + 1, p =>
    if (p.next vbucketFilter size).2 = emptyItem then []
    else
      (p.next vbucketFilter size).2 ::
        drain vbucketFilter size fuel (p.next vbucketFilter size).1

/-- The spec's reading of the queue content: the items in insertion order,
without those that come after an item with the same key and vbucket (`seen`
holds the items already kept). -/
def keepFirstFrom (seen : List QueuedItem) : List QueuedItem → List QueuedItem
  | [] => []
  | x :: xs =>
    if seen.any (fun y => y.sameKey x) then keepFirstFrom seen xs
    else x :: keepFirstFrom (seen ++ [x]) xs

/-- The items of a sequence of inserts, each (key, vbucket) at its first
insertion only. -/
def keepFirst (items : List QueuedItem) : List QueuedItem :=
  keepFirstFrom [] items

/-- An item for the examples. -/
def itemK : QueuedItem := { key := "k", vbucket := 0, op := queue_operation.mutation }

/-- The same key and vbucket as `itemK`, another operation. -/
def itemKDel : QueuedItem := { key := "k", vbucket := 0, op := queue_operation.deletion }

/-- An item of vbucket 1. -/
def itemJ : QueuedItem := { key := "j", vbucket := 1, op := queue_operation.mutation }

/-- A producer with nothing queued and all counters at zero. -/
def emptyProducer : TapProducer :=
  { queue := [], queueSize := 0, queue_set := [], queueMemSize := 0,
    recordsFetched := 0, recordsSkipped := 0, pendingFlush := false,
    supportAck := false, disconnect := false, dumpQueue := false,
    pendingBackfill := false, diskBackfillCounter := 0, vBucketHighPriority := [],
    vBucketLowPriority := [], bgQueueSize := 0, bgResultSize := 0, bgJobIssued := 0,
    bgJobCompleted := 0, seqno := 0, tapLog := [], opaqueCommandCode := 0 }

/-- A filter that admits every vbucket. -/
def admitAll : Nat → Bool := fun _ => true

/-- A filter that admits vbucket 0 only. -/
def admitZero : Nat → Bool := fun vb => decide (vb = 0)

/-- An item size for the examples: a fixed part plus the key length. -/
def exampleSize : QueuedItem → Nat := fun qi => 24 + qi.key.length

/-! ## The ack log and the end of a backfill -/

/-- The range of a `size_t`. -/
def sizeTSize : Nat := 18446744073709551616

/-- Embeds `TapProducer::addTapLogElement(const QueuedItem &qi)`. -/
def TapProducer.addTapLogElement (p : TapProducer) (qi : QueuedItem) : TapProducer :=
  if p.supportAck then
    { p with tapLog := p.tapLog ++ [TapLogElement.ofItem p.seqno qi] }
  else p

/-- Embeds `TapProducer::addTapLogElement_UNLOCKED(const TapVBucketEvent &e)`. -/
def TapProducer.addTapLogElement_UNLOCKED (p : TapProducer) (e : TapVBucketEvent) :
    TapProducer :=
  if p.supportAck then
    { p with tapLog := p.tapLog ++ [TapLogElement.ofEvent p.seqno e] }
  else p

/-- Embeds `TapConnection::setDisconnect(bool val)`. -/
def TapProducer.setDisconnect (p : TapProducer) (val : Bool) : TapProducer :=
  { p with disconnect := val }

/-- Embeds `TapProducer::hasQueuedItem`. -/
def TapProducer.hasQueuedItem (p : TapProducer) : Bool :=
  !p.queue.isEmpty

/-- Embeds `TapProducer::empty`. -/
def TapProducer.empty (p : TapProducer) : Bool :=
  p.bgQueueSize == 0 && p.bgResultSize == 0 && !p.hasQueuedItem

/-- Embeds `TapProducer::idle`. -/
def TapProducer.idle (p : TapProducer) : Bool :=
  p.empty && p.vBucketLowPriority.isEmpty && p.vBucketHighPriority.isEmpty &&
    p.tapLog.isEmpty

/-- Embeds `TapProducer::isPendingDiskBackfill`. -/
def TapProducer.isPendingDiskBackfill (p : TapProducer) : Bool :=
  decide (p.diskBackfillCounter > 0)

/-- Embeds `TapProducer::isPendingBackfill`; the difference of the two `size_t`
counters is computed modulo `2 ^ 64`. -/
def TapProducer.isPendingBackfill (p : TapProducer) : Bool :=
  p.pendingBackfill || p.isPendingDiskBackfill ||
    (p.bgJobIssued + sizeTSize - p.bgJobCompleted % sizeTSize) % sizeTSize != 0

/-- Embeds `TapProducer::complete`. -/
def TapProducer.complete (p : TapProducer) : Bool :=
  p.dumpQueue && p.empty && !p.isPendingBackfill

/-- Embeds `TapProducer::completeBackfillCommon`. -/
def TapProducer.completeBackfillCommon (p : TapProducer) : TapProducer :=
  if p.complete && p.idle then p.setDisconnect true else p

/-- Embeds `TapProducer::completeBackfill`. -/
def TapProducer.completeBackfill (p : TapProducer) : TapProducer :=
  TapProducer.completeBackfillCommon { p with pendingBackfill := false }

/-- Embeds `TapProducer::scheduleDiskBackfill`. -/
def TapProducer.scheduleDiskBackfill (p : TapProducer) : TapProducer :=
  { p with diskBackfillCounter := p.diskBackfillCounter + 1 }

/-- Embeds `TapProducer::completeDiskBackfill`. -/
def TapProducer.completeDiskBackfill (p : TapProducer) : TapProducer :=
  TapProducer.completeBackfillCommon
    { p with diskBackfillCounter := decrSizeT p.diskBackfillCounter }

/-- The condition the specification gives for the disconnect at the end of a
backfill: dump mode, the queue and the background-fetch queues empty, no
backfill pending. -/
def BackfillDone (p : TapProducer) : Prop :=
  p.dumpQueue = true ∧ p.queue = [] ∧ p.bgQueueSize = 0 ∧ p.bgResultSize = 0 ∧
  p.pendingBackfill = false ∧ p.diskBackfillCounter = 0 ∧
  p.bgJobIssued = p.bgJobCompleted

instance (p : TapProducer) : Decidable (BackfillDone p) := by
  unfold BackfillDone; infer_instance

/-- Nothing is left to send or to be acknowledged: both vbucket event queues
and `tapLog` are empty. -/
def NothingInFlight (p : TapProducer) : Prop :=
  p.vBucketLowPriority = [] ∧ p.vBucketHighPriority = [] ∧ p.tapLog = []

instance (p : TapProducer) : Decidable (NothingInFlight p) := by
  unfold NothingInFlight; infer_instance

/-- A dump-mode producer with acks enabled, nothing queued, no backfill
pending, and one sent mutation still waiting for its ack in `tapLog`. -/
def dumpProducerAwaitingAck : TapProducer :=
  { emptyProducer with
    dumpQueue := true, supportAck := true, seqno := 5,
    tapLog := [TapLogElement.ofItem 4 itemK] }

/-- A `TAP_OPAQUE` event for vbucket 3. -/
def opaqueEvent : TapVBucketEvent :=
  { event := tap_event_t.TAP_OPAQUE, vbucket := 3, state := 8 }


/-! ## The vbucket event queues -/

/-- The value `TapVBucketEvent(TAP_PAUSE, 0, vbucket_state_active)` both
getters start from and return when they have no event. -/
def pauseEvent : TapVBucketEvent :=
  { event := tap_event_t.TAP_PAUSE, vbucket := 0, state := vbucket_state_active }

/-- The end of both getters for an event that is sent: `++recordsFetched` and
`addTapLogElement_UNLOCKED(ret)`. -/
def fetched (p : TapProducer) (ret : TapVBucketEvent) : TapProducer × TapVBucketEvent :=
  (TapProducer.addTapLogElement_UNLOCKED
    { p with recordsFetched := p.recordsFetched + 1 } ret, ret)

/-- The recursion of `TapProducer::nextVBucketHighPriority_UNLOCKED`, on the
queue `vBucketHighPriority` it consumes; `p` holds the other members.
`autoNack` is the value `htonl(TAP_OPAQUE_ENABLE_AUTO_NACK)`, a constant of the
front-end's headers; `(uint32_t)ret.state` is the 32-bit code `state` stands
for. -/
def highLoop (vbucketFilter : Nat → Bool) (autoNack : Nat) :
    List TapVBucketEvent → TapProducer → TapProducer × TapVBucketEvent
  | [], p => ({ p with vBucketHighPriority := [] }, pauseEvent)
  | ret :: rest, p =>
    match ret.event with
    | tap_event_t.TAP_OPAQUE =>
      if ret.state = autoNack then
        fetched { p with vBucketHighPriority := rest, opaqueCommandCode := ret.state } ret
      else if !vbucketFilter ret.vbucket then
        highLoop vbucketFilter autoNack rest
          { p with vBucketHighPriority := rest, opaqueCommandCode := ret.state }
      else
        fetched { p with vBucketHighPriority := rest, opaqueCommandCode := ret.state } ret
    | _ =>
      if !vbucketFilter ret.vbucket then
        highLoop vbucketFilter autoNack rest { p with vBucketHighPriority := rest }
      else
        fetched { p with vBucketHighPriority := rest } ret

/-- Embeds `TapProducer::nextVBucketHighPriority_UNLOCKED`: the producer after
the call and the returned event. -/
def TapProducer.nextVBucketHighPriority_UNLOCKED (vbucketFilter : Nat → Bool)
    (autoNack : Nat) (p : TapProducer) : TapProducer × TapVBucketEvent :=
  highLoop vbucketFilter autoNack p.vBucketHighPriority p

/-- Embeds `TapProducer::nextVBucketLowPriority_UNLOCKED`. -/
def TapProducer.nextVBucketLowPriority_UNLOCKED (vbucketFilter : Nat → Bool)
    (autoNack : Nat) (p : TapProducer) : TapProducer × TapVBucketEvent :=
  match p.vBucketLowPriority with
  | [] => (p, pauseEvent)
  | ret :: rest =>
    if !vbucketFilter ret.vbucket then
      TapProducer.nextVBucketHighPriority_UNLOCKED vbucketFilter autoNack
        { p with vBucketLowPriority := rest }
    else
      fetched { p with vBucketLowPriority := rest } ret

/-- An event the high-priority getter sends: its vbucket is admitted by the
filter, or it is a `TAP_OPAQUE` event whose state is `autoNack`. -/
def Sendable (vbucketFilter : Nat → Bool) (autoNack : Nat) (e : TapVBucketEvent) : Prop :=
  vbucketFilter e.vbucket = true ∨ (e.event = tap_event_t.TAP_OPAQUE ∧ e.state = autoNack)

instance (vbucketFilter : Nat → Bool) (autoNack : Nat) (e : TapVBucketEvent) :
    Decidable (Sendable vbucketFilter autoNack e) := by
  unfold Sendable; infer_instance

/-- The tail of `tapLog` after an event was sent: one element for it when acks
are supported, nothing otherwise. -/
def logged (p : TapProducer) (e : TapVBucketEvent) : List TapLogElement :=
  if p.supportAck then p.tapLog ++ [TapLogElement.ofEvent p.seqno e] else p.tapLog

/-- A `TAP_VBUCKET_SET` event for vbucket 0. -/
def setEventVb0 : TapVBucketEvent :=
  { event := tap_event_t.TAP_VBUCKET_SET, vbucket := 0, state := 2 }

/-- A `TAP_VBUCKET_SET` event for vbucket 1. -/
def setEventVb1 : TapVBucketEvent :=
  { event := tap_event_t.TAP_VBUCKET_SET, vbucket := 1, state := 2 }

/-- A `TAP_VBUCKET_SET` event for vbucket 0 with another state. -/
def lowEventVb0 : TapVBucketEvent :=
  { event := tap_event_t.TAP_VBUCKET_SET, vbucket := 0, state := 4 }


end TapConnection

/-! The size of a DCP mutation message.

A shallow embedding of `MutationResponse::getMessageSize` in `dcp/response.cc`.
The arithmetic is on `uint32_t`: every sum and the difference are taken modulo
`2 ^ 32`.  The two base sizes are constants defined outside this file and are
parameters; `cb::xattr::get_body_offset` is outside this file too, and its
result on the item's value is a member of the item here.
-/

namespace DcpResponse

/-- The range of a `uint32_t`. -/
def uint32Size : Nat := 4294967296

/-- What `getMessageSize` reads of the `Item`: `isDeleted()`, the size of the
key, `getNBytes()` (the size of the value, xattrs included),
`mcbp::datatype::is_xattr(getDataType())`, and the result of
`cb::xattr::get_body_offset` on the value. -/
structure Item where
  deleted : Bool
  keySize : Nat
  nbytes : Nat
  xattrDatatype : Bool
  bodyOffset : Nat
deriving DecidableEq, Repr

/-- The members of `MutationResponse` read by `getMessageSize`; `emd` is the
size of the extended metadata (`getExtMeta().second`) when there is some. -/
structure MutationResponse where
  item_ : Item
  includeValue : Bool
  includeXattributes : Bool
  emd : Option Nat
deriving DecidableEq, Repr

/-- Embeds `MutationResponse::getMessageSize`. -/
def getMessageSize (mutationBaseMsgBytes deletionBaseMsgBytes : Nat)
    (r : MutationResponse) : Nat :=
  let header := if r.item_.deleted then deletionBaseMsgBytes else mutationBaseMsgBytes
  let body0 := r.item_.keySize % uint32Size
  let sz := if r.item_.xattrDatatype then r.item_.bodyOffset % uint32Size else 0
  let body1 := if r.includeXattributes then (body0 + sz) % uint32Size else body0
  let body2 :=
    if r.includeValue then
      (body1 + (r.item_.nbytes % uint32Size + uint32Size - sz) % uint32Size) % uint32Size
    else body1
  let body3 :=
    match r.emd with
    | some n => (body2 + n) % uint32Size
    | none => body2
  (header + body3) % uint32Size

/-- The `xattrSize` of the specification: the xattr body offset of the value
when the xattr datatype is set and 0 otherwise. -/
def xattrSize (i : Item) : Nat :=
  if i.xattrDatatype then i.bodyOffset else 0

/-- The size of the extended metadata, 0 when there is none. -/
def extMetaSize (r : MutationResponse) : Nat :=
  r.emd.getD 0

/-- The message size as the specification states it:
`base + key.size + V + X + extMeta.size` with `V = value.size − xattrSize` when
the value is not included and `value.size` when it is. -/
def specMessageSize (mutationBaseMsgBytes deletionBaseMsgBytes : Nat)
    (r : MutationResponse) : Nat :=
  (if r.item_.deleted then deletionBaseMsgBytes else mutationBaseMsgBytes) +
    r.item_.keySize +
    (if r.includeValue then r.item_.nbytes else r.item_.nbytes - xattrSize r.item_) +
    (if r.includeXattributes then xattrSize r.item_ else 0) +
    extMetaSize r

/-- The message size with the value part read the other way round:
`V = value.size − xattrSize` when the value is included and 0 when it is not. -/
def bodyMessageSize (mutationBaseMsgBytes deletionBaseMsgBytes : Nat)
    (r : MutationResponse) : Nat :=
  (if r.item_.deleted then deletionBaseMsgBytes else mutationBaseMsgBytes) +
    r.item_.keySize +
    (if r.includeValue then r.item_.nbytes - xattrSize r.item_ else 0) +
    (if r.includeXattributes then xattrSize r.item_ else 0) +
    extMetaSize r

/-- A mutation of a 10-byte value whose first 4 bytes are xattrs, key of 3
bytes, sent with value and xattrs and without extended metadata. -/
def exampleResponse : MutationResponse :=
  { item_ := { deleted := false, keySize := 3, nbytes := 10, xattrDatatype := true,
               bodyOffset := 4 },
    includeValue := true, includeXattributes := true, emd := none }

end DcpResponse

namespace DcpConnMap

/-! ## Theorems: backfill admission -/

theorem canAdd_keeps_le (b : Backfills)
    (h : b.numActiveSnoozing ≤ b.maxActiveSnoozing) :
    (canAddBackfillToActiveQ b).1.numActiveSnoozing
      ≤ (canAddBackfillToActiveQ b).1.maxActiveSnoozing := by
  unfold canAddBackfillToActiveQ
  split
  · rename_i hlt
    show (b.numActiveSnoozing + 1) % uint16Size ≤ b.maxActiveSnoozing
    exact le_trans (Nat.mod_le _ _) hlt
  · exact h

theorem decr_keeps_le (b : Backfills)
    (h : b.numActiveSnoozing ≤ b.maxActiveSnoozing) :
    (decrNumActiveSnoozingBackfills b).numActiveSnoozing
      ≤ (decrNumActiveSnoozingBackfills b).maxActiveSnoozing := by
  unfold decrNumActiveSnoozingBackfills
  split
  · show b.numActiveSnoozing - 1 ≤ b.maxActiveSnoozing
    omega
  · exact h

theorem apply_keeps_le (b : Backfills) (c : BackfillCall)
    (h : b.numActiveSnoozing ≤ b.maxActiveSnoozing) :
    (c.apply b).numActiveSnoozing ≤ (c.apply b).maxActiveSnoozing := by
  cases c
  · exact canAdd_keeps_le b h
  · exact decr_keeps_le b h

theorem run_keeps_le (calls : List BackfillCall) :
    ∀ b : Backfills, b.numActiveSnoozing ≤ b.maxActiveSnoozing →
      (runBackfillCalls b calls).numActiveSnoozing
        ≤ (runBackfillCalls b calls).maxActiveSnoozing := by
  induction calls with
  | nil => intro b h; exact h
  | cons c rest ih =>
    intro b h
    exact ih (c.apply b) (apply_keeps_le b c h)

/-- C1: starting from an admission state with
`numActiveSnoozing ≤ maxActiveSnoozing`, after each call of any finite sequence
of `canAddBackfillToActiveQ` / `decrNumActiveSnoozingBackfills` calls (that is,
after the first `k` calls, for every `k`) the bound still holds. -/
theorem active_le_max_after_every_call (b : Backfills) (calls : List BackfillCall)
    (h : b.numActiveSnoozing ≤ b.maxActiveSnoozing) (k : Nat) :
    (runBackfillCalls b (calls.take k)).numActiveSnoozing
      ≤ (runBackfillCalls b (calls.take k)).maxActiveSnoozing :=
  run_keeps_le (calls.take k) b h

theorem active_le_max_after_every_call_witness :
    (runBackfillCalls ⟨2, 3⟩
        ([.tryAcquire, .tryAcquire, .release, .tryAcquire].take 2)).numActiveSnoozing
      ≤ (runBackfillCalls ⟨2, 3⟩
        ([.tryAcquire, .tryAcquire, .release, .tryAcquire].take 2)).maxActiveSnoozing :=
  active_le_max_after_every_call ⟨2, 3⟩
    [.tryAcquire, .tryAcquire, .release, .tryAcquire] (by decide) 2

/-- C2: on an admission state of two `uint16_t` counters,
`canAddBackfillToActiveQ` returns true exactly when
`numActiveSnoozing < maxActiveSnoozing`; on true `numActiveSnoozing` grows by
exactly one, on false it is unchanged; `maxActiveSnoozing` never changes. -/
theorem canAddBackfillToActiveQ_spec (b : Backfills) (hr : b.InRange) :
    ((canAddBackfillToActiveQ b).2 = true ↔ b.numActiveSnoozing < b.maxActiveSnoozing) ∧
    ((canAddBackfillToActiveQ b).2 = true →
      (canAddBackfillToActiveQ b).1.numActiveSnoozing = b.numActiveSnoozing + 1) ∧
    ((canAddBackfillToActiveQ b).2 = false →
      (canAddBackfillToActiveQ b).1.numActiveSnoozing = b.numActiveSnoozing) ∧
    (canAddBackfillToActiveQ b).1.maxActiveSnoozing = b.maxActiveSnoozing := by
  obtain ⟨_, hmax⟩ := hr
  unfold canAddBackfillToActiveQ
  by_cases hlt : b.numActiveSnoozing < b.maxActiveSnoozing
  · have hsmall : b.numActiveSnoozing + 1 < uint16Size := by omega
    simp [hlt, Nat.mod_eq_of_lt hsmall]
  · simp [hlt]

theorem canAddBackfillToActiveQ_spec_witness :
    (Backfills.mk 2 3).InRange ∧
    ((canAddBackfillToActiveQ ⟨2, 3⟩).2 = true ↔ (2 : Nat) < 3) ∧
    (canAddBackfillToActiveQ ⟨2, 3⟩).1.numActiveSnoozing = 3 :=
  ⟨by decide, (canAddBackfillToActiveQ_spec ⟨2, 3⟩ (by decide)).1,
    (canAddBackfillToActiveQ_spec ⟨2, 3⟩ (by decide)).2.1 (by decide)⟩

/-- C3: `decrNumActiveSnoozingBackfills` is total; it lowers a positive
`numActiveSnoozing` by exactly one, leaves a zero `numActiveSnoozing` at zero,
and never changes `maxActiveSnoozing`. -/
theorem decrNumActiveSnoozingBackfills_spec (b : Backfills) :
    (0 < b.numActiveSnoozing →
      (decrNumActiveSnoozingBackfills b).numActiveSnoozing + 1 = b.numActiveSnoozing) ∧
    (b.numActiveSnoozing = 0 →
      (decrNumActiveSnoozingBackfills b).numActiveSnoozing = 0) ∧
    (decrNumActiveSnoozingBackfills b).maxActiveSnoozing = b.maxActiveSnoozing := by
  unfold decrNumActiveSnoozingBackfills
  by_cases hpos : b.numActiveSnoozing > 0
  · simp [hpos]; omega
  · simp [hpos]

theorem decrNumActiveSnoozingBackfills_spec_witness :
    (decrNumActiveSnoozingBackfills ⟨3, 3⟩).numActiveSnoozing + 1 = 3 ∧
    (decrNumActiveSnoozingBackfills ⟨0, 3⟩).numActiveSnoozing = 0 :=
  ⟨(decrNumActiveSnoozingBackfills_spec ⟨3, 3⟩).1 (by decide),
    (decrNumActiveSnoozingBackfills_spec ⟨0, 3⟩).2.1 rfl⟩

/-! ## Lemmas: the object store and the cookie map -/

theorem length_setDisconnectAt (cs : List ConnHandler) (r : Nat) :
    (setDisconnectAt cs r).length = cs.length := by
  simp [setDisconnectAt]

theorem getElem?_setDisconnectAt (cs : List ConnHandler) (r i : Nat) :
    (setDisconnectAt cs r)[i]? =
      if r = i then (cs[i]?).map ConnHandler.setDisconnect else cs[i]? := by
  unfold setDisconnectAt
  rw [List.getElem?_modify]
  by_cases hri : r = i
  · simp [hri]
  · simp [hri]

theorem getElem?_setDisconnectAt_ne (cs : List ConnHandler) {r i : Nat} (h : i ≠ r) :
    (setDisconnectAt cs r)[i]? = cs[i]? := by
  rw [getElem?_setDisconnectAt, if_neg (fun e => h e.symm)]

theorem getElem?_setDisconnectAt_self (cs : List ConnHandler) (r : Nat) :
    (setDisconnectAt cs r)[r]? = (cs[r]?).map ConnHandler.setDisconnect := by
  rw [getElem?_setDisconnectAt, if_pos rfl]

theorem getElem?_disconnectIfNamed (n : String) (cs : List ConnHandler)
    (e : Nat × Nat) (i : Nat) :
    (disconnectIfNamed n cs e)[i]? = (cs[i]?).map (markIf n (i = e.2)) := by
  unfold disconnectIfNamed
  cases hc : cs[e.2]? with
  | none =>
    cases hi : cs[i]? with
    | none => simp [hi]
    | some hobj =>
      have hne : i ≠ e.2 := by
        intro heq; rw [heq, hc] at hi; exact Option.noConfusion hi
      simp [hi, markIf, hne]
  | some h =>
    by_cases hn : h.name = n
    · simp only [hn, if_true]
      by_cases hie : i = e.2
      · subst hie
        rw [getElem?_setDisconnectAt_self, hc]
        simp [markIf, hn]
      · rw [getElem?_setDisconnectAt_ne _ hie]
        cases hi : cs[i]? with
        | none => simp
        | some hobj => simp [markIf, hie]
    · simp only [hn, if_false]
      cases hi : cs[i]? with
      | none => simp
      | some hobj =>
        by_cases hie : i = e.2
        · subst hie
          rw [hc] at hi
          cases hi
          simp [markIf, hn]
        · simp [markIf, hie]

theorem markIf_markIf (n : String) (p q : Prop) [Decidable p] [Decidable q]
    (h : ConnHandler) :
    markIf n q (markIf n p h) = markIf n (p ∨ q) h := by
  unfold markIf
  by_cases hn : h.name = n <;> by_cases hp : p <;> by_cases hq : q <;>
    simp [hn, hp, hq, ConnHandler.setDisconnect]

theorem getElem?_disconnectSameName (m : List (Nat × Nat)) (n : String) :
    ∀ (cs : List ConnHandler) (i : Nat),
      (disconnectSameName cs m n)[i]? =
        (cs[i]?).map (markIf n (i ∈ m.map Prod.snd)) := by
  induction m with
  | nil =>
    intro cs i
    cases hi : cs[i]? <;> simp [disconnectSameName, markIf, hi]
  | cons e m ih =>
    intro cs i
    show (disconnectSameName (disconnectIfNamed n cs e) m n)[i]? = _
    rw [ih, getElem?_disconnectIfNamed]
    cases hi : cs[i]? with
    | none => rfl
    | some hobj =>
      simp only [Option.map_some', markIf_markIf, List.map_cons, List.mem_cons]

theorem length_disconnectSameName (cs : List ConnHandler) (m : List (Nat × Nat))
    (n : String) : (disconnectSameName cs m n).length = cs.length := by
  by_contra hne
  rcases Nat.lt_or_gt_of_ne hne with hlt | hgt
  · have h1 : (disconnectSameName cs m n)[(disconnectSameName cs m n).length]? = none :=
      List.getElem?_eq_none (le_refl _)
    rw [getElem?_disconnectSameName, List.getElem?_eq_getElem hlt] at h1
    simp at h1
  · have h1 : (disconnectSameName cs m n)[cs.length]? = none := by
      rw [getElem?_disconnectSameName, List.getElem?_eq_none (le_refl _)]
      rfl
    rw [List.getElem?_eq_getElem hgt] at h1
    simp at h1

theorem mapFind_mapInsert_self (m : List (Nat × Nat)) (c r : Nat) :
    mapFind (mapInsert m c r) c = some r := by
  induction m with
  | nil => simp [mapInsert, mapFind]
  | cons e m ih =>
    unfold mapInsert
    by_cases h1 : c < e.1
    · simp [h1, mapFind]
    · by_cases h2 : e.1 = c
      · simp [h1, h2, mapFind]
      · simp [h1, h2, mapFind, ih]

theorem mapFind_mapInsert_ne (m : List (Nat × Nat)) {c c' : Nat} (r : Nat)
    (hne : c' ≠ c) : mapFind (mapInsert m c r) c' = mapFind m c' := by
  induction m with
  | nil => simp [mapInsert, mapFind, hne.symm]
  | cons e m ih =>
    unfold mapInsert
    by_cases h1 : c < e.1
    · simp [h1, mapFind, hne.symm]
    · by_cases h2 : e.1 = c
      · have h3 : e.1 ≠ c' := fun h => hne (h.symm.trans h2)
        simp [h1, h2, mapFind, hne.symm]
      · simp [h1, h2, mapFind, ih]

theorem mem_mapInsert {m : List (Nat × Nat)} {c r : Nat} {e : Nat × Nat}
    (h : e ∈ mapInsert m c r) : e = (c, r) ∨ e ∈ m := by
  induction m with
  | nil => simpa [mapInsert] using h
  | cons e0 m ih =>
    unfold mapInsert at h
    by_cases h1 : c < e0.1
    · rw [if_pos h1] at h
      rcases List.mem_cons.1 h with h | h
      · exact Or.inl h
      · exact Or.inr h
    · rw [if_neg h1] at h
      by_cases h2 : e0.1 = c
      · rw [if_pos h2] at h
        rcases List.mem_cons.1 h with h | h
        · exact Or.inl h
        · exact Or.inr (List.mem_cons_of_mem _ h)
      · rw [if_neg h2] at h
        rcases List.mem_cons.1 h with h | h
        · exact Or.inr (h ▸ List.mem_cons_self _ _)
        · rcases ih h with h | h
          · exact Or.inl h
          · exact Or.inr (List.mem_cons_of_mem _ h)

theorem mem_of_mem_mapErase {m : List (Nat × Nat)} {c : Nat} {e : Nat × Nat}
    (h : e ∈ mapErase m c) : e ∈ m := by
  induction m with
  | nil => simp [mapErase] at h
  | cons e0 m ih =>
    unfold mapErase at h
    by_cases h1 : e0.1 = c
    · rw [if_pos h1] at h
      exact List.mem_cons_of_mem _ h
    · rw [if_neg h1] at h
      rcases List.mem_cons.1 h with h | h
      · exact h ▸ List.mem_cons_self _ _
      · exact List.mem_cons_of_mem _ (ih h)

/-! ## Theorems: opening a channel -/

theorem newConn_bound (init : ConnKind → InitFlags) (kind : ConnKind) (s : State)
    (cookie conn : Nat) (name : String)
    (hfind : mapFind s.map_ cookie = some conn) :
    newConn init kind s cookie name =
      ({ s with conns := setDisconnectAt s.conns conn }, none) := by
  simp only [newConn, hfind]

theorem newConn_free (init : ConnKind → InitFlags) (kind : ConnKind) (s : State)
    (cookie : Nat) (name : String)
    (hfree : mapFind s.map_ cookie = none) :
    newConn init kind s cookie name =
      ({ s with
          conns := disconnectSameName s.conns s.map_ ("eq_dcpq:" ++ name) ++
            [ConnHandler.create init kind cookie ("eq_dcpq:" ++ name)],
          map_ := mapInsert s.map_ cookie
            (disconnectSameName s.conns s.map_ ("eq_dcpq:" ++ name)).length },
       some (disconnectSameName s.conns s.map_ ("eq_dcpq:" ++ name)).length) := by
  simp only [newConn, hfree]

/-- The object store after a successful `newConn`, seen from an old reference. -/
theorem newConn_free_old (init : ConnKind → InitFlags) (kind : ConnKind) (s : State)
    (cookie : Nat) (name : String)
    (hfree : mapFind s.map_ cookie = none) (i : Nat) (k : ConnHandler)
    (hk : s.conns[i]? = some k) :
    (newConn init kind s cookie name).1.conns[i]? =
      some (markIf ("eq_dcpq:" ++ name) (i ∈ s.map_.map Prod.snd) k) := by
  rw [newConn_free init kind s cookie name hfree]
  have hlt : i < s.conns.length := by
    by_contra hge
    rw [List.getElem?_eq_none (Nat.le_of_not_lt hge)] at hk
    cases hk
  show (disconnectSameName s.conns s.map_ ("eq_dcpq:" ++ name) ++ _)[i]? = _
  rw [List.getElem?_append_left (by rw [length_disconnectSameName]; exact hlt),
    getElem?_disconnectSameName, hk]
  rfl

/-- C4: when `cookie` is already bound in `map_` (to the channel `k` behind
`conn`), `newProducer` returns null, leaves `k` with `disconnect = true` and
otherwise as it was, changes no other channel object, creates none, and leaves
`map_`, `deadConnections`, `vbConns` and the call log as they were. -/
theorem newProducer_cookie_already_bound (init : ConnKind → InitFlags) (s : State)
    (cookie conn : Nat)
    (k : ConnHandler) (name : String) (flags : Nat) (jsonExtra : List Nat)
    (hfind : mapFind s.map_ cookie = some conn) (hconn : s.conns[conn]? = some k) :
    (newProducer init s cookie name flags jsonExtra).2 = none ∧
    (newProducer init s cookie name flags jsonExtra).1.conns[conn]? =
      some { k with disconnect := true } ∧
    (newProducer init s cookie name flags jsonExtra).1.map_ = s.map_ ∧
    (newProducer init s cookie name flags jsonExtra).1.conns.length = s.conns.length ∧
    (∀ other, other ≠ conn →
      (newProducer init s cookie name flags jsonExtra).1.conns[other]? = s.conns[other]?) ∧
    (newProducer init s cookie name flags jsonExtra).1.deadConnections = s.deadConnections ∧
    (newProducer init s cookie name flags jsonExtra).1.vbConns = s.vbConns ∧
    (newProducer init s cookie name flags jsonExtra).1.calls = s.calls := by
  unfold newProducer
  rw [newConn_bound init _ s cookie conn name hfind]
  refine ⟨rfl, ?_, rfl, length_setDisconnectAt _ _, ?_, rfl, rfl, rfl⟩
  · show (setDisconnectAt s.conns conn)[conn]? = _
    rw [getElem?_setDisconnectAt_self, hconn]
    rfl
  · intro other hne
    exact getElem?_setDisconnectAt_ne _ hne

theorem newProducer_cookie_already_bound_witness :
    mapFind oneProducerState.map_ 10 = some 0 ∧
    oneProducerState.conns[0]? = some exampleProducer ∧
    (newProducer exampleInit oneProducerState 10 "n2" 0 []).2 = none ∧
    (newProducer exampleInit oneProducerState 10 "n2" 0 []).1.conns[0]? =
      some { exampleProducer with disconnect := true } :=
  ⟨rfl, rfl,
    (newProducer_cookie_already_bound exampleInit oneProducerState 10 0 exampleProducer
      "n2" 0 [] rfl rfl).1,
    (newProducer_cookie_already_bound exampleInit oneProducerState 10 0 exampleProducer
      "n2" 0 [] rfl rfl).2.1⟩

/-- C5: when `cookie` is not bound in `map_`, after `newProducer`: every channel
of `map_` named `"eq_dcpq:" + name` has `disconnect = true` (and is otherwise
as before); every old binding of `map_` is still there; every channel object
with another name is unchanged; and the returned channel is new, bound to
`cookie` in `map_`, named `"eq_dcpq:" + name`, with `disconnect = false`. -/
theorem newProducer_fresh_cookie (init : ConnKind → InitFlags) (s : State)
    (cookie : Nat) (name : String)
    (flags : Nat) (jsonExtra : List Nat) (hfree : mapFind s.map_ cookie = none) :
    (∀ e ∈ s.map_, ∀ k, s.conns[e.2]? = some k → k.name = "eq_dcpq:" ++ name →
      (newProducer init s cookie name flags jsonExtra).1.conns[e.2]? =
        some { k with disconnect := true }) ∧
    (∀ c conn, mapFind s.map_ c = some conn →
      mapFind (newProducer init s cookie name flags jsonExtra).1.map_ c = some conn) ∧
    (∀ (conn : Nat) (k : ConnHandler), s.conns[conn]? = some k →
      k.name ≠ "eq_dcpq:" ++ name →
      (newProducer init s cookie name flags jsonExtra).1.conns[conn]? = some k) ∧
    (∃ dcp h, (newProducer init s cookie name flags jsonExtra).2 = some dcp ∧
      s.conns[dcp]? = none ∧
      mapFind (newProducer init s cookie name flags jsonExtra).1.map_ cookie = some dcp ∧
      (newProducer init s cookie name flags jsonExtra).1.conns[dcp]? = some h ∧
      h.name = "eq_dcpq:" ++ name ∧ h.disconnect = false ∧ h.cookie = cookie ∧
      h.kind = ConnKind.producer) := by
  unfold newProducer
  refine ⟨?_, ?_, ?_, ?_⟩
  · intro e he k hk hname
    rw [newConn_free_old init _ s cookie name hfree e.2 k hk]
    have hmem : e.2 ∈ s.map_.map Prod.snd := List.mem_map_of_mem _ he
    simp [markIf, hname, hmem, ConnHandler.setDisconnect]
  · intro c conn hc
    rw [newConn_free init _ s cookie name hfree]
    have hne : c ≠ cookie := by
      intro heq; rw [heq, hfree] at hc; cases hc
    show mapFind (mapInsert s.map_ cookie _) c = some conn
    rw [mapFind_mapInsert_ne _ _ hne, hc]
  · intro conn k hk hname
    rw [newConn_free_old init _ s cookie name hfree conn k hk]
    simp [markIf, hname]
  · rw [newConn_free init _ s cookie name hfree]
    refine ⟨_, ConnHandler.create init ConnKind.producer cookie ("eq_dcpq:" ++ name),
      rfl, ?_, ?_, ?_, rfl, rfl, rfl, rfl⟩
    · rw [length_disconnectSameName]
      exact List.getElem?_eq_none (le_refl _)
    · exact mapFind_mapInsert_self _ _ _
    · show (disconnectSameName s.conns s.map_ ("eq_dcpq:" ++ name) ++ _)[_]? = _
      rw [List.getElem?_append_right (le_refl _)]
      simp

theorem newProducer_fresh_cookie_witness :
    mapFind oneProducerState.map_ 11 = none ∧
    (newProducer exampleInit oneProducerState 11 "n1" 0 []).1.conns[0]? =
      some { exampleProducer with disconnect := true } ∧
    mapFind (newProducer exampleInit oneProducerState 11 "n1" 0 []).1.map_ 10 = some 0 :=
  ⟨rfl,
    (newProducer_fresh_cookie exampleInit oneProducerState 11 "n1" 0 [] rfl).1
      (10, 0) (List.mem_singleton.2 rfl) exampleProducer rfl (by decide),
    (newProducer_fresh_cookie exampleInit oneProducerState 11 "n1" 0 [] rfl).2.1 10 0 rfl⟩

theorem markIf_cookie (n : String) (p : Prop) [Decidable p] (k : ConnHandler) :
    (markIf n p k).cookie = k.cookie := by
  unfold markIf
  split <;> rfl

theorem cookieInv_setDisconnectAt (s : State) (conn : Nat) (e : Nat × Nat)
    (h : ∃ k, s.conns[e.2]? = some k ∧ k.cookie = e.1) :
    ∃ k, (setDisconnectAt s.conns conn)[e.2]? = some k ∧ k.cookie = e.1 := by
  obtain ⟨k, hk, hc⟩ := h
  rw [getElem?_setDisconnectAt, hk]
  by_cases heq : conn = e.2
  · exact ⟨k.setDisconnect, by simp [heq], hc⟩
  · exact ⟨k, by simp [heq], hc⟩

theorem cookieInv_newConn (init : ConnKind → InitFlags) (kind : ConnKind) (s : State)
    (cookie : Nat) (name : String)
    (hinv : CookieInv s) : CookieInv (newConn init kind s cookie name).1 := by
  cases hfind : mapFind s.map_ cookie with
  | some conn =>
    rw [newConn_bound init kind s cookie conn name hfind]
    intro e he
    exact cookieInv_setDisconnectAt s conn e (hinv e he)
  | none =>
    intro e he
    have he2 : e ∈ mapInsert s.map_ cookie
        (disconnectSameName s.conns s.map_ ("eq_dcpq:" ++ name)).length := by
      rw [newConn_free init kind s cookie name hfind] at he
      exact he
    rcases mem_mapInsert he2 with hnew | hold
    · rw [newConn_free init kind s cookie name hfind, hnew]
      refine ⟨ConnHandler.create init kind cookie ("eq_dcpq:" ++ name), ?_, rfl⟩
      show (disconnectSameName s.conns s.map_ ("eq_dcpq:" ++ name) ++ _)[_]? = _
      rw [List.getElem?_append_right (le_refl _)]
      simp
    · obtain ⟨k, hk, hc⟩ := hinv e hold
      exact ⟨_, newConn_free_old init kind s cookie name hfind e.2 k hk,
        (markIf_cookie _ _ k).trans hc⟩

theorem disconnect_bound_eq (s : State) (cookie conn : Nat) (k : ConnHandler)
    (hfind : mapFind s.map_ cookie = some conn) (hconn : s.conns[conn]? = some k) :
    disconnect s cookie =
      { s with conns := setDisconnectAt s.conns conn,
               map_ := mapErase s.map_ cookie,
               calls := s.calls ++ closeCalls k.kind conn,
               deadConnections := s.deadConnections ++ [conn] } := by
  simp only [disconnect, hfind, hconn]

theorem cookieInv_disconnect (s : State) (cookie : Nat) (hinv : CookieInv s) :
    CookieInv (disconnect s cookie) := by
  cases hfind : mapFind s.map_ cookie with
  | none =>
    have : disconnect s cookie = s := by simp only [disconnect, hfind]
    rw [this]; exact hinv
  | some conn =>
    cases hconn : s.conns[conn]? with
    | none =>
      have : disconnect s cookie = s := by simp only [disconnect, hfind, hconn]
      rw [this]; exact hinv
    | some k =>
      rw [disconnect_bound_eq s cookie conn k hfind hconn]
      intro e he
      exact cookieInv_setDisconnectAt s conn e (hinv e (mem_of_mem_mapErase he))

theorem cookieInv_apply (init : ConnKind → InitFlags) (s : State) (op : RegistryOp)
    (hinv : CookieInv s) : CookieInv (op.apply init s) := by
  cases op with
  | newProducer cookie name flags jsonExtra => exact cookieInv_newConn init _ s cookie name hinv
  | newConsumer cookie name => exact cookieInv_newConn init _ s cookie name hinv
  | disconnect cookie => exact cookieInv_disconnect s cookie hinv

theorem cookieInv_run (init : ConnKind → InitFlags) (ops : List RegistryOp) :
    ∀ s : State, CookieInv s → CookieInv (runRegistryOps init s ops) := by
  induction ops with
  | nil => intro s h; exact h
  | cons op rest ih =>
    intro s h
    exact ih (op.apply init s) (cookieInv_apply init s op h)

/-- C6: the predicate "every entry `c ↦ conn` of `map_` leads to a channel whose
`getCookie()` is `c`" is preserved by `newProducer`, `newConsumer` and
`disconnect` for every argument, and therefore holds in every registry reached
from the empty one by any finite sequence of these operations. -/
theorem cookieInv_preserved_and_reachable (init : ConnKind → InitFlags) :
    (∀ (s : State) (op : RegistryOp), CookieInv s → CookieInv (op.apply init s)) ∧
    (∀ ops : List RegistryOp, CookieInv (runRegistryOps init State.empty ops)) :=
  ⟨cookieInv_apply init,
    fun ops => cookieInv_run init ops State.empty (fun _ he => nomatch he)⟩

theorem cookieInv_preserved_and_reachable_witness :
    CookieInv oneProducerState ∧
    CookieInv ((RegistryOp.disconnect 10).apply exampleInit oneProducerState) := by
  have hinv : CookieInv oneProducerState := by
    intro e he
    rw [List.mem_singleton.1 he]
    exact ⟨exampleProducer, rfl, rfl⟩
  exact ⟨hinv, (cookieInv_preserved_and_reachable exampleInit).1 _ _ hinv⟩

/-! ## Theorems: disconnect -/

theorem filter_ne_of_lt (m : List (Nat × Nat)) (c : Nat) (h : ∀ e ∈ m, c < e.1) :
    m.filter (fun e => decide (e.1 ≠ c)) = m := by
  apply List.filter_eq_self.2
  intro e he
  have := h e he
  simp only [ne_eq, decide_not, Bool.not_eq_eq_eq_not, Bool.not_true, decide_eq_false_iff_not]
  omega

theorem mapErase_eq_filter (m : List (Nat × Nat)) (c : Nat) (hs : MapSorted m) :
    mapErase m c = m.filter (fun e => decide (e.1 ≠ c)) := by
  induction m with
  | nil => rfl
  | cons e m ih =>
    have hs2 := List.pairwise_cons.1 hs
    unfold mapErase
    by_cases hec : e.1 = c
    · have hdrop : decide (e.1 ≠ c) = false := by simp [hec]
      rw [if_pos hec, List.filter_cons_of_neg (by simp [hec])]
      exact (filter_ne_of_lt m c (fun e2 he2 => hec ▸ hs2.1 e2 he2)).symm
    · rw [if_neg hec, List.filter_cons_of_pos (by simp [hec]), ih hs2.2]

theorem mapFind_filter_self (m : List (Nat × Nat)) (c : Nat) :
    mapFind (m.filter (fun e => decide (e.1 ≠ c))) c = none := by
  induction m with
  | nil => rfl
  | cons e m ih =>
    by_cases hec : e.1 = c
    · rw [List.filter_cons_of_neg (by simp [hec])]; exact ih
    · rw [List.filter_cons_of_pos (by simp [hec])]
      show (if e.1 = c then some e.2 else _) = none
      rw [if_neg hec]; exact ih

theorem mapFind_filter_ne (m : List (Nat × Nat)) {c c' : Nat} (hne : c' ≠ c) :
    mapFind (m.filter (fun e => decide (e.1 ≠ c))) c' = mapFind m c' := by
  induction m with
  | nil => rfl
  | cons e m ih =>
    by_cases hec : e.1 = c
    · rw [List.filter_cons_of_neg (by simp [hec])]
      have hec2 : e.1 ≠ c' := fun h => hne (h.symm.trans hec)
      show _ = (if e.1 = c' then some e.2 else _)
      rw [if_neg hec2]; exact ih
    · rw [List.filter_cons_of_pos (by simp [hec])]
      show (if e.1 = c' then some e.2 else _) = (if e.1 = c' then some e.2 else _)
      rw [ih]

theorem mapFind_mapErase_self (m : List (Nat × Nat)) (c : Nat) (hs : MapSorted m) :
    mapFind (mapErase m c) c = none := by
  rw [mapErase_eq_filter _ _ hs]
  exact mapFind_filter_self _ _

/-- C7: when `cookie` is bound in `map_` to the channel `k` (behind `conn`),
after `disconnect(cookie)`: `cookie` is no key of `map_`, every other entry of
`map_` is kept (same entries, same order, same lookups), `k` has
`disconnect = true`, no other channel object changed, and `deadConnections` is
the old list followed by `k`. -/
theorem disconnect_bound (s : State) (cookie conn : Nat) (k : ConnHandler)
    (hs : MapSorted s.map_)
    (hfind : mapFind s.map_ cookie = some conn) (hconn : s.conns[conn]? = some k) :
    mapFind (disconnect s cookie).map_ cookie = none ∧
    (disconnect s cookie).map_ = s.map_.filter (fun e => decide (e.1 ≠ cookie)) ∧
    (∀ c, c ≠ cookie → mapFind (disconnect s cookie).map_ c = mapFind s.map_ c) ∧
    (disconnect s cookie).conns[conn]? = some { k with disconnect := true } ∧
    (∀ other, other ≠ conn → (disconnect s cookie).conns[other]? = s.conns[other]?) ∧
    (disconnect s cookie).deadConnections = s.deadConnections ++ [conn] := by
  rw [disconnect_bound_eq s cookie conn k hfind hconn]
  refine ⟨?_, mapErase_eq_filter _ _ hs, ?_, ?_, ?_, rfl⟩
  · exact mapFind_mapErase_self _ _ hs
  · intro c hne
    show mapFind (mapErase s.map_ cookie) c = _
    rw [mapErase_eq_filter _ _ hs]
    exact mapFind_filter_ne _ hne
  · show (setDisconnectAt s.conns conn)[conn]? = _
    rw [getElem?_setDisconnectAt_self, hconn]
    rfl
  · intro other hne
    exact getElem?_setDisconnectAt_ne _ hne

theorem disconnect_bound_witness :
    MapSorted oneProducerState.map_ ∧
    mapFind oneProducerState.map_ 10 = some 0 ∧
    oneProducerState.conns[0]? = some exampleProducer ∧
    mapFind (disconnect oneProducerState 10).map_ 10 = none ∧
    (disconnect oneProducerState 10).deadConnections =
      oneProducerState.deadConnections ++ [0] :=
  ⟨by decide, rfl, rfl,
    (disconnect_bound oneProducerState 10 0 exampleProducer (by decide) rfl rfl).1,
    (disconnect_bound oneProducerState 10 0 exampleProducer (by decide) rfl rfl).2.2.2.2.2⟩

/-- C8: `disconnect(c); disconnect(c)` yields exactly the registry state of a
single `disconnect(c)` (same `map_`, `deadConnections`, channel objects,
`vbConns` and call log, so no stream is closed by the second call), and
`disconnect` of a cookie that is not bound returns the state unchanged. -/
theorem disconnect_idempotent (s : State) (cookie : Nat) (hs : MapSorted s.map_) :
    disconnect (disconnect s cookie) cookie = disconnect s cookie ∧
    (mapFind s.map_ cookie = none → disconnect s cookie = s) := by
  constructor
  · cases hfind : mapFind s.map_ cookie with
    | none => simp only [disconnect, hfind]
    | some conn =>
      cases hconn : s.conns[conn]? with
      | none => simp only [disconnect, hfind, hconn]
      | some k =>
        have hgone : mapFind (disconnect s cookie).map_ cookie = none := by
          rw [disconnect_bound_eq s cookie conn k hfind hconn]
          exact mapFind_mapErase_self _ _ hs
        generalize disconnect s cookie = s2 at hgone
        simp only [disconnect, hgone]
  · intro hnone
    simp only [disconnect, hnone]

theorem disconnect_idempotent_witness :
    MapSorted oneProducerState.map_ ∧
    disconnect (disconnect oneProducerState 10) 10 = disconnect oneProducerState 10 :=
  ⟨by decide, (disconnect_idempotent oneProducerState 10 (by decide)).1⟩

/-! ## Theorems: manageConnections -/

theorem drainDeadConnections_eq (dead : List Nat) :
    ∀ release, drainDeadConnections dead release = ([], release ++ dead) := by
  induction dead with
  | nil => intro release; simp [drainDeadConnections]
  | cons c dead ih => intro release; simp [drainDeadConnections, ih]

theorem removeVBConnections_frame (s : State) (conn : Nat) :
    (removeVBConnections s conn).conns = s.conns ∧
    (removeVBConnections s conn).map_ = s.map_ ∧
    (removeVBConnections s conn).deadConnections = s.deadConnections ∧
    (removeVBConnections s conn).calls = s.calls := by
  unfold removeVBConnections
  cases s.conns[conn]? with
  | none => exact ⟨rfl, rfl, rfl, rfl⟩
  | some k =>
    obtain ⟨kind, _, _, _, _, _, _, _⟩ := k
    cases kind <;> exact ⟨rfl, rfl, rfl, rfl⟩

theorem releaseAll_frame (release : List Nat) :
    ∀ s : State,
      (releaseAll s release).map_ = s.map_ ∧
      (releaseAll s release).deadConnections = s.deadConnections ∧
      (releaseAll s release).calls = s.calls ++ release.map ExtCall.releaseReference := by
  induction release with
  | nil => intro s; simp [releaseAll]
  | cons c rest ih =>
    intro s
    have hstep := removeVBConnections_frame (releaseReference s c) c
    have hrec := ih (removeVBConnections (releaseReference s c) c)
    show (releaseAll (removeVBConnections (releaseReference s c) c) rest).map_ = _ ∧
      (releaseAll (removeVBConnections (releaseReference s c) c) rest).deadConnections = _ ∧
      (releaseAll (removeVBConnections (releaseReference s c) c) rest).calls = _
    rw [hrec.1, hrec.2.1, hrec.2.2, hstep.2.1, hstep.2.2.1, hstep.2.2.2]
    refine ⟨rfl, rfl, ?_⟩
    show (s.calls ++ [ExtCall.releaseReference c]) ++ _ = _
    simp

theorem releasedConns_append (a b : List ExtCall) :
    releasedConns (a ++ b) = releasedConns a ++ releasedConns b := by
  simp [releasedConns, List.filterMap_append]

theorem releasedConns_notifyCalls (conns : List ConnHandler) (toNotify : List Nat) :
    releasedConns (notifyCalls conns toNotify) = [] := by
  induction toNotify with
  | nil => rfl
  | cons c rest ih =>
    unfold notifyCalls at ih ⊢
    rw [List.filterMap_cons]
    cases hc : conns[c]? with
    | none => simpa using ih
    | some k =>
      by_cases hr : k.reserved = true
      · simp only [hr, if_true]
        show releasedConns ([ExtCall.notifyIOComplete k.cookie] ++ _) = []
        rw [releasedConns_append, ih]
        rfl
      · simpa [hr] using ih

theorem releasedConns_map (release : List Nat) :
    releasedConns (release.map ExtCall.releaseReference) = release := by
  induction release with
  | nil => rfl
  | cons c rest ih =>
    show releasedConns ([ExtCall.releaseReference c] ++ rest.map _) = _
    rw [releasedConns_append, ih]
    rfl

/-- C9: after `manageConnections()` the list `deadConnections` is empty, the
calls logged by it contain `releaseReference` exactly on the former entries of
`deadConnections`, once per entry and in list order (so on no other channel),
and `map_` is unchanged. -/
theorem manageConnections_releases_dead (s : State) :
    (manageConnections s).deadConnections = [] ∧
    (∃ new, (manageConnections s).calls = s.calls ++ new ∧
      releasedConns new = s.deadConnections) ∧
    (manageConnections s).map_ = s.map_ := by
  unfold manageConnections
  simp only [drainDeadConnections_eq, List.nil_append]
  refine ⟨(releaseAll_frame _ _).2.1, ?_, (releaseAll_frame _ _).1⟩
  refine ⟨notifyCalls s.conns
      ((s.map_.filter fun e => needsNotify s.conns e.2).map Prod.snd) ++
    s.deadConnections.map ExtCall.releaseReference, ?_, ?_⟩
  · rw [(releaseAll_frame _ _).2.2, List.append_assoc]
  · rw [releasedConns_append, releasedConns_notifyCalls, releasedConns_map]
    rfl

theorem cookieAt_eq_identAt (cs : List ConnHandler) (i : Nat) :
    cookieAt cs i = (identAt cs i).map (fun t => t.2.1) := by
  unfold cookieAt identAt
  cases cs[i]? <;> rfl

theorem Shrinks.cookieAt_eq {s1 s2 : State} (h : Shrinks s1 s2) :
    cookieAt s2.conns = cookieAt s1.conns := by
  funext i
  rw [cookieAt_eq_identAt, cookieAt_eq_identAt, h.1 i]

theorem Shrinks.conn_back {s1 s2 : State} (h : Shrinks s1 s2) {c : Nat} {k2 : ConnHandler}
    (hk : s2.conns[c]? = some k2) :
    ∃ k1, s1.conns[c]? = some k1 ∧ k1.kind = k2.kind ∧ k1.cookie = k2.cookie ∧
      k1.streams = k2.streams := by
  have hi := h.1 c
  unfold identAt at hi
  rw [hk] at hi
  cases h1 : s1.conns[c]? with
  | none => rw [h1] at hi; cases hi
  | some k1 =>
    rw [h1] at hi
    simp only [Option.map_some', Option.some.injEq, Prod.mk.injEq] at hi
    exact ⟨k1, rfl, hi.1.symm, hi.2.1.symm, hi.2.2.symm⟩

theorem Shrinks.conn_fwd {s1 s2 : State} (h : Shrinks s1 s2) {c : Nat} {k1 : ConnHandler}
    (hk : s1.conns[c]? = some k1) :
    ∃ k2, s2.conns[c]? = some k2 ∧ k2.kind = k1.kind ∧ k2.cookie = k1.cookie ∧
      k2.streams = k1.streams := by
  have hi := h.1 c
  unfold identAt at hi
  rw [hk] at hi
  cases h2 : s2.conns[c]? with
  | none => rw [h2] at hi; cases hi
  | some k2 =>
    rw [h2] at hi
    simp only [Option.map_some', Option.some.injEq, Prod.mk.injEq] at hi
    exact ⟨k2, rfl, hi.1, hi.2.1, hi.2.2⟩

theorem Shrinks.refl (s : State) : Shrinks s s :=
  ⟨fun _ => rfl, fun _ l hl => ⟨l, hl, List.Sublist.refl l⟩⟩

theorem Shrinks.trans {s1 s2 s3 : State} (h12 : Shrinks s1 s2) (h23 : Shrinks s2 s3) :
    Shrinks s1 s3 := by
  refine ⟨fun i => (h23.1 i).trans (h12.1 i), ?_⟩
  intro v l3 hl3
  obtain ⟨l2, hl2, hsub2⟩ := h23.2 v l3 hl3
  obtain ⟨l1, hl1, hsub1⟩ := h12.2 v l2 hl2
  exact ⟨l1, hl1, hsub2.trans hsub1⟩

theorem Shrinks.backed {s1 s2 : State} (h : Shrinks s1 s2) {c : Nat}
    (hb : VBConnsBacked s1 c) : VBConnsBacked s2 c := by
  intro k2 hk2 vbid l2 hl2
  obtain ⟨k1, hk1, hkind, hcookie, hstreams⟩ := h.conn_back hk2
  obtain ⟨l1, hl1, hsub⟩ := h.sublist vbid l2 hl2
  obtain ⟨hone, hback⟩ := hb k1 hk1 vbid l1 hl1
  unfold AtMostOneWithCookie at hone ⊢
  rw [h.cookieAt_eq, ← hcookie]
  refine ⟨hone.sublist hsub, ?_⟩
  rintro ⟨e, he, hce⟩
  rw [← hkind, ← hstreams]
  exact hback ⟨e, hsub.subset he, hce⟩

theorem Shrinks.noVBConn {s1 s2 : State} (h : Shrinks s1 s2) {cookie : Nat}
    (hn : NoVBConnWithCookie s1 cookie) : NoVBConnWithCookie s2 cookie := by
  intro l2 hl2 e he
  obtain ⟨v, hv⟩ := List.mem_iff_getElem?.1 hl2
  obtain ⟨l1, hl1, hsub⟩ := h.2 v l2 hv
  rw [h.cookieAt_eq]
  exact hn l1 (List.mem_iff_getElem?.2 ⟨v, hl1⟩) e (hsub.subset he)

theorem eraseFirstWithCookie_sublist (cs : List ConnHandler) (cookie : Nat)
    (l : List Nat) : (eraseFirstWithCookie cs cookie l).Sublist l := by
  induction l with
  | nil => exact List.Sublist.refl _
  | cons e l ih =>
    unfold eraseFirstWithCookie
    by_cases hc : cookieAt cs e = some cookie
    · rw [if_pos hc]; exact List.sublist_cons_self e l
    · rw [if_neg hc]; exact ih.cons₂ e

theorem eraseFirstWithCookie_clears (cs : List ConnHandler) (cookie : Nat)
    (l : List Nat) (hd : AtMostOneWithCookie cs cookie l) :
    ∀ e ∈ eraseFirstWithCookie cs cookie l, cookieAt cs e ≠ some cookie := by
  induction l with
  | nil => intro e he; cases he
  | cons e0 l ih =>
    have hd2 := List.pairwise_cons.1 hd
    unfold eraseFirstWithCookie
    by_cases hc : cookieAt cs e0 = some cookie
    · rw [if_pos hc]
      intro e he heq
      exact hd2.1 e he ⟨hc, heq⟩
    · rw [if_neg hc]
      intro e he
      rcases List.mem_cons.1 he with rfl | hm
      · exact hc
      · exact ih hd2.2 e hm

theorem removeFromVBConns_sublist (cs : List ConnHandler) (cookie : Nat)
    (vbids : List Nat) :
    ∀ (vbs : List (List Nat)) (v : Nat) (l2 : List Nat),
      (removeFromVBConns cs cookie vbs vbids)[v]? = some l2 →
      ∃ l1, vbs[v]? = some l1 ∧ l2.Sublist l1 := by
  induction vbids with
  | nil => intro vbs v l2 h; exact ⟨l2, h, List.Sublist.refl _⟩
  | cons x xs ih =>
    intro vbs v l2 h
    obtain ⟨lm, hlm, hsub⟩ := ih (vbs.modify (eraseFirstWithCookie cs cookie) x) v l2 h
    rw [List.getElem?_modify] at hlm
    cases hv : vbs[v]? with
    | none => rw [hv] at hlm; cases hlm
    | some l1 =>
      rw [hv] at hlm
      simp only [Option.map_eq_map, Option.map_some', Option.some.injEq] at hlm
      refine ⟨l1, rfl, ?_⟩
      by_cases hx : x = v
      · rw [if_pos hx] at hlm
        rw [← hlm] at hsub
        exact hsub.trans (eraseFirstWithCookie_sublist cs cookie l1)
      · rw [if_neg hx] at hlm
        rw [← hlm] at hsub
        exact hsub

theorem removeFromVBConns_clears (cs : List ConnHandler) (cookie : Nat)
    (vbids : List Nat) :
    ∀ (vbs : List (List Nat)) (v : Nat) (l2 : List Nat), v ∈ vbids →
      (removeFromVBConns cs cookie vbs vbids)[v]? = some l2 →
      (∀ l1, vbs[v]? = some l1 → AtMostOneWithCookie cs cookie l1) →
      ∀ e ∈ l2, cookieAt cs e ≠ some cookie := by
  induction vbids with
  | nil => intro vbs v l2 hv; cases hv
  | cons x xs ih =>
    intro vbs v l2 hv h hd e he
    have hstep : ∀ lm, (vbs.modify (eraseFirstWithCookie cs cookie) x)[v]? = some lm →
        ∃ l1, vbs[v]? = some l1 ∧
          lm = (if x = v then eraseFirstWithCookie cs cookie l1 else l1) := by
      intro lm hlm
      rw [List.getElem?_modify] at hlm
      cases hvb : vbs[v]? with
      | none => rw [hvb] at hlm; cases hlm
      | some l1 =>
        rw [hvb] at hlm
        simp only [Option.map_eq_map, Option.map_some', Option.some.injEq] at hlm
        exact ⟨l1, rfl, hlm.symm⟩
    by_cases hx : x = v
    · obtain ⟨lm, hlm, hsub⟩ :=
        removeFromVBConns_sublist cs cookie xs _ v l2 h
      obtain ⟨l1, hl1, hlmeq⟩ := hstep lm hlm
      rw [if_pos hx] at hlmeq
      rw [hlmeq] at hsub
      exact eraseFirstWithCookie_clears cs cookie l1 (hd l1 hl1) e (hsub.subset he)
    · have hvxs : v ∈ xs := by
        rcases List.mem_cons.1 hv with hvx | hvxs
        · exact absurd hvx.symm hx
        · exact hvxs
      refine ih (vbs.modify (eraseFirstWithCookie cs cookie) x) v l2 hvxs h ?_ e he
      intro lm hlm
      obtain ⟨l1, hl1, hlmeq⟩ := hstep lm hlm
      rw [if_neg hx] at hlmeq
      rw [hlmeq]
      exact hd l1 hl1

theorem shrinks_releaseReference (s : State) (c : Nat) :
    Shrinks s (releaseReference s c) := by
  refine ⟨?_, fun v l hl => ⟨l, hl, List.Sublist.refl l⟩⟩
  intro i
  show identAt (s.conns.modify _ c) i = identAt s.conns i
  unfold identAt
  rw [List.getElem?_modify]
  cases s.conns[i]? with
  | none => rfl
  | some k => by_cases hci : c = i <;> simp [hci]

theorem removeVBConnections_producer (s : State) (c : Nat) (k : ConnHandler)
    (hk : s.conns[c]? = some k) (hkind : k.kind = ConnKind.producer) :
    removeVBConnections s c =
      { s with vbConns := removeFromVBConns s.conns k.cookie s.vbConns k.streams } := by
  obtain ⟨kind, _, _, _, _, _, _, _⟩ := k
  cases hkind
  simp only [removeVBConnections, hk]

theorem removeVBConnections_consumer (s : State) (c : Nat) (k : ConnHandler)
    (hk : s.conns[c]? = some k) (hkind : k.kind = ConnKind.consumer) :
    removeVBConnections s c = s := by
  obtain ⟨kind, _, _, _, _, _, _, _⟩ := k
  cases hkind
  simp only [removeVBConnections, hk]

theorem shrinks_removeVBConnections (s : State) (c : Nat) :
    Shrinks s (removeVBConnections s c) := by
  cases hk : s.conns[c]? with
  | none =>
    have : removeVBConnections s c = s := by simp only [removeVBConnections, hk]
    rw [this]; exact Shrinks.refl s
  | some k =>
    cases hkind : k.kind with
    | consumer =>
      rw [removeVBConnections_consumer s c k hk hkind]; exact Shrinks.refl s
    | producer =>
      rw [removeVBConnections_producer s c k hk hkind]
      exact ⟨fun _ => rfl, fun v l2 hl2 => removeFromVBConns_sublist _ _ _ _ v l2 hl2⟩

theorem shrinks_releaseStep (s : State) (c : Nat) :
    Shrinks s (removeVBConnections (releaseReference s c) c) :=
  (shrinks_releaseReference s c).trans (shrinks_removeVBConnections _ c)

theorem shrinks_releaseAll (release : List Nat) :
    ∀ s : State, Shrinks s (releaseAll s release) := by
  induction release with
  | nil => intro s; exact Shrinks.refl s
  | cons c rest ih =>
    intro s
    exact (shrinks_releaseStep s c).trans (ih _)

/-- One round of the release loop clears the index of the released channel's
cookie, when the index is backed by that channel. -/
theorem releaseStep_clears (s : State) (c : Nat) (k : ConnHandler)
    (hb : VBConnsBacked s c) (hk : s.conns[c]? = some k) :
    NoVBConnWithCookie (removeVBConnections (releaseReference s c) c) k.cookie := by
  have hsh1 := shrinks_releaseReference s c
  obtain ⟨k1, hk1, hkind1, hcookie1, hstreams1⟩ := hsh1.conn_fwd hk
  have hb1 := hsh1.backed hb
  generalize releaseReference s c = s1 at hk1 hb1
  rw [← hcookie1]
  intro l2 hl2 e he hce
  have hsh2 := shrinks_removeVBConnections s1 c
  obtain ⟨v, hv⟩ := List.mem_iff_getElem?.1 hl2
  obtain ⟨l1, hl1, hsub⟩ := hsh2.sublist v l2 hv
  rw [hsh2.cookieAt_eq] at hce
  obtain ⟨hone, hback⟩ := hb1 k1 hk1 v l1 hl1
  obtain ⟨hprod, hvin⟩ := hback ⟨e, hsub.subset he, hce⟩
  rw [removeVBConnections_producer s1 c k1 hk1 hprod] at hv
  exact removeFromVBConns_clears s1.conns k1.cookie k1.streams s1.vbConns v l2 hvin hv
    (fun l hl => by
      have hl1' : l = l1 := Option.some.inj (hl.symm.trans hl1)
      rw [hl1']
      exact hone)
    e he hce

theorem releaseAll_clears (release : List Nat) :
    ∀ s : State, (∀ c ∈ release, VBConnsBacked s c) →
      ∀ c ∈ release, ∀ k, s.conns[c]? = some k →
        NoVBConnWithCookie (releaseAll s release) k.cookie := by
  induction release with
  | nil => intro s _ c hc; cases hc
  | cons c0 rest ih =>
    intro s hb c hc k hk
    have hsh := shrinks_releaseStep s c0
    rcases List.mem_cons.1 hc with rfl | hrest
    · exact (shrinks_releaseAll rest _).noVBConn
        (releaseStep_clears s c k (hb c (List.mem_cons_self _ _)) hk)
    · obtain ⟨k2, hk2, _, hcookie2, _⟩ := hsh.conn_fwd hk
      rw [← hcookie2]
      exact ih _
        (fun c' hc' => hsh.backed (hb c' (List.mem_cons_of_mem _ hc'))) c hrest k2 hk2

/-- C10 as stated fails: in `cookieReuseState` the channel behind reference 0
is in `deadConnections` with cookie 7, and after `manageConnections()` the list
`vbConns[0]` still holds an entry (the producer that reuses the cookie) whose
cookie is 7. -/
theorem manageConnections_keeps_entry_with_dead_cookie :
    ¬ (∀ c ∈ cookieReuseState.deadConnections, ∀ k,
        cookieReuseState.conns[c]? = some k →
        NoVBConnWithCookie (manageConnections cookieReuseState) k.cookie) := by
  intro h
  have h7 := h 0 (by decide) _ rfl [1] (by decide) 1 (by decide)
  exact h7 (by decide)

/-- C10 (amended): if, for every channel `c` of `deadConnections`, each list
`vbConns[v]` holds at most one entry with `c`'s cookie, and holds one only when
`c` is a producer whose `getVBVector()` contains `v`, then after
`manageConnections()` no list `vbConns[v]` holds an entry whose cookie is the
cookie of a channel that was in `deadConnections`. -/
theorem manageConnections_clears_vbConns (s : State)
    (hb : ∀ c ∈ s.deadConnections, VBConnsBacked s c) :
    ∀ c ∈ s.deadConnections, ∀ k, s.conns[c]? = some k →
      NoVBConnWithCookie (manageConnections s) k.cookie := by
  intro c hc k hk
  unfold manageConnections
  simp only [drainDeadConnections_eq, List.nil_append]
  exact releaseAll_clears s.deadConnections
    { s with deadConnections := [],
             calls := s.calls ++ notifyCalls s.conns
               ((s.map_.filter fun e => needsNotify s.conns e.2).map Prod.snd) }
    hb c hc k hk

theorem manageConnections_clears_vbConns_witness :
    (∀ c ∈ reapState.deadConnections, VBConnsBacked reapState c) ∧
    NoVBConnWithCookie (manageConnections reapState) 7 := by
  have hb : ∀ c ∈ reapState.deadConnections, VBConnsBacked reapState c := by
    intro c hc k hk vbid l hl
    rw [List.mem_singleton.1 hc] at hk
    cases hk
    match vbid, hl with
    | 0, hl =>
      cases hl
      exact ⟨List.pairwise_singleton _ _, fun _ => ⟨rfl, List.mem_singleton.2 rfl⟩⟩
    | _ + 1, hl => cases hl
  exact ⟨hb, manageConnections_clears_vbConns reapState hb 0
    (List.mem_singleton.2 rfl) _ rfl⟩

/-! ## Theorems: passive streams -/

theorem hasPassiveStream_iff (conns : List ConnHandler) (conn vbucket : Nat) :
    hasPassiveStream conns conn vbucket = true ↔
      ∃ h, conns[conn]? = some h ∧ h.kind = ConnKind.consumer ∧ vbucket ∈ h.streams := by
  unfold hasPassiveStream
  cases hc : conns[conn]? with
  | none => simp
  | some h => simp [ConnHandler.isStreamPresent]

theorem isPassiveStreamConnected_iff (s : State) (vbucket : Nat) :
    isPassiveStreamConnected_UNLOCKED s vbucket = true ↔
      ∃ e ∈ s.map_, ∃ h, s.conns[e.2]? = some h ∧ h.kind = ConnKind.consumer ∧
        vbucket ∈ h.streams := by
  unfold isPassiveStreamConnected_UNLOCKED
  rw [List.any_eq_true]
  constructor
  · rintro ⟨e, he, hp⟩
    exact ⟨e, he, (hasPassiveStream_iff _ _ _).1 hp⟩
  · rintro ⟨e, he, hp⟩
    exact ⟨e, he, (hasPassiveStream_iff _ _ _).2 hp⟩

/-- C11: if some consumer bound in `map_` already has a stream for `vbucket`,
`addPassiveStream` returns `ENGINE_KEY_EEXISTS` with the registry (every
consumer's streams included) unchanged, whatever `conn.addStream` would do, so
without calling it; otherwise its result is exactly the result of
`conn.addStream(opaque, vbucket, flags)`. -/
theorem addPassiveStream_spec (addStream : AddStream) (s : State)
    (conn opq vbucket flags : Nat) :
    ((∃ e ∈ s.map_, ∃ h, s.conns[e.2]? = some h ∧ h.kind = ConnKind.consumer ∧
        vbucket ∈ h.streams) →
      addPassiveStream addStream s conn opq vbucket flags =
        (s, ENGINE_ERROR_CODE.ENGINE_KEY_EEXISTS)) ∧
    ((¬ ∃ e ∈ s.map_, ∃ h, s.conns[e.2]? = some h ∧ h.kind = ConnKind.consumer ∧
        vbucket ∈ h.streams) →
      addPassiveStream addStream s conn opq vbucket flags =
        addStream s conn opq vbucket flags) := by
  constructor
  · intro hex
    unfold addPassiveStream
    rw [if_pos ((isPassiveStreamConnected_iff s vbucket).2 hex)]
  · intro hno
    unfold addPassiveStream
    rw [if_neg (fun hc => hno ((isPassiveStreamConnected_iff s vbucket).1 hc))]

theorem addPassiveStream_spec_witness :
    (∃ e ∈ (addPassiveStream (consumerAddStream alwaysSuccess)
          twoConsumersState 0 5 7 0).1.map_,
      ∃ h, (addPassiveStream (consumerAddStream alwaysSuccess)
          twoConsumersState 0 5 7 0).1.conns[e.2]? = some h ∧
        h.kind = ConnKind.consumer ∧ 7 ∈ h.streams) ∧
    addPassiveStream (consumerAddStream alwaysSuccess)
        (addPassiveStream (consumerAddStream alwaysSuccess) twoConsumersState 0 5 7 0).1
        1 6 7 0 =
      ((addPassiveStream (consumerAddStream alwaysSuccess) twoConsumersState 0 5 7 0).1,
        ENGINE_ERROR_CODE.ENGINE_KEY_EEXISTS) :=
  have hex : ∃ e ∈ (addPassiveStream (consumerAddStream alwaysSuccess)
        twoConsumersState 0 5 7 0).1.map_,
      ∃ h, (addPassiveStream (consumerAddStream alwaysSuccess)
          twoConsumersState 0 5 7 0).1.conns[e.2]? = some h ∧
        h.kind = ConnKind.consumer ∧ 7 ∈ h.streams :=
    ⟨(20, 0), by decide, { exampleConsumer with streams := [7] }, by decide, rfl, by decide⟩
  ⟨hex, (addPassiveStream_spec (consumerAddStream alwaysSuccess) _ 1 6 7 0).1 hex⟩

/-- The passive streams seen through a reference after `vbucket` was added to
the streams of `conn`. -/
theorem hasPassiveStream_after_add (conns : List ConnHandler) (conn vbucket r v : Nat) :
    hasPassiveStream
        (conns.modify (fun h => { h with streams := h.streams ++ [vbucket] }) conn) r v = true ↔
      hasPassiveStream conns r v = true ∨
        (r = conn ∧ v = vbucket ∧
          ∃ h, conns[conn]? = some h ∧ h.kind = ConnKind.consumer) := by
  rw [hasPassiveStream_iff, hasPassiveStream_iff, List.getElem?_modify]
  cases hr : conns[r]? with
  | none =>
    constructor
    · rintro ⟨h, hh, _⟩; simp at hh
    · rintro (⟨h, hh, _⟩ | ⟨hrc, _, h, hh, _⟩)
      · cases hh
      · rw [hrc, hh] at hr; cases hr
  | some k =>
    by_cases hcr : conn = r
    · subst hcr
      constructor
      · rintro ⟨h, hh, hkind, hmem⟩
        simp only [if_true, Option.map_eq_map, Option.map_some', Option.some.injEq] at hh
        subst hh
        rcases List.mem_append.1 hmem with hold | hnew
        · exact Or.inl ⟨k, rfl, hkind, hold⟩
        · exact Or.inr ⟨rfl, List.mem_singleton.1 hnew, k, hr, hkind⟩
      · rintro (⟨h, hh, hkind, hmem⟩ | ⟨_, hv, h, hh, hkind⟩)
        · cases hh
          exact ⟨{ k with streams := k.streams ++ [vbucket] }, by simp, hkind,
            List.mem_append_left _ hmem⟩
        · rw [hr] at hh
          cases hh
          exact ⟨{ k with streams := k.streams ++ [vbucket] }, by simp, hkind,
            List.mem_append_right _ (List.mem_singleton.2 hv)⟩
    · constructor
      · rintro ⟨h, hh, hkind, hmem⟩
        simp only [hcr, if_false, Option.map_eq_map, Option.map_some',
          Option.some.injEq] at hh
        subst hh
        exact Or.inl ⟨k, rfl, hkind, hmem⟩
      · rintro (⟨h, hh, hkind, hmem⟩ | ⟨hrc, _⟩)
        · cases hh
          exact ⟨k, by simp [hcr], hkind, hmem⟩
        · exact absurd hrc.symm hcr

theorem addPassiveStream_success
    (outcome : State → Nat → Nat → Nat → Nat → ENGINE_ERROR_CODE)
    (s : State) (conn opq vbucket flags : Nat)
    (hok : (addPassiveStream (consumerAddStream outcome) s conn opq vbucket flags).2 =
      ENGINE_ERROR_CODE.ENGINE_SUCCESS) :
    isPassiveStreamConnected_UNLOCKED s vbucket = false ∧
    (addPassiveStream (consumerAddStream outcome) s conn opq vbucket flags).1 =
      { s with conns :=
          s.conns.modify (fun h => { h with streams := h.streams ++ [vbucket] }) conn } := by
  unfold addPassiveStream at hok ⊢
  by_cases hc : isPassiveStreamConnected_UNLOCKED s vbucket = true
  · rw [if_pos hc] at hok; cases hok
  · rw [if_neg hc] at hok ⊢
    refine ⟨Bool.eq_false_iff.2 hc, ?_⟩
    unfold consumerAddStream at hok ⊢
    by_cases ho : outcome s conn opq vbucket flags = ENGINE_ERROR_CODE.ENGINE_SUCCESS
    · rw [if_pos ho]
    · rw [if_neg ho] at hok
      exact absurd hok ho

theorem addPassiveStream_unchanged
    (outcome : State → Nat → Nat → Nat → Nat → ENGINE_ERROR_CODE)
    (s : State) (conn opq vbucket flags : Nat)
    (hfail : (addPassiveStream (consumerAddStream outcome) s conn opq vbucket flags).2 ≠
      ENGINE_ERROR_CODE.ENGINE_SUCCESS) :
    (addPassiveStream (consumerAddStream outcome) s conn opq vbucket flags).1 = s := by
  unfold addPassiveStream at hfail ⊢
  by_cases hc : isPassiveStreamConnected_UNLOCKED s vbucket = true
  · rw [if_pos hc]
  · rw [if_neg hc] at hfail ⊢
    unfold consumerAddStream at hfail ⊢
    by_cases ho : outcome s conn opq vbucket flags = ENGINE_ERROR_CODE.ENGINE_SUCCESS
    · rw [if_pos ho] at hfail
      exact absurd rfl hfail
    · rw [if_neg ho]

/-- C12: with a successful consumer `addStream` modelled as adding the vbucket
to that consumer's passive-stream set, `addPassiveStream` preserves "for every
vbucket at most one consumer bound in `map_` has a passive stream for it"; and
once `addPassiveStream` has returned `ENGINE_SUCCESS` for a consumer bound in
`map_`, every further `addPassiveStream` for the same vbucket, on any
connection, returns `ENGINE_KEY_EEXISTS`. -/
theorem addPassiveStream_keeps_unique
    (outcome : State → Nat → Nat → Nat → Nat → ENGINE_ERROR_CODE)
    (s : State) (conn opq vbucket flags : Nat) :
    (UniquePassiveStream s →
      UniquePassiveStream
        (addPassiveStream (consumerAddStream outcome) s conn opq vbucket flags).1) ∧
    (∀ e ∈ s.map_, e.2 = conn → ∀ h, s.conns[conn]? = some h →
      h.kind = ConnKind.consumer →
      (addPassiveStream (consumerAddStream outcome) s conn opq vbucket flags).2 =
        ENGINE_ERROR_CODE.ENGINE_SUCCESS →
      ∀ (outcome2 : State → Nat → Nat → Nat → Nat → ENGINE_ERROR_CODE)
        (conn2 opq2 flags2 : Nat),
        (addPassiveStream (consumerAddStream outcome2)
          (addPassiveStream (consumerAddStream outcome) s conn opq vbucket flags).1
          conn2 opq2 vbucket flags2).2 = ENGINE_ERROR_CODE.ENGINE_KEY_EEXISTS) := by
  constructor
  · intro huniq
    by_cases hok : (addPassiveStream (consumerAddStream outcome) s conn opq vbucket flags).2 =
        ENGINE_ERROR_CODE.ENGINE_SUCCESS
    · obtain ⟨hnone, hstate⟩ := addPassiveStream_success outcome s conn opq vbucket flags hok
      rw [hstate]
      have hfree : ∀ e ∈ s.map_, hasPassiveStream s.conns e.2 vbucket ≠ true := by
        intro e he hp
        have : isPassiveStreamConnected_UNLOCKED s vbucket = true :=
          List.any_eq_true.2 ⟨e, he, hp⟩
        rw [hnone] at this
        cases this
      intro v e1 he1 e2 he2 h1 h2
      rcases (hasPassiveStream_after_add s.conns conn vbucket e1.2 v).1 h1 with
        h1old | ⟨h1c, h1v, _⟩
      · rcases (hasPassiveStream_after_add s.conns conn vbucket e2.2 v).1 h2 with
          h2old | ⟨_, h2v, _⟩
        · exact huniq v e1 he1 e2 he2 h1old h2old
        · rw [h2v] at h1old
          exact absurd h1old (hfree e1 he1)
      · rcases (hasPassiveStream_after_add s.conns conn vbucket e2.2 v).1 h2 with
          h2old | ⟨h2c, _, _⟩
        · rw [h1v] at h2old
          exact absurd h2old (hfree e2 he2)
        · rw [h1c, h2c]
    · rw [addPassiveStream_unchanged outcome s conn opq vbucket flags hok]
      exact huniq
  · intro e he hec h hh hkind hok outcome2 conn2 opq2 flags2
    obtain ⟨_, hstate⟩ := addPassiveStream_success outcome s conn opq vbucket flags hok
    rw [hstate]
    have hnow : isPassiveStreamConnected_UNLOCKED
        { s with conns :=
            s.conns.modify (fun h => { h with streams := h.streams ++ [vbucket] }) conn }
        vbucket = true := by
      refine List.any_eq_true.2 ⟨e, he, ?_⟩
      exact (hasPassiveStream_after_add s.conns conn vbucket e.2 vbucket).2
        (Or.inr ⟨hec, rfl, h, hh, hkind⟩)
    unfold addPassiveStream
    rw [if_pos hnow]

theorem addPassiveStream_keeps_unique_witness :
    UniquePassiveStream twoConsumersState ∧
    UniquePassiveStream
      (addPassiveStream (consumerAddStream alwaysSuccess) twoConsumersState 0 5 7 0).1 ∧
    (addPassiveStream (consumerAddStream alwaysSuccess)
      (addPassiveStream (consumerAddStream alwaysSuccess) twoConsumersState 0 5 7 0).1
      1 6 7 0).2 = ENGINE_ERROR_CODE.ENGINE_KEY_EEXISTS := by
  have huniq : UniquePassiveStream twoConsumersState := by
    intro v e1 he1 e2 he2 h1 _
    obtain ⟨h, hh, _, hmem⟩ := (hasPassiveStream_iff _ _ _).1 h1
    have hcases : e1 = (20, 0) ∨ e1 = (21, 1) := by simpa [twoConsumersState] using he1
    rcases hcases with rfl | rfl
    · cases hh; cases hmem
    · cases hh; cases hmem
  exact ⟨huniq,
    (addPassiveStream_keeps_unique alwaysSuccess twoConsumersState 0 5 7 0).1 huniq,
    (addPassiveStream_keeps_unique alwaysSuccess twoConsumersState 0 5 7 0).2
      (20, 0) (by decide) rfl exampleConsumer rfl rfl rfl alwaysSuccess 1 6 0⟩

/-! ## Theorems: recomputing the backfill limit -/

/-- C19: whatever `maxDataSize` is, and whatever `size_t` the floating-point
scaling of it yields, after `updateMaxActiveSnoozingBackfills(maxDataSize)` the
stored `maxActiveSnoozing` lies between 1 and 4096. -/
theorem updateMaxActiveSnoozingBackfills_bounds (scaled : Nat → Nat) (b : Backfills)
    (maxDataSize : Nat) :
    1 ≤ (updateMaxActiveSnoozingBackfills scaled b maxDataSize).maxActiveSnoozing ∧
    (updateMaxActiveSnoozingBackfills scaled b maxDataSize).maxActiveSnoozing ≤ 4096 := by
  have hle : Nat.max 1 (Nat.min (scaled maxDataSize) numBackfillsThreshold) ≤ 4096 :=
    Nat.max_le.2 ⟨by decide, Nat.min_le_right _ _⟩
  have hge : 1 ≤ Nat.max 1 (Nat.min (scaled maxDataSize) numBackfillsThreshold) :=
    Nat.le_max_left _ _
  have hmod : (updateMaxActiveSnoozingBackfills scaled b maxDataSize).maxActiveSnoozing =
      Nat.max 1 (Nat.min (scaled maxDataSize) numBackfillsThreshold) := by
    show Nat.max 1 (Nat.min (scaled maxDataSize) numBackfillsThreshold) % uint16Size = _
    exact Nat.mod_eq_of_lt (lt_of_le_of_lt hle (by decide))
  rw [hmod]
  exact ⟨hge, hle⟩

/-! ## Theorems: the admission bound under all three operations -/

/-- C22 (counterexample): at `numActiveSnoozing = maxActiveSnoozing = 3`,
`canAddBackfillToActiveQ` returns false and changes nothing, and the following
`decrNumActiveSnoozingBackfills` leaves `numActiveSnoozing = 2`, not 3. -/
theorem acquire_release_at_limit :
    (canAddBackfillToActiveQ { numActiveSnoozing := 3, maxActiveSnoozing := 3 }).2 = false ∧
    (decrNumActiveSnoozingBackfills
      (canAddBackfillToActiveQ { numActiveSnoozing := 3, maxActiveSnoozing := 3 }).1)
      = { numActiveSnoozing := 2, maxActiveSnoozing := 3 } := by
  decide

/-- C22 (amended): for every admission state of `uint16_t` counters with
`numActiveSnoozing < maxActiveSnoozing`, `canAddBackfillToActiveQ` returns true
and the following `decrNumActiveSnoozingBackfills` restores the state, so
`numActiveSnoozing` has its value from before the two calls. -/
theorem acquire_then_release (b : Backfills) (hr : b.InRange)
    (h : b.numActiveSnoozing < b.maxActiveSnoozing) :
    (canAddBackfillToActiveQ b).2 = true ∧
    decrNumActiveSnoozingBackfills (canAddBackfillToActiveQ b).1 = b := by
  have hlt : b.numActiveSnoozing + 1 < uint16Size := lt_of_le_of_lt h hr.2
  have hmod : (b.numActiveSnoozing + 1) % uint16Size = b.numActiveSnoozing + 1 :=
    Nat.mod_eq_of_lt hlt
  unfold canAddBackfillToActiveQ
  rw [if_pos h]
  refine ⟨rfl, ?_⟩
  unfold decrNumActiveSnoozingBackfills
  simp only [hmod]
  rw [if_pos (Nat.succ_pos _)]
  cases b
  simp

theorem acquire_then_release_witness :
    (canAddBackfillToActiveQ { numActiveSnoozing := 2, maxActiveSnoozing := 3 }).2 = true ∧
    decrNumActiveSnoozingBackfills
      (canAddBackfillToActiveQ { numActiveSnoozing := 2, maxActiveSnoozing := 3 }).1
      = { numActiveSnoozing := 2, maxActiveSnoozing := 3 } :=
  acquire_then_release { numActiveSnoozing := 2, maxActiveSnoozing := 3 }
    (by decide) (by decide)


/-! ## Theorems: a failed newProducer / newConsumer -/

theorem setDisconnectAt_eq_self_iff (cs : List ConnHandler) (conn : Nat) (k : ConnHandler)
    (hk : cs[conn]? = some k) :
    setDisconnectAt cs conn = cs ↔ k.disconnect = true := by
  constructor
  · intro h
    have hself := getElem?_setDisconnectAt_self cs conn
    rw [h, hk] at hself
    have hkk : k = k.setDisconnect := by simpa using hself
    rw [hkk]
    rfl
  · intro hd
    apply List.ext_getElem?
    intro i
    rw [getElem?_setDisconnectAt]
    split
    · rename_i hci
      subst hci
      rw [hk]
      obtain ⟨_, _, _, _, d, _, _, _⟩ := k
      simp only at hd
      subst hd
      rfl
    · rfl

theorem state_with_conns_eq_iff (s : State) (cs : List ConnHandler) :
    ({ s with conns := cs } : State) = s ↔ cs = s.conns := by
  obtain ⟨c, m, d, v, l⟩ := s
  simp

/-- C28 (counterexample): in the registry with one producer bound to cookie 10
(`disconnect = false`), `newProducer` and `newConsumer` on cookie 10 both return
null and both leave that producer with `disconnect = true`: the flags are not
the same as before the call. -/
theorem failed_open_marks_bound_channel :
    mapFind oneProducerState.map_ 10 = some 0 ∧
    oneProducerState.conns[0]? = some exampleProducer ∧
    exampleProducer.disconnect = false ∧
    (newProducer exampleInit oneProducerState 10 "n2" 0 []).2 = none ∧
    (newProducer exampleInit oneProducerState 10 "n2" 0 []).1.conns[0]? =
      some { exampleProducer with disconnect := true } ∧
    (newConsumer exampleInit oneProducerState 10 "n2").2 = none ∧
    (newConsumer exampleInit oneProducerState 10 "n2").1.conns[0]? =
      some { exampleProducer with disconnect := true } := by
  decide

/-- C28 (amended): when `cookie` is already bound in `map_` to the channel `k`
behind `conn`, `newProducer` and `newConsumer` return null and leave `map_`,
`deadConnections`, `vbConns`, the call log and every other channel object as
they were; the bound channel keeps `connected`, `paused`, `reserved` and has
`disconnect = true`.  The registry is unchanged exactly when `k` was already
marked for disconnect. -/
theorem failed_open_frame (init : ConnKind → InitFlags) (kind : ConnKind) (s : State)
    (cookie conn : Nat) (k : ConnHandler) (name : String) (flags : Nat)
    (jsonExtra : List Nat)
    (hfind : mapFind s.map_ cookie = some conn) (hconn : s.conns[conn]? = some k) :
    (newConn init kind s cookie name).2 = none ∧
    (newConn init kind s cookie name).1.map_ = s.map_ ∧
    (newConn init kind s cookie name).1.deadConnections = s.deadConnections ∧
    (newConn init kind s cookie name).1.vbConns = s.vbConns ∧
    (newConn init kind s cookie name).1.calls = s.calls ∧
    (newConn init kind s cookie name).1.conns.length = s.conns.length ∧
    (∀ other, other ≠ conn →
      (newConn init kind s cookie name).1.conns[other]? = s.conns[other]?) ∧
    (newConn init kind s cookie name).1.conns[conn]? = some { k with disconnect := true } ∧
    ((newConn init kind s cookie name).1 = s ↔ k.disconnect = true) ∧
    newProducer init s cookie name flags jsonExtra =
      newConn init ConnKind.producer s cookie name ∧
    newConsumer init s cookie name = newConn init ConnKind.consumer s cookie name := by
  rw [newConn_bound init kind s cookie conn name hfind]
  refine ⟨rfl, rfl, rfl, rfl, rfl, length_setDisconnectAt _ _, ?_, ?_, ?_, rfl, rfl⟩
  · intro other hne
    exact getElem?_setDisconnectAt_ne _ hne
  · show (setDisconnectAt s.conns conn)[conn]? = _
    rw [getElem?_setDisconnectAt_self, hconn]
    rfl
  · show ({ s with conns := setDisconnectAt s.conns conn } : State) = s ↔ _
    rw [state_with_conns_eq_iff]
    exact setDisconnectAt_eq_self_iff s.conns conn k hconn

theorem failed_open_frame_witness :
    mapFind oneProducerState.map_ 10 = some 0 ∧
    oneProducerState.conns[0]? = some exampleProducer ∧
    (newConn exampleInit ConnKind.consumer oneProducerState 10 "n2").1.map_ = [(10, 0)] ∧
    ((newConn exampleInit ConnKind.consumer oneProducerState 10 "n2").1 = oneProducerState ↔
      exampleProducer.disconnect = true) :=
  ⟨rfl, rfl,
    (failed_open_frame exampleInit ConnKind.consumer oneProducerState 10 0 exampleProducer
      "n2" 0 [] rfl rfl).2.1,
    (failed_open_frame exampleInit ConnKind.consumer oneProducerState 10 0 exampleProducer
      "n2" 0 [] rfl rfl).2.2.2.2.2.2.2.2.1⟩


/-! ## Theorems: findByName -/

theorem matchesName_iff (conns : List ConnHandler) (name : String) (conn : Nat) :
    matchesName conns name conn = true ↔ LiveNamed conns name conn := by
  unfold matchesName LiveNamed
  cases hc : conns[conn]? with
  | none => simp
  | some h => simp [ConnHandler.doDisconnect]

theorem findByNameLoop_some (conns : List ConnHandler) (name : String) (conn : Nat) :
    ∀ map : List (Nat × Nat), findByNameLoop conns name map = some conn ↔
      ∃ pre e post, map = pre ++ e :: post ∧ e.2 = conn ∧
        matchesName conns name e.2 = true ∧
        ∀ x ∈ pre, matchesName conns name x.2 = false := by
  intro map
  induction map with
  | nil =>
    constructor
    · intro h; cases h
    · rintro ⟨pre, e, post, hmap, _⟩
      cases pre <;> cases hmap
  | cons a rest ih =>
    by_cases hm : matchesName conns name a.2 = true
    · have hloop : findByNameLoop conns name (a :: rest) = some a.2 := by
        show (if matchesName conns name a.2 then some a.2
          else findByNameLoop conns name rest) = _
        rw [if_pos hm]
      rw [hloop]
      constructor
      · intro h
        cases h
        exact ⟨[], a, rest, rfl, rfl, hm, fun x hx => by cases hx⟩
      · rintro ⟨pre, e, post, hmap, he, _, hpre⟩
        cases pre with
        | nil =>
          simp only [List.nil_append, List.cons.injEq] at hmap
          rw [hmap.1, he]
        | cons x pre =>
          simp only [List.cons_append, List.cons.injEq] at hmap
          have hx := hpre x (List.mem_cons_self _ _)
          rw [← hmap.1, hm] at hx
          cases hx
    · have hloop : findByNameLoop conns name (a :: rest) =
          findByNameLoop conns name rest := by
        show (if matchesName conns name a.2 then some a.2
          else findByNameLoop conns name rest) = _
        rw [if_neg hm]
      rw [hloop, ih]
      constructor
      · rintro ⟨pre, e, post, hmap, he, hme, hpre⟩
        refine ⟨a :: pre, e, post, by rw [hmap]; rfl, he, hme, ?_⟩
        intro x hx
        rcases List.mem_cons.1 hx with hxa | hxp
        · rw [hxa]; simpa using hm
        · exact hpre x hxp
      · rintro ⟨pre, e, post, hmap, he, hme, hpre⟩
        cases pre with
        | nil =>
          simp only [List.nil_append, List.cons.injEq] at hmap
          rw [← hmap.1] at hme
          exact absurd hme hm
        | cons x pre =>
          simp only [List.cons_append, List.cons.injEq] at hmap
          exact ⟨pre, e, post, hmap.2, he, hme,
            fun y hy => hpre y (List.mem_cons_of_mem _ hy)⟩

theorem findByNameLoop_none (conns : List ConnHandler) (name : String) :
    ∀ map : List (Nat × Nat), findByNameLoop conns name map = none ↔
      ∀ e ∈ map, matchesName conns name e.2 = false := by
  intro map
  induction map with
  | nil => simp [findByNameLoop]
  | cons a rest ih =>
    by_cases hm : matchesName conns name a.2 = true
    · simp [findByNameLoop, hm]
    · have hf : matchesName conns name a.2 = false := by simpa using hm
      simp [findByNameLoop, hf, ih]

/-- C24: `findByName(name)` changes no state; it returns a channel `conn` exactly
when `conn` is the channel of the first entry of `map_`, in iteration order,
whose channel is not marked for disconnect and is named exactly `name`; it
returns the null `connection_t` exactly when no channel of `map_` is both
non-disconnecting and so named; and a returned channel is never marked for
disconnect. -/
theorem findByName_spec (s : State) (name : String) :
    (findByName s name).1 = s ∧
    (∀ conn, (findByName s name).2 = some conn ↔
      ∃ pre e post, s.map_ = pre ++ e :: post ∧ e.2 = conn ∧
        LiveNamed s.conns name e.2 ∧ ∀ x ∈ pre, ¬ LiveNamed s.conns name x.2) ∧
    ((findByName s name).2 = none ↔ ∀ e ∈ s.map_, ¬ LiveNamed s.conns name e.2) ∧
    (∀ conn, (findByName s name).2 = some conn →
      ∃ h, s.conns[conn]? = some h ∧ h.disconnect = false ∧ h.name = name) := by
  have hfalse : ∀ c, matchesName s.conns name c = false ↔ ¬ LiveNamed s.conns name c := by
    intro c
    rw [← matchesName_iff]
    simp
  have hsome : ∀ conn, (findByName s name).2 = some conn ↔
      ∃ pre e post, s.map_ = pre ++ e :: post ∧ e.2 = conn ∧
        LiveNamed s.conns name e.2 ∧ ∀ x ∈ pre, ¬ LiveNamed s.conns name x.2 := by
    intro conn
    show findByNameLoop s.conns name s.map_ = some conn ↔ _
    rw [findByNameLoop_some]
    constructor
    · rintro ⟨pre, e, post, hmap, he, hme, hpre⟩
      exact ⟨pre, e, post, hmap, he, (matchesName_iff _ _ _).1 hme,
        fun x hx => (hfalse _).1 (hpre x hx)⟩
    · rintro ⟨pre, e, post, hmap, he, hme, hpre⟩
      exact ⟨pre, e, post, hmap, he, (matchesName_iff _ _ _).2 hme,
        fun x hx => (hfalse _).2 (hpre x hx)⟩
  refine ⟨rfl, hsome, ?_, ?_⟩
  · show findByNameLoop s.conns name s.map_ = none ↔ _
    rw [findByNameLoop_none]
    constructor
    · intro h e he; exact (hfalse _).1 (h e he)
    · intro h e he; exact (hfalse _).2 (h e he)
  · intro conn hconn
    obtain ⟨pre, e, post, _, he, hlive, _⟩ := (hsome conn).1 hconn
    rw [he] at hlive
    exact hlive

/-! ## Theorems: notifyVBConnections -/

theorem notifyLoop_eq (vbid bySeqno : Nat) (l : List Nat) :
    ∀ s : State,
      l.foldl (fun st conn =>
          { st with calls := st.calls ++ [ExtCall.notifySeqnoAvailable conn vbid bySeqno] }) s =
        { s with calls := s.calls ++
            l.map fun conn => ExtCall.notifySeqnoAvailable conn vbid bySeqno } := by
  induction l with
  | nil => intro s; simp
  | cons c rest ih =>
    intro s
    rw [List.foldl_cons, ih]
    simp

/-- C25: `notifyVBConnections(vb, seqno)` appends to the call log exactly one
`notifySeqnoAvailable(vb, seqno)` call per entry of `vbConns[vb]`, in list
order, and nothing else; `map_`, `deadConnections`, every `vbConns` list and
the channel objects are unchanged. -/
theorem notifyVBConnections_spec (s : State) (vb seqno : Nat) :
    (notifyVBConnections s vb seqno).calls =
      s.calls ++ (s.vbConns.getD vb []).map
        (fun conn => ExtCall.notifySeqnoAvailable conn vb seqno) ∧
    (notifyVBConnections s vb seqno).map_ = s.map_ ∧
    (notifyVBConnections s vb seqno).deadConnections = s.deadConnections ∧
    (notifyVBConnections s vb seqno).vbConns = s.vbConns ∧
    (notifyVBConnections s vb seqno).conns = s.conns := by
  unfold notifyVBConnections
  rw [notifyLoop_eq]
  exact ⟨rfl, rfl, rfl, rfl, rfl⟩


/-! ## Theorems: shutdownAllConnections -/

theorem liveNamed_setDisconnectAt (cs : List ConnHandler) (r : Nat) (nm : String) (i : Nat)
    (h : LiveNamed (setDisconnectAt cs r) nm i) : LiveNamed cs nm i := by
  obtain ⟨k, hk, hd, hn⟩ := h
  rw [getElem?_setDisconnectAt] at hk
  by_cases hri : r = i
  · rw [if_pos hri] at hk
    cases hc : cs[i]? with
    | none => rw [hc] at hk; cases hk
    | some k0 =>
      rw [hc] at hk
      simp only [Option.map_some', Option.some.injEq] at hk
      rw [← hk] at hd
      cases hd
  · rw [if_neg hri] at hk
    exact ⟨k, hk, hd, hn⟩

theorem liveNamed_markIf (n nm : String) (hit : Prop) [Decidable hit] (k : ConnHandler)
    (hd : (markIf n hit k).disconnect = false) (hn : (markIf n hit k).name = nm) :
    k.disconnect = false ∧ k.name = nm ∧ (hit → nm ≠ n) := by
  unfold markIf at hd hn
  by_cases hc : k.name = n ∧ hit
  · rw [if_pos hc] at hd
    cases hd
  · rw [if_neg hc] at hd hn
    refine ⟨hd, hn, fun hh he => hc ⟨hn.trans he, hh⟩⟩

theorem liveNamed_newConn_free (init : ConnKind → InitFlags) (kind : ConnKind) (s : State)
    (cookie : Nat) (name : String) (hfree : mapFind s.map_ cookie = none)
    (nm : String) (i : Nat)
    (h : LiveNamed (newConn init kind s cookie name).1.conns nm i) :
    (i < s.conns.length ∧ LiveNamed s.conns nm i ∧
      (i ∈ s.map_.map Prod.snd → nm ≠ "eq_dcpq:" ++ name)) ∨
    (i = s.conns.length ∧ nm = "eq_dcpq:" ++ name) := by
  rw [newConn_free init kind s cookie name hfree] at h
  obtain ⟨k, hk, hd, hn⟩ := h
  have hlen := length_disconnectSameName s.conns s.map_ ("eq_dcpq:" ++ name)
  change (disconnectSameName s.conns s.map_ ("eq_dcpq:" ++ name) ++
    [ConnHandler.create init kind cookie ("eq_dcpq:" ++ name)])[i]? = some k at hk
  rcases Nat.lt_trichotomy i s.conns.length with hlt | heq | hgt
  · left
    rw [List.getElem?_append_left (by rw [hlen]; exact hlt),
      getElem?_disconnectSameName] at hk
    cases hc : s.conns[i]? with
    | none => rw [hc] at hk; cases hk
    | some k0 =>
      rw [hc] at hk
      simp only [Option.map_some', Option.some.injEq] at hk
      rw [← hk] at hd hn
      obtain ⟨hd0, hn0, hne⟩ := liveNamed_markIf _ nm _ k0 hd hn
      exact ⟨hlt, ⟨k0, hc, hd0, hn0⟩, hne⟩
  · right
    rw [List.getElem?_append_right (by rw [hlen]; exact le_of_eq heq.symm)] at hk
    have hz : i - (disconnectSameName s.conns s.map_ ("eq_dcpq:" ++ name)).length = 0 := by
      rw [hlen, heq]; exact Nat.sub_self _
    rw [hz] at hk
    simp only [List.getElem?_cons_zero, Option.some.injEq] at hk
    rw [← hk] at hn
    exact ⟨heq, hn.symm⟩
  · exfalso
    rw [List.getElem?_eq_none (by
      rw [List.length_append, hlen]; exact hgt)] at hk
    cases hk

theorem liveNamed_newConn_new (init : ConnKind → InitFlags) (kind : ConnKind) (s : State)
    (cookie : Nat) (name : String) (hfree : mapFind s.map_ cookie = none) :
    LiveNamed (newConn init kind s cookie name).1.conns ("eq_dcpq:" ++ name)
      s.conns.length := by
  rw [newConn_free init kind s cookie name hfree]
  have hlen := length_disconnectSameName s.conns s.map_ ("eq_dcpq:" ++ name)
  refine ⟨ConnHandler.create init kind cookie ("eq_dcpq:" ++ name), ?_, rfl, rfl⟩
  show (disconnectSameName s.conns s.map_ ("eq_dcpq:" ++ name) ++ _)[s.conns.length]? = _
  rw [List.getElem?_append_right (by rw [hlen]), hlen, Nat.sub_self]
  rfl

theorem map_newConn_free (init : ConnKind → InitFlags) (kind : ConnKind) (s : State)
    (cookie : Nat) (name : String) (hfree : mapFind s.map_ cookie = none) :
    (newConn init kind s cookie name).1.map_ = mapInsert s.map_ cookie s.conns.length ∧
    (newConn init kind s cookie name).2 = some s.conns.length := by
  rw [newConn_free init kind s cookie name hfree,
    length_disconnectSameName s.conns s.map_ ("eq_dcpq:" ++ name)]
  exact ⟨rfl, rfl⟩


theorem uniqueLiveName_newConn (init : ConnKind → InitFlags) (kind : ConnKind) (s : State)
    (cookie : Nat) (name : String) (h : UniqueLiveName s) :
    UniqueLiveName (newConn init kind s cookie name).1 := by
  cases hfind : mapFind s.map_ cookie with
  | some conn =>
    rw [newConn_bound init kind s cookie conn name hfind]
    intro e1 h1 e2 h2 nm l1 l2
    exact h e1 h1 e2 h2 nm (liveNamed_setDisconnectAt _ _ _ _ l1)
      (liveNamed_setDisconnectAt _ _ _ _ l2)
  | none =>
    intro e1 h1 e2 h2 nm l1 l2
    rw [(map_newConn_free init kind s cookie name hfind).1] at h1 h2
    have hold : ∀ e : Nat × Nat, e ∈ mapInsert s.map_ cookie s.conns.length →
        e.2 < s.conns.length → e ∈ s.map_ := by
      intro e he hlt
      rcases mem_mapInsert he with heq | hm
      · rw [heq] at hlt
        exact absurd hlt (lt_irrefl _)
      · exact hm
    rcases liveNamed_newConn_free init kind s cookie name hfind nm e1.2 l1 with
      ⟨hlt1, hl1, hne1⟩ | ⟨heq1, hn1⟩
    · rcases liveNamed_newConn_free init kind s cookie name hfind nm e2.2 l2 with
        ⟨hlt2, hl2, _⟩ | ⟨_, hn2⟩
      · exact h e1 (hold e1 h1 hlt1) e2 (hold e2 h2 hlt2) nm hl1 hl2
      · exact absurd hn2 (hne1 (List.mem_map_of_mem _ (hold e1 h1 hlt1)))
    · rcases liveNamed_newConn_free init kind s cookie name hfind nm e2.2 l2 with
        ⟨hlt2, _, hne2⟩ | ⟨heq2, _⟩
      · exact absurd hn1 (hne2 (List.mem_map_of_mem _ (hold e2 h2 hlt2)))
      · exact heq1.trans heq2.symm

theorem uniqueLiveName_disconnect (s : State) (cookie : Nat) (h : UniqueLiveName s) :
    UniqueLiveName (disconnect s cookie) := by
  cases hfind : mapFind s.map_ cookie with
  | none =>
    have : disconnect s cookie = s := by simp only [disconnect, hfind]
    rw [this]; exact h
  | some conn =>
    cases hconn : s.conns[conn]? with
    | none =>
      have : disconnect s cookie = s := by simp only [disconnect, hfind, hconn]
      rw [this]; exact h
    | some k =>
      rw [disconnect_bound_eq s cookie conn k hfind hconn]
      intro e1 h1 e2 h2 nm l1 l2
      exact h e1 (mem_of_mem_mapErase h1) e2 (mem_of_mem_mapErase h2) nm
        (liveNamed_setDisconnectAt _ _ _ _ l1) (liveNamed_setDisconnectAt _ _ _ _ l2)

theorem uniqueLiveName_apply (init : ConnKind → InitFlags) (s : State) (op : RegistryOp)
    (h : UniqueLiveName s) : UniqueLiveName (op.apply init s) := by
  cases op with
  | newProducer cookie name flags jsonExtra =>
    exact uniqueLiveName_newConn init _ s cookie name h
  | newConsumer cookie name => exact uniqueLiveName_newConn init _ s cookie name h
  | disconnect cookie => exact uniqueLiveName_disconnect s cookie h

theorem uniqueLiveName_run (init : ConnKind → InitFlags) (ops : List RegistryOp) :
    ∀ s : State, UniqueLiveName s → UniqueLiveName (runRegistryOps init s ops) := by
  induction ops with
  | nil => intro s h; exact h
  | cons op rest ih =>
    intro s h
    exact ih (op.apply init s) (uniqueLiveName_apply init s op h)

theorem mem_mapInsert_self (m : List (Nat × Nat)) (c r : Nat) :
    (c, r) ∈ mapInsert m c r := by
  induction m with
  | nil => simp [mapInsert]
  | cons e m ih =>
    unfold mapInsert
    by_cases h1 : c < e.1
    · rw [if_pos h1]; exact List.mem_cons_self _ _
    · rw [if_neg h1]
      by_cases h2 : e.1 = c
      · rw [if_pos h2]; exact List.mem_cons_self _ _
      · rw [if_neg h2]; exact List.mem_cons_of_mem _ ih

theorem findByNameLoop_unique (conns : List ConnHandler) (name : String) (c : Nat) :
    ∀ map : List (Nat × Nat),
      (∃ e ∈ map, matchesName conns name e.2 = true) →
      (∀ e ∈ map, matchesName conns name e.2 = true → e.2 = c) →
      findByNameLoop conns name map = some c := by
  intro map
  induction map with
  | nil => rintro ⟨e, he, _⟩; cases he
  | cons a rest ih =>
    intro hex hall
    by_cases hm : matchesName conns name a.2 = true
    · show (if matchesName conns name a.2 then some a.2
        else findByNameLoop conns name rest) = _
      rw [if_pos hm, hall a (List.mem_cons_self _ _) hm]
    · show (if matchesName conns name a.2 then some a.2
        else findByNameLoop conns name rest) = _
      rw [if_neg hm]
      apply ih
      · obtain ⟨e, he, hme⟩ := hex
        rcases List.mem_cons.1 he with hea | her
        · rw [hea] at hme; exact absurd hme hm
        · exact ⟨e, her, hme⟩
      · intro e he hme
        exact hall e (List.mem_cons_of_mem _ he) hme

theorem findByName_after_newConn (init : ConnKind → InitFlags) (kind : ConnKind) (s : State)
    (cookie : Nat) (name : String) (hfree : mapFind s.map_ cookie = none) :
    (findByName (newConn init kind s cookie name).1 ("eq_dcpq:" ++ name)).2 =
      some s.conns.length := by
  show findByNameLoop _ _ (newConn init kind s cookie name).1.map_ = _
  rw [(map_newConn_free init kind s cookie name hfree).1]
  apply findByNameLoop_unique
  · exact ⟨(cookie, s.conns.length), mem_mapInsert_self _ _ _,
      (matchesName_iff _ _ _).2 (liveNamed_newConn_new init kind s cookie name hfree)⟩
  · intro e he hme
    rcases liveNamed_newConn_free init kind s cookie name hfree _ e.2
      ((matchesName_iff _ _ _).1 hme) with ⟨hlt, _, hne⟩ | ⟨heq, _⟩
    · rcases mem_mapInsert he with hnew | hold
      · rw [hnew] at hlt
        exact absurd hlt (lt_irrefl _)
      · exact absurd rfl (hne (List.mem_map_of_mem _ hold))
    · exact heq


/-- C33: the predicate "no two channels bound in `map_` that both have
`disconnect = false` share a name" is preserved by `newProducer`, `newConsumer`
and `disconnect` for every argument, hence holds in every registry reached from
the empty one by these operations (so `findByName` has at most one candidate
there); and right after a `newProducer(cookie, name, ...)` that returned a
channel, that channel is new, belongs to `cookie`, and
`findByName("eq_dcpq:" + name)` returns exactly it. -/
theorem uniqueLiveName_preserved_and_found (init : ConnKind → InitFlags) :
    (∀ (s : State) (cookie : Nat) (name : String) (flags : Nat) (jsonExtra : List Nat),
      UniqueLiveName s →
      UniqueLiveName (newProducer init s cookie name flags jsonExtra).1) ∧
    (∀ (s : State) (cookie : Nat) (name : String),
      UniqueLiveName s → UniqueLiveName (newConsumer init s cookie name).1) ∧
    (∀ (s : State) (cookie : Nat), UniqueLiveName s → UniqueLiveName (disconnect s cookie)) ∧
    (∀ ops : List RegistryOp, UniqueLiveName (runRegistryOps init State.empty ops)) ∧
    (∀ (s : State) (cookie : Nat) (name : String) (flags : Nat) (jsonExtra : List Nat)
      (dcp : Nat),
      (newProducer init s cookie name flags jsonExtra).2 = some dcp →
      s.conns[dcp]? = none ∧
      (newProducer init s cookie name flags jsonExtra).1.conns[dcp]? =
        some (ConnHandler.create init ConnKind.producer cookie ("eq_dcpq:" ++ name)) ∧
      (findByName (newProducer init s cookie name flags jsonExtra).1
        ("eq_dcpq:" ++ name)).2 = some dcp) := by
  refine ⟨fun s cookie name _ _ h => uniqueLiveName_newConn init _ s cookie name h,
    fun s cookie name h => uniqueLiveName_newConn init _ s cookie name h,
    uniqueLiveName_disconnect, ?_, ?_⟩
  · intro ops
    apply uniqueLiveName_run
    intro e1 h1
    cases h1
  · intro s cookie name flags jsonExtra dcp hret
    unfold newProducer at hret ⊢
    cases hfind : mapFind s.map_ cookie with
    | some conn =>
      rw [newConn_bound init _ s cookie conn name hfind] at hret
      cases hret
    | none =>
      rw [(map_newConn_free init _ s cookie name hfind).2] at hret
      cases hret
      refine ⟨List.getElem?_eq_none (le_refl _), ?_,
        findByName_after_newConn init _ s cookie name hfind⟩
      obtain ⟨k, hk, _, _⟩ := liveNamed_newConn_new init ConnKind.producer s cookie name hfind
      rw [hk]
      rw [newConn_free init _ s cookie name hfind] at hk
      have hlen := length_disconnectSameName s.conns s.map_ ("eq_dcpq:" ++ name)
      change (disconnectSameName s.conns s.map_ ("eq_dcpq:" ++ name) ++
        [ConnHandler.create init ConnKind.producer cookie ("eq_dcpq:" ++ name)])[
          s.conns.length]? = some k at hk
      rw [List.getElem?_append_right (by rw [hlen]), hlen, Nat.sub_self] at hk
      exact hk.symm

theorem uniqueLiveName_preserved_and_found_witness :
    (newProducer exampleInit oneProducerState 11 "n1" 0 []).2 = some 1 ∧
    (newProducer exampleInit oneProducerState 11 "n1" 0 []).1.conns[0]? =
      some { exampleProducer with disconnect := true } ∧
    (findByName (newProducer exampleInit oneProducerState 11 "n1" 0 []).1
      "eq_dcpq:n1").2 = some 1 :=
  ⟨by decide, by decide,
   ((uniqueLiveName_preserved_and_found exampleInit).2.2.2.2 oneProducerState 11 "n1" 0 [] 1
      (by decide)).2.2⟩


end DcpConnMap

namespace TapConnection

/-! ## Lemmas: the dedup index -/

theorem sameKey_iff (a b : QueuedItem) :
    a.sameKey b = true ↔ a.key = b.key ∧ a.vbucket = b.vbucket := by
  simp [QueuedItem.sameKey]

theorem sameKey_refl (a : QueuedItem) : a.sameKey a = true :=
  (sameKey_iff a a).2 ⟨rfl, rfl⟩

theorem sameKey_symm {a b : QueuedItem} (h : a.sameKey b = true) : b.sameKey a = true :=
  (sameKey_iff b a).2 ⟨((sameKey_iff a b).1 h).1.symm, ((sameKey_iff a b).1 h).2.symm⟩

theorem sameKey_trans {a b c : QueuedItem} (hab : a.sameKey b = true)
    (hbc : b.sameKey c = true) : a.sameKey c = true :=
  (sameKey_iff a c).2
    ⟨((sameKey_iff a b).1 hab).1.trans ((sameKey_iff b c).1 hbc).1,
      ((sameKey_iff a b).1 hab).2.trans ((sameKey_iff b c).1 hbc).2⟩

theorem sameKey_comm (a b : QueuedItem) : a.sameKey b = b.sameKey a := by
  cases hab : a.sameKey b with
  | true => exact (sameKey_symm hab).symm
  | false =>
    cases hba : b.sameKey a with
    | true => rw [sameKey_symm hba] at hab; cases hab
    | false => rfl

theorem any_sameKey_perm {l1 l2 : List QueuedItem} (h : l1.Perm l2) (it : QueuedItem) :
    l1.any (fun x => x.sameKey it) = l2.any (fun x => x.sameKey it) := by
  rw [Bool.eq_iff_iff, List.any_eq_true, List.any_eq_true]
  constructor
  · rintro ⟨x, hx, hs⟩; exact ⟨x, h.mem_iff.1 hx, hs⟩
  · rintro ⟨x, hx, hs⟩; exact ⟨x, h.mem_iff.2 hx, hs⟩

theorem addEvent_rejected (f : Nat → Bool) (p : TapProducer) (it : QueuedItem)
    (hf : f it.vbucket = false) : p.addEvent f it = (p, p.queue.isEmpty) := by
  simp [TapProducer.addEvent, TapProducer.addEvent_UNLOCKED, hf]

theorem addEvent_new (f : Nat → Bool) (p : TapProducer) (it : QueuedItem)
    (hf : f it.vbucket = true) (hnew : p.queue_set.any (fun x => x.sameKey it) = false) :
    p.addEvent f it =
      ({ p with queue_set := p.queue_set ++ [it], queue := p.queue ++ [it],
                queueSize := p.queueSize + 1 }, p.queue.isEmpty) := by
  simp [TapProducer.addEvent, TapProducer.addEvent_UNLOCKED, hf, setInsert, hnew]

theorem addEvent_dup (f : Nat → Bool) (p : TapProducer) (it : QueuedItem)
    (hf : f it.vbucket = true) (hdup : p.queue_set.any (fun x => x.sameKey it) = true) :
    p.addEvent f it = (p, p.queue.isEmpty) := by
  simp [TapProducer.addEvent, TapProducer.addEvent_UNLOCKED, hf, setInsert, hdup]

/-! ## Theorems: addEvent -/

/-- C13: for a producer whose dedup set holds exactly the items of the list and
an item `it`: when the filter admits `it`'s vbucket, `addEvent(it)` returns
whether the list was empty before the call; if no pending item has the same key
and vbucket, `it` is appended at the tail of the list (and put into the set)
and `queueSize` grows by one, nothing else changes; if one is pending, the
producer is unchanged.  When the filter rejects the vbucket, the producer is
unchanged and the result is whether the list is empty. -/
theorem addEvent_spec (f : Nat → Bool) (p : TapProducer) (it : QueuedItem)
    (hset : SetMatchesList p) :
    (f it.vbucket = true →
      (p.addEvent f it).2 = p.queue.isEmpty ∧
      ((∀ y ∈ p.queue, y.sameKey it = false) →
        (p.addEvent f it).1 =
          { p with queue := p.queue ++ [it], queue_set := p.queue_set ++ [it],
                   queueSize := p.queueSize + 1 }) ∧
      ((∃ y ∈ p.queue, y.sameKey it = true) → (p.addEvent f it).1 = p)) ∧
    (f it.vbucket = false → p.addEvent f it = (p, p.queue.isEmpty)) := by
  refine ⟨fun hf => ?_, addEvent_rejected f p it⟩
  cases hany : p.queue_set.any (fun x => x.sameKey it) with
  | true =>
    rw [addEvent_dup f p it hf hany]
    refine ⟨rfl, ?_, fun _ => rfl⟩
    intro hnone
    rw [any_sameKey_perm hset it] at hany
    obtain ⟨y, hy, hs⟩ := List.any_eq_true.1 hany
    rw [hnone y hy] at hs
    cases hs
  | false =>
    rw [addEvent_new f p it hf hany]
    refine ⟨rfl, fun _ => rfl, ?_⟩
    rintro ⟨y, hy, hs⟩
    rw [any_sameKey_perm hset it] at hany
    have : p.queue.any (fun x => x.sameKey it) = true := List.any_eq_true.2 ⟨y, hy, hs⟩
    rw [hany] at this
    cases this

theorem addEvent_spec_witness :
    SetMatchesList emptyProducer ∧
    (emptyProducer.addEvent admitAll itemK).2 = true ∧
    (emptyProducer.addEvent admitAll itemK).1 =
      { emptyProducer with queue := [itemK], queue_set := [itemK], queueSize := 1 } :=
  ⟨List.Perm.refl _,
    ((addEvent_spec admitAll emptyProducer itemK (List.Perm.refl _)).1 rfl).1,
    ((addEvent_spec admitAll emptyProducer itemK (List.Perm.refl _)).1 rfl).2.1
      (fun _ hy => nomatch hy)⟩

/-! ## Theorems: the size invariant -/

theorem decrSizeT_succ (n : Nat) : decrSizeT (n + 1) = n := by
  simp [decrSizeT]

theorem nextLoop_admitted (f : Nat → Bool) (size : QueuedItem → Nat) (qi : QueuedItem)
    (rest : List QueuedItem) (p : TapProducer) (hqi : f qi.vbucket = true) :
    nextLoop f size (qi :: rest) p =
      ({ popFront size p qi rest with
          recordsFetched := (popFront size p qi rest).recordsFetched + 1 }, qi) := by
  rw [nextLoop, if_pos hqi]

theorem nextLoop_rejected (f : Nat → Bool) (size : QueuedItem → Nat) (qi : QueuedItem)
    (rest : List QueuedItem) (p : TapProducer) (hqi : f qi.vbucket = false) :
    nextLoop f size (qi :: rest) p =
      nextLoop f size rest
        { popFront size p qi rest with
            recordsSkipped := (popFront size p qi rest).recordsSkipped + 1 } := by
  rw [nextLoop, if_neg (by rw [hqi]; exact Bool.false_ne_true)]

theorem sizesAgree_addEvent (f : Nat → Bool) (p : TapProducer) (it : QueuedItem)
    (h : SizesAgree p) : SizesAgree (p.addEvent f it).1 := by
  cases hf : f it.vbucket with
  | false => rw [addEvent_rejected f p it hf]; exact h
  | true =>
    cases hany : p.queue_set.any (fun x => x.sameKey it) with
    | true => rw [addEvent_dup f p it hf hany]; exact h
    | false =>
      rw [addEvent_new f p it hf hany]
      obtain ⟨h1, h2⟩ := h
      constructor
      · show (p.queue ++ [it]).length = (p.queue_set ++ [it]).length
        simp [h1]
      · show (p.queue_set ++ [it]).length = p.queueSize + 1
        simp [h2]

theorem dedupInv_addEvent (f : Nat → Bool) (p : TapProducer) (it : QueuedItem)
    (h : DedupInv p) : DedupInv (p.addEvent f it).1 := by
  cases hf : f it.vbucket with
  | false => rw [addEvent_rejected f p it hf]; exact h
  | true =>
    cases hany : p.queue_set.any (fun x => x.sameKey it) with
    | true => rw [addEvent_dup f p it hf hany]; exact h
    | false =>
      rw [addEvent_new f p it hf hany]
      obtain ⟨hperm, hpair, hsize⟩ := h
      have hq : ∀ y ∈ p.queue, y.sameKey it = false := by
        intro y hy
        rw [any_sameKey_perm hperm it] at hany
        cases hs : y.sameKey it with
        | false => rfl
        | true =>
          have : p.queue.any (fun x => x.sameKey it) = true :=
            List.any_eq_true.2 ⟨y, hy, hs⟩
          rw [hany] at this
          cases this
      refine ⟨?_, ?_, ?_⟩
      · show (p.queue_set ++ [it]).Perm (p.queue ++ [it])
        exact List.Perm.append_right _ hperm
      · show (p.queue ++ [it]).Pairwise _
        rw [List.pairwise_append]
        refine ⟨hpair, List.pairwise_singleton _ _, ?_⟩
        intro a ha b hb
        rw [List.mem_singleton.1 hb]
        exact hq a ha
      · show p.queueSize + 1 = (p.queue ++ [it]).length
        simp [hsize]

theorem setErase_head (qi : QueuedItem) (rest set : List QueuedItem)
    (hperm : set.Perm (qi :: rest))
    (hpair : (qi :: rest).Pairwise (fun a b => a.sameKey b = false)) :
    (setErase set qi).Perm rest := by
  have h1 : (setErase set qi).Perm ((qi :: rest).filter (fun x => !x.sameKey qi)) :=
    hperm.filter _
  rw [List.filter_cons_of_neg (by simp [sameKey_refl])] at h1
  have h2 : rest.filter (fun x => !x.sameKey qi) = rest := by
    apply List.filter_eq_self.2
    intro x hx
    have := (List.pairwise_cons.1 hpair).1 x hx
    rw [sameKey_comm] at this
    simp [this]
  rw [h2] at h1
  exact h1

theorem dedupInv_nextLoop (f : Nat → Bool) (size : QueuedItem → Nat)
    (l : List QueuedItem) :
    ∀ p : TapProducer, p.queue_set.Perm l →
      l.Pairwise (fun a b => a.sameKey b = false) → p.queueSize = l.length →
      DedupInv (nextLoop f size l p).1 := by
  induction l with
  | nil =>
    intro p hperm _ hsize
    exact ⟨hperm, List.Pairwise.nil, hsize⟩
  | cons qi rest ih =>
    intro p hperm hpair hsize
    have herase := setErase_head qi rest p.queue_set hperm hpair
    have hpair2 := (List.pairwise_cons.1 hpair).2
    have hdecr : decrSizeT p.queueSize = rest.length := by
      rw [hsize]; exact decrSizeT_succ _
    cases hf : f qi.vbucket with
    | true =>
      rw [nextLoop_admitted f size qi rest p hf]
      exact ⟨herase, hpair2, hdecr⟩
    | false =>
      rw [nextLoop_rejected f size qi rest p hf]
      exact ih _ herase hpair2 hdecr

theorem dedupInv_next (f : Nat → Bool) (size : QueuedItem → Nat) (p : TapProducer)
    (h : DedupInv p) : DedupInv (p.next f size).1 :=
  dedupInv_nextLoop f size p.queue p h.1 h.2.1 h.2.2

theorem dedupInv_sizesAgree (p : TapProducer) (h : DedupInv p) : SizesAgree p :=
  ⟨h.1.length_eq.symm, h.1.length_eq.trans h.2.2.symm⟩

/-- C14 as stated fails: the empty producer has list length, set size and
`queueSize` all zero, and after `appendQueue` of a one-item batch the list has
one item and `queueSize` is one while the set is still empty. -/
theorem appendQueue_breaks_sizesAgree :
    SizesAgree emptyProducer ∧
    ¬ SizesAgree (emptyProducer.appendQueue exampleSize [itemK]).1 := by
  refine ⟨⟨rfl, rfl⟩, ?_⟩
  rintro ⟨h, _⟩
  exact absurd h (by decide)

/-- C14 (amended): "list length == `queue_set` size == `queueSize`" is preserved
by `addEvent` and by `flush` for every argument; together with "the set holds
exactly the items of the list and no two list items share a key and vbucket" it
is preserved by `addEvent`, `next` and `flush`; `appendQueue` appends the batch
to the list and leaves `queueSize` equal to the list length for every batch,
and does not touch the set. -/
theorem size_invariant_preserved :
    (∀ (f : Nat → Bool) (p : TapProducer) (it : QueuedItem),
      SizesAgree p → SizesAgree (p.addEvent f it).1) ∧
    (∀ p : TapProducer, SizesAgree p → SizesAgree p.flush) ∧
    (∀ (f : Nat → Bool) (p : TapProducer) (it : QueuedItem),
      DedupInv p → DedupInv (p.addEvent f it).1) ∧
    (∀ (f : Nat → Bool) (size : QueuedItem → Nat) (p : TapProducer),
      DedupInv p → DedupInv (p.next f size).1) ∧
    (∀ p : TapProducer, DedupInv p → DedupInv p.flush) ∧
    (∀ p : TapProducer, DedupInv p → SizesAgree p) ∧
    (∀ (size : QueuedItem → Nat) (p : TapProducer) (q : List QueuedItem),
      (p.appendQueue size q).1.queueSize = (p.appendQueue size q).1.queue.length ∧
      (p.appendQueue size q).1.queue = p.queue ++ q ∧
      (p.appendQueue size q).1.queue_set = p.queue_set) :=
  ⟨sizesAgree_addEvent, fun _ _ => ⟨rfl, rfl⟩, dedupInv_addEvent, dedupInv_next,
    fun _ _ => ⟨List.Perm.refl _, List.Pairwise.nil, rfl⟩, dedupInv_sizesAgree,
    fun _ _ _ => ⟨rfl, rfl, rfl⟩⟩

theorem size_invariant_preserved_witness :
    DedupInv (emptyProducer.addEvent admitAll itemK).1 ∧
    DedupInv ((emptyProducer.addEvent admitAll itemK).1.next admitAll exampleSize).1 ∧
    SizesAgree ((emptyProducer.addEvent admitAll itemK).1.next admitAll exampleSize).1 := by
  have h0 : DedupInv emptyProducer := ⟨List.Perm.refl _, List.Pairwise.nil, rfl⟩
  have h1 := size_invariant_preserved.2.2.1 admitAll emptyProducer itemK h0
  have h2 := size_invariant_preserved.2.2.2.1 admitAll exampleSize _ h1
  exact ⟨h1, h2, size_invariant_preserved.2.2.2.2.2.1 _ h2⟩

/-! ## Theorems: memory accounting -/

/-- C15, the code at the failing input: on the empty producer (`queueMemSize`
0, the sum over the empty list) `appendQueue` of the batch `[itemK]`, whose
item has size 25, moves the item into the list and hands the batch back empty,
but leaves `queueMemSize` at 0: the accounting loop runs over the batch after
the splice has emptied it.  `MemSizeInv` held before the call and fails after
it. -/
theorem appendQueue_skips_accounting :
    MemSizeInv exampleSize emptyProducer ∧
    (emptyProducer.appendQueue exampleSize [itemK]).1.queue = [itemK] ∧
    (emptyProducer.appendQueue exampleSize [itemK]).2 = [] ∧
    exampleSize itemK = 25 ∧
    (emptyProducer.appendQueue exampleSize [itemK]).1.queueMemSize = 0 ∧
    ¬ MemSizeInv exampleSize (emptyProducer.appendQueue exampleSize [itemK]).1 := by
  refine ⟨rfl, rfl, rfl, by decide, rfl, ?_⟩
  intro h
  have h25 : ((emptyProducer.appendQueue exampleSize [itemK]).1.queue.map exampleSize).sum
      = 25 := by decide
  rw [MemSizeInv, h25] at h
  exact absurd h (by decide)

/-! ## Theorems: next -/

theorem filter_setErase (set : List QueuedItem) (x : QueuedItem) (l : List QueuedItem) :
    (setErase set x).filter (fun y => !l.any (fun z => y.sameKey z)) =
      set.filter (fun y => !(x :: l).any (fun z => y.sameKey z)) := by
  unfold setErase
  rw [List.filter_filter]
  apply List.filter_congr
  intro y _
  simp only [List.any_cons, Bool.not_or]
  rw [Bool.and_comm]

theorem setErase_eq_filter (set : List QueuedItem) (x : QueuedItem) :
    setErase set x = set.filter (fun y => !([x].any (fun z => y.sameKey z))) := by
  unfold setErase
  apply List.filter_congr
  intro y _
  simp

theorem decrSizeT_pos {x : Nat} (h : 0 < x) : decrSizeT x + 1 = x := by
  unfold decrSizeT
  rw [if_neg (by omega)]
  omega

theorem nextLoop_found (f : Nat → Bool) (size : QueuedItem → Nat) (qi : QueuedItem)
    (rest : List QueuedItem) (hqi : f qi.vbucket = true) (pre : List QueuedItem) :
    ∀ p : TapProducer, (∀ x ∈ pre, f x.vbucket = false) →
      (nextLoop f size (pre ++ qi :: rest) p).2 = qi ∧
      (nextLoop f size (pre ++ qi :: rest) p).1.queue = rest ∧
      (nextLoop f size (pre ++ qi :: rest) p).1.queue_set =
        p.queue_set.filter (fun y => !(pre ++ [qi]).any (fun z => y.sameKey z)) ∧
      (nextLoop f size (pre ++ qi :: rest) p).1.recordsSkipped =
        p.recordsSkipped + pre.length ∧
      (nextLoop f size (pre ++ qi :: rest) p).1.recordsFetched = p.recordsFetched + 1 ∧
      (pre.length + 1 ≤ p.queueSize →
        (nextLoop f size (pre ++ qi :: rest) p).1.queueSize + (pre.length + 1) =
          p.queueSize) := by
  induction pre with
  | nil =>
    intro p _
    rw [List.nil_append, nextLoop_admitted f size qi rest p hqi]
    refine ⟨rfl, rfl, setErase_eq_filter _ _, rfl, rfl, ?_⟩
    intro hle
    show decrSizeT p.queueSize + (0 + 1) = p.queueSize
    have hle2 : 1 ≤ p.queueSize := hle
    have := decrSizeT_pos (x := p.queueSize) (by omega)
    omega
  | cons x pre ih =>
    intro p hpre
    have hx : f x.vbucket = false := hpre x (List.mem_cons_self _ _)
    have hrest : ∀ y ∈ pre, f y.vbucket = false :=
      fun y hy => hpre y (List.mem_cons_of_mem _ hy)
    rw [List.cons_append, nextLoop_rejected f size x _ p hx]
    obtain ⟨h1, h2, h3, h4, h5, h6⟩ := ih
      { popFront size p x (pre ++ qi :: rest) with
          recordsSkipped := (popFront size p x (pre ++ qi :: rest)).recordsSkipped + 1 }
      hrest
    refine ⟨h1, h2, ?_, ?_, h5, ?_⟩
    · rw [h3]
      exact filter_setErase p.queue_set x (pre ++ [qi])
    · rw [h4]
      show p.recordsSkipped + 1 + pre.length = p.recordsSkipped + (pre.length + 1)
      omega
    · intro hle
      have hle2 : pre.length + 1 + 1 ≤ p.queueSize := hle
      have hq := decrSizeT_pos (x := p.queueSize) (by omega)
      have h7 := h6 (by
        show pre.length + 1 ≤ decrSizeT p.queueSize
        omega)
      show _ + (pre.length + 1 + 1) = p.queueSize
      have h8 : (nextLoop f size (pre ++ qi :: rest)
          { popFront size p x (pre ++ qi :: rest) with
            recordsSkipped :=
              (popFront size p x (pre ++ qi :: rest)).recordsSkipped + 1 }).1.queueSize +
          (pre.length + 1) = decrSizeT p.queueSize := h7
      omega

theorem nextLoop_none (f : Nat → Bool) (size : QueuedItem → Nat) (l : List QueuedItem) :
    ∀ p : TapProducer, (∀ x ∈ l, f x.vbucket = false) →
      (nextLoop f size l p).2 = emptyItem ∧
      (nextLoop f size l p).1.queue = [] ∧
      (nextLoop f size l p).1.queue_set =
        p.queue_set.filter (fun y => !l.any (fun z => y.sameKey z)) ∧
      (nextLoop f size l p).1.recordsSkipped = p.recordsSkipped + l.length ∧
      (nextLoop f size l p).1.recordsFetched = p.recordsFetched ∧
      (l.length ≤ p.queueSize →
        (nextLoop f size l p).1.queueSize + l.length = p.queueSize) := by
  induction l with
  | nil =>
    intro p _
    rw [nextLoop]
    refine ⟨rfl, rfl, ?_, rfl, rfl, fun _ => rfl⟩
    show p.queue_set = _
    exact (List.filter_eq_self.2 (fun y _ => by simp)).symm
  | cons x l ih =>
    intro p hl
    have hx : f x.vbucket = false := hl x (List.mem_cons_self _ _)
    have hrest : ∀ y ∈ l, f y.vbucket = false :=
      fun y hy => hl y (List.mem_cons_of_mem _ hy)
    rw [nextLoop_rejected f size x l p hx]
    obtain ⟨h1, h2, h3, h4, h5, h6⟩ := ih
      { popFront size p x l with
          recordsSkipped := (popFront size p x l).recordsSkipped + 1 } hrest
    refine ⟨h1, h2, ?_, ?_, h5, ?_⟩
    · rw [h3]
      exact filter_setErase p.queue_set x l
    · rw [h4]
      show p.recordsSkipped + 1 + l.length = p.recordsSkipped + (l.length + 1)
      omega
    · intro hle
      have hle2 : l.length + 1 ≤ p.queueSize := hle
      have hq := decrSizeT_pos (x := p.queueSize) (by omega)
      have h7 : (nextLoop f size l
          { popFront size p x l with
            recordsSkipped := (popFront size p x l).recordsSkipped + 1 }).1.queueSize +
          l.length = decrSizeT p.queueSize := h6 (by
        show l.length ≤ decrSizeT p.queueSize
        omega)
      show _ + (l.length + 1) = p.queueSize
      omega

/-- C16: `next()` on a list `pre ++ qi :: rest`, where the filter rejects every
item of `pre` and admits `qi` (so `qi` is the first admitted item), returns
`qi`, leaves `rest` as the list, removes from the set the entries of `qi` and
of the items of `pre`, adds the number of items of `pre` to `recordsSkipped`
and one to `recordsFetched`, and lowers `queueSize` by the number of removed
items (when `queueSize` is at least that number, as it is when it caches the
list length).  On a list without an admitted item, the empty list included,
it returns `QueuedItem("", 0xffff, queue_op_empty)`, leaves the list empty and
does not change `recordsFetched`. -/
theorem next_spec (f : Nat → Bool) (size : QueuedItem → Nat) (p : TapProducer) :
    (∀ pre qi rest, p.queue = pre ++ qi :: rest →
      (∀ x ∈ pre, f x.vbucket = false) → f qi.vbucket = true →
      (p.next f size).2 = qi ∧
      (p.next f size).1.queue = rest ∧
      (p.next f size).1.queue_set =
        p.queue_set.filter (fun y => !(pre ++ [qi]).any (fun z => y.sameKey z)) ∧
      (p.next f size).1.recordsSkipped = p.recordsSkipped + pre.length ∧
      (p.next f size).1.recordsFetched = p.recordsFetched + 1 ∧
      (pre.length + 1 ≤ p.queueSize →
        (p.next f size).1.queueSize + (pre.length + 1) = p.queueSize)) ∧
    ((∀ x ∈ p.queue, f x.vbucket = false) →
      (p.next f size).2 = emptyItem ∧
      (p.next f size).1.queue = [] ∧
      (p.next f size).1.queue_set =
        p.queue_set.filter (fun y => !p.queue.any (fun z => y.sameKey z)) ∧
      (p.next f size).1.recordsSkipped = p.recordsSkipped + p.queue.length ∧
      (p.next f size).1.recordsFetched = p.recordsFetched ∧
      (p.queue.length ≤ p.queueSize →
        (p.next f size).1.queueSize + p.queue.length = p.queueSize)) := by
  constructor
  · intro pre qi rest hq hpre hqi
    unfold TapProducer.next
    rw [hq]
    exact nextLoop_found f size qi rest hqi pre p hpre
  · intro hall
    exact nextLoop_none f size p.queue p hall

theorem next_spec_witness :
    (TapProducer.next admitZero exampleSize
        { emptyProducer with queue := [itemJ, itemK], queue_set := [itemJ, itemK],
                             queueSize := 2 }).2 = itemK ∧
    (TapProducer.next admitZero exampleSize
        { emptyProducer with queue := [itemJ, itemK], queue_set := [itemJ, itemK],
                             queueSize := 2 }).1.recordsSkipped = 0 + 1 ∧
    (TapProducer.next admitZero exampleSize
        { emptyProducer with queue := [itemJ, itemK], queue_set := [itemJ, itemK],
                             queueSize := 2 }).1.queueSize + (1 + 1) = 2 :=
  have h := (next_spec admitZero exampleSize
        { emptyProducer with queue := [itemJ, itemK], queue_set := [itemJ, itemK],
                             queueSize := 2 }).1 [itemJ] itemK [] rfl
      (fun x hx => by rw [List.mem_singleton.1 hx]; rfl) rfl
  ⟨h.1, h.2.2.2.1, h.2.2.2.2.2 (by decide)⟩

/-! ## Theorems: order of delivery -/

theorem addAll_queue (f : Nat → Bool) (items : List QueuedItem) :
    ∀ p : TapProducer, p.queue_set = p.queue → (∀ it ∈ items, f it.vbucket = true) →
      (addAll f p items).queue = p.queue ++ keepFirstFrom p.queue items := by
  induction items with
  | nil => intro p _ _; simp [addAll, keepFirstFrom]
  | cons x xs ih =>
    intro p hset hadm
    have hx : f x.vbucket = true := hadm x (List.mem_cons_self _ _)
    have hxs : ∀ it ∈ xs, f it.vbucket = true :=
      fun it hit => hadm it (List.mem_cons_of_mem _ hit)
    show (addAll f (p.addEvent f x).1 xs).queue = _
    cases hany : p.queue_set.any (fun y => y.sameKey x) with
    | true =>
      rw [addEvent_dup f p x hx hany, ih p hset hxs]
      rw [hset] at hany
      rw [keepFirstFrom, if_pos hany]
    | false =>
      rw [addEvent_new f p x hx hany]
      rw [ih _ (by show p.queue_set ++ [x] = p.queue ++ [x]; rw [hset]) hxs]
      rw [hset] at hany
      rw [keepFirstFrom, if_neg (by rw [hany]; exact Bool.false_ne_true)]
      show (p.queue ++ [x]) ++ _ = _
      simp

theorem keepFirstFrom_subset (items : List QueuedItem) :
    ∀ seen : List QueuedItem, ∀ x ∈ keepFirstFrom seen items, x ∈ items := by
  induction items with
  | nil => intro seen x hx; cases hx
  | cons y ys ih =>
    intro seen x hx
    unfold keepFirstFrom at hx
    by_cases hs : seen.any (fun z => z.sameKey y) = true
    · rw [if_pos hs] at hx
      exact List.mem_cons_of_mem _ (ih seen x hx)
    · rw [if_neg hs] at hx
      rcases List.mem_cons.1 hx with rfl | hx2
      · exact List.mem_cons_self _ _
      · exact List.mem_cons_of_mem _ (ih _ x hx2)

theorem keepFirstFrom_length_le (items : List QueuedItem) :
    ∀ seen : List QueuedItem, (keepFirstFrom seen items).length ≤ items.length := by
  induction items with
  | nil => intro seen; exact Nat.le_refl _
  | cons y ys ih =>
    intro seen
    unfold keepFirstFrom
    by_cases hs : seen.any (fun z => z.sameKey y) = true
    · rw [if_pos hs]
      exact Nat.le_succ_of_le (ih seen)
    · rw [if_neg hs]
      exact Nat.succ_le_succ (ih _)

theorem drain_all (f : Nat → Bool) (size : QueuedItem → Nat) (l : List QueuedItem) :
    ∀ (p : TapProducer) (fuel : Nat), p.queue = l →
      (∀ x ∈ l, f x.vbucket = true ∧ x ≠ emptyItem) → l.length < fuel →
      drain f size fuel p = l := by
  induction l with
  | nil =>
    intro p fuel hq _ hfuel
    cases fuel with
    | zero => cases hfuel
    | succ n =>
      have hnext : (p.next f size).2 = emptyItem := by
        unfold TapProducer.next
        rw [hq]
        rfl
      rw [drain, if_pos hnext]
  | cons x xs ih =>
    intro p fuel hq hall hfuel
    cases fuel with
    | zero => cases hfuel
    | succ n =>
      obtain ⟨hfx, hne⟩ := hall x (List.mem_cons_self _ _)
      have hnext : p.next f size =
          ({ popFront size p x xs with
              recordsFetched := (popFront size p x xs).recordsFetched + 1 }, x) := by
        unfold TapProducer.next
        rw [hq]
        exact nextLoop_admitted f size x xs p hfx
      rw [drain, hnext, if_neg hne]
      rw [ih _ n rfl (fun y hy => hall y (List.mem_cons_of_mem _ hy))
        (Nat.lt_of_succ_lt_succ hfuel)]

/-- C17: starting from an empty queue (empty list, empty dedup set) with a
fixed filter, after `addEvent` for each of `items` (all admitted by the filter,
none of them the empty item `next()` returns on an empty queue), calling
`next()` until it returns the empty item yields, for any bound on the number
of calls above `items.length`, exactly `keepFirst items`: the inserted items in
insertion order, each key and vbucket at its first insertion only. -/
theorem drain_after_addAll (f : Nat → Bool) (size : QueuedItem → Nat) (p : TapProducer)
    (items : List QueuedItem) (fuel : Nat)
    (hq : p.queue = []) (hs : p.queue_set = [])
    (hadm : ∀ it ∈ items, f it.vbucket = true)
    (hreal : ∀ it ∈ items, it ≠ emptyItem)
    (hfuel : items.length < fuel) :
    drain f size fuel (addAll f p items) = keepFirst items := by
  have hqueue : (addAll f p items).queue = keepFirst items := by
    rw [addAll_queue f items p (by rw [hq, hs]) hadm, hq]
    rfl
  apply drain_all f size (keepFirst items) _ fuel hqueue
  · intro x hx
    have hmem := keepFirstFrom_subset items [] x hx
    exact ⟨hadm x hmem, hreal x hmem⟩
  · exact lt_of_le_of_lt (keepFirstFrom_length_le items []) hfuel

theorem drain_after_addAll_witness :
    drain admitAll exampleSize 4 (addAll admitAll emptyProducer [itemK, itemJ, itemKDel]) =
      keepFirst [itemK, itemJ, itemKDel] ∧
    keepFirst [itemK, itemJ, itemKDel] = [itemK, itemJ] :=
  ⟨drain_after_addAll admitAll exampleSize emptyProducer [itemK, itemJ, itemKDel] 4
      rfl rfl (fun _ _ => rfl) (by decide) (by decide),
    by decide⟩

/-! ## Theorems: the operation kept for a key -/

/-- C18 as stated fails: after `addEvent` of a mutation of key `k` in vbucket 0
and then of a deletion of the same key and vbucket, the single item pending
for that key is the mutation, not the most recent insert. -/
theorem addEvent_keeps_first_op :
    ((emptyProducer.addEvent admitAll itemK).1.addEvent admitAll itemKDel).1.queue
      = [itemK] ∧
    itemK.sameKey itemKDel = true ∧
    ¬ (∀ x ∈ ((emptyProducer.addEvent admitAll itemK).1.addEvent admitAll itemKDel).1.queue,
        x.sameKey itemKDel = true → x.op = itemKDel.op) := by
  refine ⟨by decide, by decide, ?_⟩
  intro h
  exact absurd (h itemK (by decide) (by decide)) (by decide)

/-- C18 (amended): when two items with the same key and vbucket are inserted
with `addEvent` one after the other (the filter admitting their vbucket), the
second insert changes nothing; if no item with that key and vbucket was
pending before, the queue after both inserts is the old list followed by the
first of the two items, with the operation of the first insert. -/
theorem addEvent_second_insert_skipped (f : Nat → Bool) (p : TapProducer)
    (a b : QueuedItem) (hset : SetMatchesList p)
    (hf : f a.vbucket = true) (hsame : a.sameKey b = true) :
    ((p.addEvent f a).1.addEvent f b).1 = (p.addEvent f a).1 ∧
    ((∀ y ∈ p.queue, y.sameKey a = false) →
      ((p.addEvent f a).1.addEvent f b).1.queue = p.queue ++ [a]) := by
  have hfb : f b.vbucket = true := by
    rw [← ((sameKey_iff a b).1 hsame).2]; exact hf
  have hpending : (p.addEvent f a).1.queue_set.any (fun x => x.sameKey b) = true := by
    cases hany : p.queue_set.any (fun x => x.sameKey a) with
    | true =>
      rw [addEvent_dup f p a hf hany]
      obtain ⟨x, hx, hxa⟩ := List.any_eq_true.1 hany
      exact List.any_eq_true.2 ⟨x, hx, sameKey_trans hxa hsame⟩
    | false =>
      rw [addEvent_new f p a hf hany]
      exact List.any_eq_true.2 ⟨a, List.mem_append_right _ (List.mem_singleton.2 rfl), hsame⟩
  have hskip : ((p.addEvent f a).1.addEvent f b).1 = (p.addEvent f a).1 := by
    rw [addEvent_dup f _ b hfb hpending]
  refine ⟨hskip, ?_⟩
  intro hnone
  have hany : p.queue_set.any (fun x => x.sameKey a) = false := by
    rw [any_sameKey_perm hset a]
    cases hq : p.queue.any (fun x => x.sameKey a) with
    | false => rfl
    | true =>
      obtain ⟨y, hy, hya⟩ := List.any_eq_true.1 hq
      rw [hnone y hy] at hya
      cases hya
  rw [hskip, addEvent_new f p a hf hany]

theorem addEvent_second_insert_skipped_witness :
    SetMatchesList emptyProducer ∧ itemK.sameKey itemKDel = true ∧
    ((emptyProducer.addEvent admitAll itemK).1.addEvent admitAll itemKDel).1 =
      (emptyProducer.addEvent admitAll itemK).1 :=
  ⟨List.Perm.refl _, by decide,
    (addEvent_second_insert_skipped admitAll emptyProducer itemK itemKDel
      (List.Perm.refl _) rfl (by decide)).1⟩

/-! ## Theorems: the end of a backfill -/

theorem empty_iff (p : TapProducer) :
    p.empty = true ↔ p.bgQueueSize = 0 ∧ p.bgResultSize = 0 ∧ p.queue = [] := by
  unfold TapProducer.empty TapProducer.hasQueuedItem
  simp [List.isEmpty_iff, and_assoc]

theorem idle_iff (p : TapProducer) :
    p.idle = true ↔ p.empty = true ∧ NothingInFlight p := by
  unfold TapProducer.idle NothingInFlight
  simp [List.isEmpty_iff, and_assoc]

theorem jobsDiff_eq_zero_iff (a b : Nat) (ha : a < sizeTSize) (hb : b < sizeTSize) :
    (a + sizeTSize - b % sizeTSize) % sizeTSize = 0 ↔ a = b := by
  unfold sizeTSize at *
  omega

theorem isPendingBackfill_false_iff (p : TapProducer)
    (hi : p.bgJobIssued < sizeTSize) (hc : p.bgJobCompleted < sizeTSize) :
    p.isPendingBackfill = false ↔
      p.pendingBackfill = false ∧ p.diskBackfillCounter = 0 ∧
        p.bgJobIssued = p.bgJobCompleted := by
  unfold TapProducer.isPendingBackfill TapProducer.isPendingDiskBackfill
  have hj := jobsDiff_eq_zero_iff p.bgJobIssued p.bgJobCompleted hi hc
  simp [hj, and_assoc]

theorem complete_idle_iff (p : TapProducer)
    (hi : p.bgJobIssued < sizeTSize) (hc : p.bgJobCompleted < sizeTSize) :
    (p.complete && p.idle) = true ↔ BackfillDone p ∧ NothingInFlight p := by
  have he := empty_iff p
  have hp := isPendingBackfill_false_iff p hi hc
  rw [Bool.and_eq_true, idle_iff]
  unfold TapProducer.complete BackfillDone
  rw [Bool.and_eq_true, Bool.and_eq_true, Bool.not_eq_true', hp, he]
  tauto

theorem completeBackfillCommon_disconnect (p : TapProducer)
    (hi : p.bgJobIssued < sizeTSize) (hc : p.bgJobCompleted < sizeTSize) :
    (BackfillDone p ∧ NothingInFlight p →
      p.completeBackfillCommon = { p with disconnect := true }) ∧
    (¬ (BackfillDone p ∧ NothingInFlight p) → p.completeBackfillCommon = p) := by
  have h := complete_idle_iff p hi hc
  unfold TapProducer.completeBackfillCommon
  constructor
  · intro hd
    rw [if_pos (h.2 hd)]
    rfl
  · intro hd
    rw [if_neg (fun hcond => hd (h.1 hcond))]

/-- C27 (counterexample): a dump-mode producer with empty queue, empty
background-fetch queues and no backfill pending after the counter update, but
with one sent item still waiting for its ack in `tapLog`, is left with
`disconnect = false` by `completeBackfill()` and by `completeDiskBackfill()`. -/
theorem completeBackfill_keeps_connection_awaiting_ack :
    BackfillDone { dumpProducerAwaitingAck with pendingBackfill := false } ∧
    dumpProducerAwaitingAck.completeBackfill.disconnect = false ∧
    BackfillDone
      { ({ dumpProducerAwaitingAck with diskBackfillCounter := 1 } : TapProducer) with
        diskBackfillCounter := decrSizeT 1 } ∧
    (TapProducer.completeDiskBackfill
      { dumpProducerAwaitingAck with diskBackfillCounter := 1 }).disconnect = false ∧
    (TapProducer.completeDiskBackfill
      { dumpProducerAwaitingAck with diskBackfillCounter := 1 }).diskBackfillCounter = 0 := by
  decide

/-- C27 (amended): for every producer state (the two job counters being
`size_t` values), if after `completeBackfill()` or `completeDiskBackfill()` has
updated its counter the producer is in dump mode, its queue and
background-fetch queues are empty, no backfill is pending, and in addition both
vbucket event queues and `tapLog` are empty, then the call leaves the producer
with `disconnect = true` and otherwise as the counter update left it; when one
of these conditions fails the call does nothing beyond the counter update.
`completeDiskBackfill` decreases a positive `diskBackfillCounter` by exactly 1. -/
theorem completeBackfill_disconnects_when_idle (p : TapProducer)
    (hi : p.bgJobIssued < sizeTSize) (hc : p.bgJobCompleted < sizeTSize) :
    (BackfillDone { p with pendingBackfill := false } ∧ NothingInFlight p →
      p.completeBackfill = { p with pendingBackfill := false, disconnect := true }) ∧
    (¬ (BackfillDone { p with pendingBackfill := false } ∧ NothingInFlight p) →
      p.completeBackfill = { p with pendingBackfill := false }) ∧
    (BackfillDone { p with diskBackfillCounter := decrSizeT p.diskBackfillCounter } ∧
        NothingInFlight p →
      p.completeDiskBackfill =
        { p with diskBackfillCounter := decrSizeT p.diskBackfillCounter,
                 disconnect := true }) ∧
    (¬ (BackfillDone { p with diskBackfillCounter := decrSizeT p.diskBackfillCounter } ∧
        NothingInFlight p) →
      p.completeDiskBackfill =
        { p with diskBackfillCounter := decrSizeT p.diskBackfillCounter }) ∧
    (0 < p.diskBackfillCounter →
      p.completeDiskBackfill.diskBackfillCounter + 1 = p.diskBackfillCounter) := by
  have h1 := completeBackfillCommon_disconnect { p with pendingBackfill := false } hi hc
  have h2 := completeBackfillCommon_disconnect
    { p with diskBackfillCounter := decrSizeT p.diskBackfillCounter } hi hc
  refine ⟨h1.1, h1.2, h2.1, h2.2, ?_⟩
  intro hpos
  have hdec : decrSizeT p.diskBackfillCounter + 1 = p.diskBackfillCounter := by
    unfold decrSizeT
    rw [if_neg (Nat.pos_iff_ne_zero.1 hpos)]
    omega
  by_cases hd : BackfillDone { p with diskBackfillCounter := decrSizeT p.diskBackfillCounter } ∧
      NothingInFlight p
  · show (TapProducer.completeBackfillCommon
      { p with diskBackfillCounter := decrSizeT p.diskBackfillCounter }).diskBackfillCounter
      + 1 = _
    rw [h2.1 hd]; exact hdec
  · show (TapProducer.completeBackfillCommon
      { p with diskBackfillCounter := decrSizeT p.diskBackfillCounter }).diskBackfillCounter
      + 1 = _
    rw [h2.2 hd]; exact hdec

theorem completeBackfill_disconnects_when_idle_witness :
    (TapProducer.completeDiskBackfill
      { emptyProducer with dumpQueue := true, diskBackfillCounter := 1 }) =
      { emptyProducer with dumpQueue := true, diskBackfillCounter := 0,
                           disconnect := true } :=
  (completeBackfill_disconnects_when_idle
    { emptyProducer with dumpQueue := true, diskBackfillCounter := 1 }
    (by decide) (by decide)).2.2.1 (by decide)


/-! ## Theorems: the ack log -/

/-- C29: when `supportAck` is true, `addTapLogElement(item)` appends exactly one
element at the tail of `tapLog`, carrying the producer's current `seqno` and
the item's vbucket and key, and `addTapLogElement_UNLOCKED(event)` appends
exactly one element carrying the current `seqno` and the event's kind, vbucket
and state; when `supportAck` is false both leave the producer unchanged.  In
both cases the old entries of `tapLog` stay in place, in order, and no other
member changes. -/
theorem addTapLogElement_spec (p : TapProducer) (item : QueuedItem)
    (event : TapVBucketEvent) :
    (p.supportAck = true →
      (∃ x, (p.addTapLogElement item).tapLog = p.tapLog ++ [x] ∧ x.seqno = p.seqno ∧
        x.vbucket = item.vbucket ∧ x.key = item.key) ∧
      (∃ y, (p.addTapLogElement_UNLOCKED event).tapLog = p.tapLog ++ [y] ∧
        y.seqno = p.seqno ∧ y.event = event.event ∧ y.vbucket = event.vbucket ∧
        y.state = event.state)) ∧
    (p.supportAck = false →
      p.addTapLogElement item = p ∧ p.addTapLogElement_UNLOCKED event = p) ∧
    p.tapLog <+: (p.addTapLogElement item).tapLog ∧
    p.tapLog <+: (p.addTapLogElement_UNLOCKED event).tapLog ∧
    { p.addTapLogElement item with tapLog := p.tapLog } = p ∧
    { p.addTapLogElement_UNLOCKED event with tapLog := p.tapLog } = p := by
  unfold TapProducer.addTapLogElement TapProducer.addTapLogElement_UNLOCKED
  by_cases hs : p.supportAck = true
  · rw [if_pos hs, if_pos hs]
    refine ⟨fun _ => ⟨⟨TapLogElement.ofItem p.seqno item, rfl, rfl, rfl, rfl⟩,
      ⟨TapLogElement.ofEvent p.seqno event, rfl, rfl, rfl, rfl, rfl⟩⟩,
      fun h => ?_, List.prefix_append _ _, List.prefix_append _ _, ?_, ?_⟩
    · rw [hs] at h; cases h
    · cases p; rfl
    · cases p; rfl
  · rw [if_neg hs, if_neg hs]
    refine ⟨fun h => absurd h hs, fun _ => ⟨rfl, rfl⟩, List.prefix_refl _,
      List.prefix_refl _, ?_, ?_⟩
    · cases p; rfl
    · cases p; rfl

theorem addTapLogElement_spec_witness :
    (dumpProducerAwaitingAck.addTapLogElement itemJ).tapLog =
      [TapLogElement.ofItem 4 itemK, TapLogElement.ofItem 5 itemJ] ∧
    (dumpProducerAwaitingAck.addTapLogElement_UNLOCKED opaqueEvent).tapLog =
      [TapLogElement.ofItem 4 itemK,
       { seqno := 5, event := tap_event_t.TAP_OPAQUE, vbucket := 3, state := 8, key := "" }] ∧
    emptyProducer.addTapLogElement itemJ = emptyProducer ∧
    emptyProducer.addTapLogElement_UNLOCKED opaqueEvent = emptyProducer :=
  ⟨by decide, by decide,
   ((addTapLogElement_spec emptyProducer itemJ opaqueEvent).2.1 rfl).1,
   ((addTapLogElement_spec emptyProducer itemJ opaqueEvent).2.1 rfl).2⟩


/-! ## Theorems: the vbucket event queues -/

theorem fetched_spec (p : TapProducer) (ret : TapVBucketEvent) :
    (fetched p ret).2 = ret ∧
    (fetched p ret).1.recordsFetched = p.recordsFetched + 1 ∧
    (fetched p ret).1.tapLog = logged p ret ∧
    (fetched p ret).1.vBucketHighPriority = p.vBucketHighPriority ∧
    (fetched p ret).1.vBucketLowPriority = p.vBucketLowPriority := by
  unfold fetched TapProducer.addTapLogElement_UNLOCKED logged
  by_cases hs : p.supportAck = true
  · simp [hs]
  · simp [hs]

theorem highLoop_send (f : Nat → Bool) (a : Nat) (ret : TapVBucketEvent)
    (rest : List TapVBucketEvent) (p : TapProducer) (h : Sendable f a ret) :
    (highLoop f a (ret :: rest) p).2 = ret ∧
    (highLoop f a (ret :: rest) p).1.vBucketHighPriority = rest ∧
    (highLoop f a (ret :: rest) p).1.recordsFetched = p.recordsFetched + 1 ∧
    (highLoop f a (ret :: rest) p).1.tapLog = logged p ret := by
  have hf1 := fetched_spec { p with vBucketHighPriority := rest } ret
  have hf2 := fetched_spec
    { p with vBucketHighPriority := rest, opaqueCommandCode := ret.state } ret
  have hres : highLoop f a (ret :: rest) p = fetched { p with vBucketHighPriority := rest } ret ∨
      highLoop f a (ret :: rest) p =
        fetched { p with vBucketHighPriority := rest, opaqueCommandCode := ret.state } ret := by
    unfold Sendable at h
    obtain ⟨ev, vb, st⟩ := ret
    cases ev <;> simp only [highLoop] <;> simp only [reduceCtorEq, false_and, or_false] at h <;>
      first
      | (left; rw [if_neg (by simp [h])])
      | (right
         by_cases hst : st = a
         · rw [if_pos hst]
         · rw [if_neg hst]
           have hv : f vb = true := by
             rcases h with h | h
             · exact h
             · exact absurd h.2 hst
           rw [if_neg (by simp [hv])])
  rcases hres with hres | hres
  · rw [hres]; exact ⟨hf1.1, hf1.2.2.2.1, hf1.2.1, hf1.2.2.1⟩
  · rw [hres]; exact ⟨hf2.1, hf2.2.2.2.1, hf2.2.1, hf2.2.2.1⟩

theorem highLoop_skip (f : Nat → Bool) (a : Nat) (ret : TapVBucketEvent)
    (rest : List TapVBucketEvent) (p : TapProducer) (h : ¬ Sendable f a ret) :
    ∃ p1 : TapProducer, highLoop f a (ret :: rest) p = highLoop f a rest p1 ∧
      p1.recordsFetched = p.recordsFetched ∧ p1.tapLog = p.tapLog ∧
      p1.supportAck = p.supportAck ∧ p1.seqno = p.seqno := by
  unfold Sendable at h
  have hv : f ret.vbucket = false := by
    cases hfv : f ret.vbucket with
    | false => rfl
    | true => exact absurd (Or.inl hfv) h
  obtain ⟨ev, vb, st⟩ := ret
  simp only at hv
  cases ev <;> simp only [highLoop]
  case TAP_OPAQUE =>
    have hst : ¬ st = a := fun hst => h (Or.inr ⟨rfl, hst⟩)
    rw [if_neg hst, if_pos (by simp [hv])]
    exact ⟨_, rfl, rfl, rfl, rfl, rfl⟩
  all_goals
    rw [if_pos (by simp [hv])]
    exact ⟨_, rfl, rfl, rfl, rfl, rfl⟩

theorem highLoop_found (f : Nat → Bool) (a : Nat) (e : TapVBucketEvent)
    (post : List TapVBucketEvent) (he : Sendable f a e) :
    ∀ (pre : List TapVBucketEvent) (p : TapProducer),
      (∀ x ∈ pre, ¬ Sendable f a x) →
      (highLoop f a (pre ++ e :: post) p).2 = e ∧
      (highLoop f a (pre ++ e :: post) p).1.vBucketHighPriority = post ∧
      (highLoop f a (pre ++ e :: post) p).1.recordsFetched = p.recordsFetched + 1 ∧
      (highLoop f a (pre ++ e :: post) p).1.tapLog = logged p e := by
  intro pre
  induction pre with
  | nil =>
    intro p _
    exact highLoop_send f a e post p he
  | cons x pre ih =>
    intro p hpre
    obtain ⟨p1, heq, hrf, hlog, hsa, hseq⟩ :=
      highLoop_skip f a x (pre ++ e :: post) p (hpre x (List.mem_cons_self _ _))
    rw [List.cons_append, heq]
    obtain ⟨h1, h2, h3, h4⟩ := ih p1 (fun y hy => hpre y (List.mem_cons_of_mem _ hy))
    refine ⟨h1, h2, by rw [h3, hrf], ?_⟩
    rw [h4]
    unfold logged
    rw [hsa, hlog, hseq]

theorem highLoop_none (f : Nat → Bool) (a : Nat) :
    ∀ (l : List TapVBucketEvent) (p : TapProducer),
      (∀ x ∈ l, ¬ Sendable f a x) →
      (highLoop f a l p).2 = pauseEvent ∧
      (highLoop f a l p).1.vBucketHighPriority = [] ∧
      (highLoop f a l p).1.recordsFetched = p.recordsFetched ∧
      (highLoop f a l p).1.tapLog = p.tapLog := by
  intro l
  induction l with
  | nil => intro p _; exact ⟨rfl, rfl, rfl, rfl⟩
  | cons x l ih =>
    intro p hall
    obtain ⟨p1, heq, hrf, hlog, _, _⟩ :=
      highLoop_skip f a x l p (hall x (List.mem_cons_self _ _))
    rw [heq]
    obtain ⟨h1, h2, h3, h4⟩ := ih p1 (fun y hy => hall y (List.mem_cons_of_mem _ hy))
    exact ⟨h1, h2, h3.trans hrf, h4.trans hlog⟩


/-- C31: `nextVBucketHighPriority_UNLOCKED` is total.  On a queue
`pre ++ e :: post` where no event of `pre` is sendable and `e` is (its vbucket
is admitted by the filter, or it is a `TAP_OPAQUE` event whose state is
`htonl(TAP_OPAQUE_ENABLE_AUTO_NACK)`), it returns `e`, leaves `post` as the
queue, adds one to `recordsFetched` and appends `e`, with the current seqno, to
`tapLog` when `supportAck` is set (and leaves `tapLog` alone otherwise).  On a
queue without a sendable event, the empty one included, it returns
`TapVBucketEvent(TAP_PAUSE, 0, vbucket_state_active)`, leaves the queue empty
and changes neither `recordsFetched` nor `tapLog`. -/
theorem nextVBucketHighPriority_spec (f : Nat → Bool) (autoNack : Nat) (p : TapProducer) :
    (∀ pre e post, p.vBucketHighPriority = pre ++ e :: post →
      (∀ x ∈ pre, ¬ Sendable f autoNack x) → Sendable f autoNack e →
      (p.nextVBucketHighPriority_UNLOCKED f autoNack).2 = e ∧
      (p.nextVBucketHighPriority_UNLOCKED f autoNack).1.vBucketHighPriority = post ∧
      (p.nextVBucketHighPriority_UNLOCKED f autoNack).1.recordsFetched
        = p.recordsFetched + 1 ∧
      (p.nextVBucketHighPriority_UNLOCKED f autoNack).1.tapLog =
        if p.supportAck then p.tapLog ++ [TapLogElement.ofEvent p.seqno e]
        else p.tapLog) ∧
    ((∀ x ∈ p.vBucketHighPriority, ¬ Sendable f autoNack x) →
      (p.nextVBucketHighPriority_UNLOCKED f autoNack).2 = pauseEvent ∧
      (p.nextVBucketHighPriority_UNLOCKED f autoNack).1.vBucketHighPriority = [] ∧
      (p.nextVBucketHighPriority_UNLOCKED f autoNack).1.recordsFetched = p.recordsFetched ∧
      (p.nextVBucketHighPriority_UNLOCKED f autoNack).1.tapLog = p.tapLog) := by
  constructor
  · intro pre e post hq hpre he
    unfold TapProducer.nextVBucketHighPriority_UNLOCKED
    rw [hq]
    exact highLoop_found f autoNack e post he pre p hpre
  · intro hall
    exact highLoop_none f autoNack p.vBucketHighPriority p hall

theorem nextVBucketHighPriority_spec_witness :
    (TapProducer.nextVBucketHighPriority_UNLOCKED admitZero 0
        { emptyProducer with vBucketHighPriority := [setEventVb1, setEventVb0, lowEventVb0],
                             supportAck := true, seqno := 7 }).2 = setEventVb0 ∧
    (TapProducer.nextVBucketHighPriority_UNLOCKED admitZero 0
        { emptyProducer with vBucketHighPriority := [setEventVb1, setEventVb0, lowEventVb0],
                             supportAck := true, seqno := 7 }).1.vBucketHighPriority
      = [lowEventVb0] ∧
    (TapProducer.nextVBucketHighPriority_UNLOCKED admitZero 0
        { emptyProducer with vBucketHighPriority := [setEventVb1, setEventVb0, lowEventVb0],
                             supportAck := true, seqno := 7 }).1.recordsFetched = 0 + 1 ∧
    (TapProducer.nextVBucketHighPriority_UNLOCKED admitZero 0
        { emptyProducer with vBucketHighPriority := [setEventVb1, setEventVb0, lowEventVb0],
                             supportAck := true, seqno := 7 }).1.tapLog
      = [TapLogElement.ofEvent 7 setEventVb0] :=
  (nextVBucketHighPriority_spec admitZero 0
    { emptyProducer with vBucketHighPriority := [setEventVb1, setEventVb0, lowEventVb0],
                         supportAck := true, seqno := 7 }).1
    [setEventVb1] setEventVb0 [lowEventVb0] rfl (by decide) (by decide)

/-! ## Theorems: the low-priority getter -/

/-- C32, the code at the failing input: with the filter admitting vbucket 0
only, the low-priority queue holding an event for vbucket 1 followed by one for
vbucket 0, and the high-priority queue holding one event for vbucket 0,
`nextVBucketLowPriority_UNLOCKED` pops the rejected low-priority event and then
returns the high-priority event, which it removes from the high-priority
queue; the returned event is neither the `TAP_PAUSE` placeholder nor an event
of the low-priority queue, and the admitted low-priority event stays queued. -/
theorem nextVBucketLowPriority_takes_high_priority_event :
    (TapProducer.nextVBucketLowPriority_UNLOCKED admitZero 0
        { emptyProducer with vBucketLowPriority := [setEventVb1, lowEventVb0],
                             vBucketHighPriority := [setEventVb0] }).2 = setEventVb0 ∧
    setEventVb0 ≠ pauseEvent ∧
    setEventVb0 ∉ [setEventVb1, lowEventVb0] ∧
    (TapProducer.nextVBucketLowPriority_UNLOCKED admitZero 0
        { emptyProducer with vBucketLowPriority := [setEventVb1, lowEventVb0],
                             vBucketHighPriority := [setEventVb0] }).1.vBucketHighPriority
      = [] ∧
    (TapProducer.nextVBucketLowPriority_UNLOCKED admitZero 0
        { emptyProducer with vBucketLowPriority := [setEventVb1, lowEventVb0],
                             vBucketHighPriority := [setEventVb0] }).1.vBucketLowPriority
      = [lowEventVb0] := by
  decide


end TapConnection

namespace DcpResponse

/-! ## Theorems: the size of a mutation message -/

/-- C26 (counterexample): for a mutation with a 3-byte key and a 10-byte value
whose first 4 bytes are xattrs, base sizes 55 and 42: with value and xattrs
included `getMessageSize()` is 68 while the stated formula gives 72, and with
neither included it is 58 while the stated formula gives 64. -/
theorem getMessageSize_differs_from_stated_formula :
    getMessageSize 55 42 exampleResponse = 68 ∧
    specMessageSize 55 42 exampleResponse = 72 ∧
    getMessageSize 55 42
      { exampleResponse with includeValue := false, includeXattributes := false } = 58 ∧
    specMessageSize 55 42
      { exampleResponse with includeValue := false, includeXattributes := false } = 64 := by
  decide

/-- C26 (amended): for every item whose value size is a `uint32_t` and whose
xattr body offset does not exceed the value size, and every setting of
`includeValue` and `includeXattrs`, `getMessageSize()` equals
`base + key.size + V + X + extMeta.size` modulo `2 ^ 32`, where `V` is
`value.size − xattrSize` when the value is included and 0 when it is not, and
`base`, `X`, `extMeta.size` and `xattrSize` are as stated; the two are equal
when the sum fits a `uint32_t`. -/
theorem getMessageSize_eq (mutationBaseMsgBytes deletionBaseMsgBytes : Nat)
    (r : MutationResponse)
    (hoff : xattrSize r.item_ ≤ r.item_.nbytes) (hn : r.item_.nbytes < uint32Size) :
    getMessageSize mutationBaseMsgBytes deletionBaseMsgBytes r =
      bodyMessageSize mutationBaseMsgBytes deletionBaseMsgBytes r % uint32Size ∧
    (bodyMessageSize mutationBaseMsgBytes deletionBaseMsgBytes r < uint32Size →
      getMessageSize mutationBaseMsgBytes deletionBaseMsgBytes r =
        bodyMessageSize mutationBaseMsgBytes deletionBaseMsgBytes r) := by
  have hmod : getMessageSize mutationBaseMsgBytes deletionBaseMsgBytes r =
      bodyMessageSize mutationBaseMsgBytes deletionBaseMsgBytes r % uint32Size := by
    obtain ⟨⟨del, ks, nb, xd, bo⟩, iv, ix, emd⟩ := r
    unfold getMessageSize bodyMessageSize xattrSize extMetaSize
    unfold xattrSize at hoff
    unfold uint32Size at *
    cases del <;> cases xd <;> cases iv <;> cases ix <;> cases emd <;>
      simp at * <;> omega
  refine ⟨hmod, fun hlt => ?_⟩
  rw [hmod, Nat.mod_eq_of_lt hlt]

theorem getMessageSize_eq_witness :
    getMessageSize 55 42 exampleResponse = 68 :=
  ((getMessageSize_eq 55 42 exampleResponse (by decide) (by decide)).2 (by decide))

end DcpResponse
